import Mathlib

/-!
# Sales dashboard: the analytics aggregation and filtering engine

A shallow embedding of the analytics core of the dashboard
(`src/utils/calculators.js`, `src/utils/dateUtils.js`, `src/hooks/useFilters.js`,
`src/hooks/useSalesData.js`, `src/context/DashboardContext.jsx`) together with the
properties established about it.

Modelling conventions.

* A JavaScript number is a rational (`ℚ`) and the arithmetic is exact; an amount is a
  number or absent.  The revenue sums have a second version in `Binary64`, rounded as the
  runtime rounds, for the property that depends on the rounding.  Where the code can
  produce `NaN` the value has type `JsNum = Option ℚ`, `none` standing for `NaN`.
* A `Date` is its time value: `Option Int`, milliseconds since the epoch, `none` for
  an invalid date.  `new Date(string)` is the parameter `parseDate`.  For the presets the
  local time zone is a constant offset `tz` (milliseconds east of UTC); for the end of
  day of the filter pipeline and for `setDate(getDate() - 1)` it is a `Zone` with its
  daylight-saving transitions.
* `String.prototype.toLowerCase` is the parameter `toLowerCase`.
* A record field that is absent (`undefined`) is `none`.
* A plain object used as a dictionary is the list of its properties in the order of
  their creation; `ownProperties` lists them as the runtime does, array indices first.
  A lookup with a name inherited from `Object.prototype` (`inheritedNames`) finds the
  inherited value: the dictionaries of buckets get no entry for such a key, and the
  dictionaries of totals are modelled for the other names only.
* `Array.prototype.sort` is a stable sort; it is modelled by `List.insertionSort` with
  the relation "the comparator does not put `b` before `a`".
-/

namespace SalesDashboard

/-! ## Numbers -/

/-- A JavaScript number that may be `NaN` (`none`). -/
abbrev JsNum := Option ℚ

/-! ## `src/utils/calculators.js` -/

namespace Calculators

/-- `calculatePercentChange(current, previous)` of `utils/calculators.js`. -/
def calculatePercentChange (current previous : ℚ) : ℚ :=
  if previous = 0 then
    (if current > 0 then 100 else 0)
  else
    ((current - previous) / |previous|) * 100

/-- `Number(x) || 0` for a field holding a number or nothing. -/
def numberOrZero : Option ℚ → ℚ
  | some q => q
  | none => 0

/-- The comparator of `findTopItems`, as the order it induces: `a` may stand before `b`
when `valueB - valueA ≤ 0`. -/
def topItemsOrder {α : Type} (field : α → Option ℚ) (a b : α) : Prop :=
  numberOrZero (field b) - numberOrZero (field a) ≤ 0

instance {α : Type} (field : α → Option ℚ) : DecidableRel (topItemsOrder field) :=
  fun a b => inferInstanceAs (Decidable (numberOrZero (field b) - numberOrZero (field a) ≤ 0))

/-- `findTopItems(data, field, n)` of `utils/calculators.js`; `field` reads the item's
field. -/
def findTopItems {α : Type} (field : α → Option ℚ) (data : List α) (n : Nat) : List α :=
  if data.length = 0 then []
  else (data.insertionSort (topItemsOrder field)).take n

end Calculators

/-! ## The percent change applied by the provider -/

namespace DashboardProvider

/-- The inline `calculatePercentChange` of the comparison effect of `DashboardProvider`
(`DashboardContext.jsx`, lines 96-99), on numbers that are not `NaN`. -/
def calculatePercentChange (current previous : ℚ) : ℚ :=
  if previous = 0 then (if current > 0 then 100 else 0)
  else ((current - previous) / previous) * 100

end DashboardProvider

/-! ## Calendar arithmetic of the runtime

`Date.prototype.toISOString` and the parsing of ISO date strings belong to the
JavaScript runtime.  The general results below take the parser as a parameter; the two
functions of this section are the runtime's behaviour on plain ISO dates and serve the
concrete scenarios. -/

/-- Milliseconds in one day. -/
def msPerDay : Int := 86400000

/-- Days from 1970-01-01 to the civil date `y`-`m`-`d` of the proleptic Gregorian
calendar. -/
def daysFromCivil (y m d : Int) : Int :=
  let y1 := if m ≤ 2 then y - 1 else y
  let era := y1 / 400
  let yoe := y1 - era * 400
  let mp := (m + 9) % 12
  let doy := (153 * mp + 2) / 5 + d - 1
  let doe := yoe * 365 + yoe / 4 - yoe / 100 + doy
  era * 146097 + doe - 719468

/-- The civil date (year, month, day) of a day number counted from 1970-01-01. -/
def civilFromDays (z0 : Int) : Int × Int × Int :=
  let z := z0 + 719468
  let era := z / 146097
  let doe := z - era * 146097
  let yoe := (doe - doe / 1460 + doe / 36524 - doe / 146096) / 365
  let y := yoe + era * 400
  let doy := doe - (365 * yoe + yoe / 4 - yoe / 100)
  let mp := (5 * doy + 2) / 153
  let d := doy - (153 * mp + 2) / 5 + 1
  let m := if mp < 10 then mp + 3 else mp - 9
  (if m ≤ 2 then y + 1 else y, m, d)

/-- The decimal digit character of a number below ten. -/
def digitChar (n : Int) : Char := Char.ofNat (48 + (n % 10).toNat)

/-- The value of a decimal digit character. -/
def digitVal (c : Char) : Option Int :=
  if 48 ≤ c.toNat ∧ c.toNat ≤ 57 then some ((c.toNat : Int) - 48) else none

/-- The date part of `toISOString()`, that is `toISOString().split('T')[0]`, of a time
value whose UTC year lies in 0..9999. -/
def isoDateString (t : Int) : String :=
  let (y, m, d) := civilFromDays (t / msPerDay)
  String.mk [digitChar (y / 1000), digitChar (y / 100), digitChar (y / 10), digitChar y, '-',
    digitChar (m / 10), digitChar m, '-', digitChar (d / 10), digitChar d]

/-- Midnight UTC of the civil date written by eight digit characters, when these are
digits and name a day of the calendar. -/
def civilMidnight (y1 y2 y3 y4 m1 m2 d1 d2 : Char) : Option Int :=
  match digitVal y1, digitVal y2, digitVal y3, digitVal y4,
    digitVal m1, digitVal m2, digitVal d1, digitVal d2 with
  | some a, some b, some c, some e, some f, some g, some h, some i =>
    let y := a * 1000 + b * 100 + c * 10 + e
    let m := f * 10 + g
    let d := h * 10 + i
    if 1 ≤ m ∧ m ≤ 12 ∧ 1 ≤ d ∧ civilFromDays (daysFromCivil y m d) = (y, m, d) then
      some (daysFromCivil y m d * msPerDay)
    else none
  | _, _, _, _, _, _, _, _ => none

/-- The milliseconds into the day of a time written by six digit characters. -/
def clockTime (h1 h2 m1 m2 s1 s2 : Char) : Option Int :=
  match digitVal h1, digitVal h2, digitVal m1, digitVal m2, digitVal s1, digitVal s2 with
  | some a, some b, some c, some d, some e, some f =>
    let h := a * 10 + b
    let m := c * 10 + d
    let sec := e * 10 + f
    if h ≤ 23 ∧ m ≤ 59 ∧ sec ≤ 59 then some ((h * 3600 + m * 60 + sec) * 1000) else none
  | _, _, _, _, _, _ => none

/-- The runtime's `new Date(s)` on the ISO strings `YYYY-MM-DD` (midnight UTC of that
day) and `YYYY-MM-DDTHH:MM:SSZ`; any other string is treated as not parsing. -/
def parseISODate (s : String) : Option Int :=
  match s.data with
  | [y1, y2, y3, y4, '-', m1, m2, '-', d1, d2] => civilMidnight y1 y2 y3 y4 m1 m2 d1 d2
  | [y1, y2, y3, y4, '-', m1, m2, '-', d1, d2, 'T', h1, h2, ':', n1, n2, ':', s1, s2, 'Z'] =>
    match civilMidnight y1 y2 y3 y4 m1 m2 d1 d2, clockTime h1 h2 n1 n2 s1 s2 with
    | some day, some time => some (day + time)
    | _, _ => none
  | _ => none

/-- `d.setHours(23, 59, 59, 999)`: the last millisecond of the local day that contains
the instant `t`, in a zone `tz` milliseconds east of UTC. -/
def setHoursEndOfDay (tz : Int) (t : Int) : Int :=
  (t + tz) / msPerDay * msPerDay + (msPerDay - 1) - tz

/-- A time zone: the offset from UTC, in milliseconds east, in force before the first
transition, and the transitions in ascending order, each an instant together with the
offset in force from that instant on. -/
structure Zone where
  base : Int
  transitions : List (Int × Int)

/-- The zone with the constant offset `tz`. -/
def Zone.fixed (tz : Int) : Zone := { base := tz, transitions := [] }

/-- The offset in force at the instant `t`. -/
def Zone.offsetAt (zone : Zone) (t : Int) : Int :=
  zone.transitions.foldl (fun offset tr => if tr.1 ≤ t then tr.2 else offset) zone.base

/-- The instant of the local time `l`, read with the offset `offset` up to the next
transition.  A local time that a transition repeats or skips is read with the offset in
force before the transition. -/
def Zone.utcFrom : Int → List (Int × Int) → Int → Int
  | offset, [], l => l - offset
  | offset, (instant, next) :: rest, l =>
    if l < instant + max offset next then l - offset else Zone.utcFrom next rest l

/-- The instant of the local time `l`: the conversion the runtime applies to the result of
a local-time setter. -/
def Zone.utcOfLocal (zone : Zone) (l : Int) : Int :=
  Zone.utcFrom zone.base zone.transitions l

/-- The zone America/New_York during 2025: UTC-5, daylight saving time (UTC-4) from
2025-03-09T07:00:00Z to 2025-11-02T06:00:00Z. -/
def newYork2025 : Zone :=
  { base := -18000000
    transitions := [(1741503600000, -14400000), (1762063200000, -18000000)] }

/-- `d.setDate(d.getDate() - 1)`: the same local time of day on the local calendar day
before, converted back to an instant. -/
def setDatePrevDay (zone : Zone) (t : Int) : Int :=
  zone.utcOfLocal (t + zone.offsetAt t - msPerDay)

/-- `d.setHours(23, 59, 59, 999)` in a zone with transitions: the local time 23:59:59.999
of the local day that contains the instant `t`, converted back to an instant. -/
def Zone.setHoursEndOfDay (zone : Zone) (t : Int) : Int :=
  zone.utcOfLocal ((t + zone.offsetAt t) / msPerDay * msPerDay + (msPerDay - 1))

/-! ## `src/utils/dateUtils.js` -/

namespace DateUtils

/-- The function `getPreviousPeriod(startDate, endDate)` (lines 115-136) on date
strings.  The result holds the time values of `previousStartDate` and `previousEndDate`,
`none` for `null` and for an invalid `Date`.  With a start that parses and an end that does
not, the duration is `NaN`: `previousEndDate` is valid and `previousStartDate` is not. -/
def getPreviousPeriod (zone : Zone) (parseDate : String → Option Int)
    (startDate endDate : Option String) : Option Int × Option Int :=
  match startDate, endDate with
  | some s, some e =>
    if s = "" ∨ e = "" then (none, none)
    else
      match parseDate s with
      | some start =>
        let previousEnd := setDatePrevDay zone start
        match parseDate e with
        | some finish =>
          let durationMs := finish - start
          let previousStart := previousEnd - durationMs
          (some previousStart, some previousEnd)
        | none => (none, some previousEnd)
      | none => (none, none)
  | _, _ => (none, none)

end DateUtils

/-! ## Records -/

/-- A sales record as the engine reads it.  A field that the record lacks is `none`. -/
structure Sale where
  date : Option String := none
  customer : Option String := none
  product : Option String := none
  category : Option String := none
  amount : Option ℚ := none
  paymentMethod : Option String := none
  salesRep : Option String := none
  region : Option String := none
deriving DecidableEq

/-- The truthy value of a string field: `none` when the field is absent or the empty
string. -/
def truthy : Option String → Option String
  | some s => if s = "" then none else some s
  | none => none

/-- `sale.amount || 0`. -/
def amountOrZero (sale : Sale) : ℚ :=
  match sale.amount with
  | some a => a
  | none => 0

/-- The runtime's `s.toLowerCase()` on a string of ASCII characters.  The pipeline takes
the runtime's function as the parameter `toLowerCase`; this one serves the concrete
scenarios, whose strings are ASCII. -/
def toLowerCaseASCII (s : String) : String := String.mk (s.data.map Char.toLower)

/-- `s.includes(sub)`: `sub` occurs in `s` as a contiguous run. -/
def includes (s sub : String) : Bool := decide (sub.data <:+: s.data)

/-! ## Plain objects used as dictionaries

A dictionary is kept as the list of its properties in the order of their creation.  The
runtime lists the own properties of an object (`Object.keys`, `Object.values`,
`Object.entries`) with the names that are array indices first, in ascending numeric order,
and the other names after them in the order of their creation. -/

/-- The names of the properties that every plain object inherits from `Object.prototype`.
A lookup `obj[name]` with one of these names finds the inherited value, a function or
`Object.prototype` itself, hence a truthy value, as long as the object has no property of
its own with that name. -/
def inheritedNames : List String :=
  ["constructor", "hasOwnProperty", "isPrototypeOf", "propertyIsEnumerable", "toLocaleString",
    "toString", "valueOf", "__proto__", "__defineGetter__", "__defineSetter__",
    "__lookupGetter__", "__lookupSetter__"]

/-- The number written by a string of decimal digits. -/
def arrayIndex (name : String) : Nat :=
  name.data.foldl (fun n c => 10 * n + (c.toNat - 48)) 0

/-- A property name is an array index when it is the canonical decimal form of an integer
from 0 to 2^32 - 2: digits only and no leading zero. -/
def isArrayIndex (name : String) : Bool :=
  match name.data with
  | [] => false
  | c :: rest =>
    (c :: rest).all Char.isDigit && (decide (c ≠ '0') || rest.isEmpty) &&
      decide (arrayIndex name < 4294967295)

/-- The order of two properties whose names are array indices. -/
def indexOrder {α : Type} (name : α → String) (a b : α) : Prop :=
  arrayIndex (name a) ≤ arrayIndex (name b)

instance {α : Type} (name : α → String) : DecidableRel (indexOrder name) :=
  fun a b => inferInstanceAs (Decidable (arrayIndex (name a) ≤ arrayIndex (name b)))

/-- The own properties of an object in the order in which `Object.keys`, `Object.values`
and `Object.entries` list them.  `props` holds the properties in the order of their
creation and `name` reads the name of a property. -/
def ownProperties {α : Type} (name : α → String) (props : List α) : List α :=
  (props.filter (fun p => isArrayIndex (name p))).insertionSort (indexOrder name)
    ++ props.filter (fun p => !isArrayIndex (name p))

/-! ## `src/hooks/useSalesData.js`: the filter pipeline -/

/-- The filter criteria read by the pipeline.  `none`, the empty list and the empty
string leave the dimension unrestricted. -/
structure Filters where
  startDate : Option String := none
  endDate : Option String := none
  categories : List String := []
  regions : List String := []
  salesReps : List String := []
  paymentMethods : List String := []
  searchTerm : String := ""
deriving DecidableEq

/-- The relational comparison `a <= b` of two `Date`s: false as soon as one of them is
invalid. -/
def dateLe (a b : Option Int) : Bool :=
  match a, b with
  | some x, some y => decide (x ≤ y)
  | _, _ => false

namespace UseSalesData

/-- The callback of the date filter (lines 103-107): `start` and `finish` are the two
`Date`s built from the criteria, `finish` already moved to the end of its day. -/
def dateFilter (parseDate : String → Option Int) (start finish : Option Int)
    (sale : Sale) : Bool :=
  match truthy sale.date with
  | none => false
  | some d => dateLe start (parseDate d) && dateLe (parseDate d) finish

/-- The callback of a selection filter, `sale.f && selection.includes(sale.f)`. -/
def memberFilter (selection : List String) (field : Sale → Option String)
    (sale : Sale) : Bool :=
  match truthy (field sale) with
  | none => false
  | some v => decide (v ∈ selection)

/-- One disjunct of the search filter, `sale.f && sale.f.toLowerCase().includes(searchLower)`. -/
def searchField (toLowerCase : String → String) (searchLower : String)
    (field : Option String) : Bool :=
  match truthy field with
  | none => false
  | some v => includes (toLowerCase v) searchLower

/-- The callback of the search filter (lines 120-126). -/
def searchFilter (toLowerCase : String → String) (searchLower : String) (sale : Sale) :
    Bool :=
  searchField toLowerCase searchLower sale.customer ||
  searchField toLowerCase searchLower sale.product ||
  searchField toLowerCase searchLower sale.salesRep ||
  searchField toLowerCase searchLower sale.category ||
  searchField toLowerCase searchLower sale.region

/-- The date step of the pipeline (lines 98-108). -/
def dateStep (parseDate : String → Option Int) (zone : Zone) (filters : Filters)
    (result : List Sale) : List Sale :=
  match truthy filters.startDate, truthy filters.endDate with
  | some s, some e =>
    result.filter
      (dateFilter parseDate (parseDate s) ((parseDate e).map zone.setHoursEndOfDay))
  | _, _ => result

/-- A selection step of the pipeline: applied only when the selection is not empty. -/
def memberStep (selection : List String) (field : Sale → Option String)
    (result : List Sale) : List Sale :=
  if selection.length ≠ 0 then result.filter (memberFilter selection field) else result

/-- The search step of the pipeline (lines 118-127). -/
def searchStep (toLowerCase : String → String) (filters : Filters) (result : List Sale) :
    List Sale :=
  if filters.searchTerm ≠ "" then
    result.filter (searchFilter toLowerCase (toLowerCase filters.searchTerm))
  else result

/-- The body of the apply-filters effect (lines 95-150): date, category, search, region,
sales rep and payment method, in this order. -/
def filterPipeline (toLowerCase : String → String) (parseDate : String → Option Int)
    (zone : Zone) (salesData : List Sale) (filters : Filters) : List Sale :=
  let result := salesData
  let result := dateStep parseDate zone filters result
  let result := memberStep filters.categories (fun sale => sale.category) result
  let result := searchStep toLowerCase filters result
  let result := memberStep filters.regions (fun sale => sale.region) result
  let result := memberStep filters.salesReps (fun sale => sale.salesRep) result
  let result := memberStep filters.paymentMethods (fun sale => sale.paymentMethod) result
  result

/-- The apply-filters effect (lines 92-151): with no raw data it returns early and
`filteredData` keeps the value it holds. -/
def applyFiltersEffect (toLowerCase : String → String) (parseDate : String → Option Int)
    (zone : Zone) (salesData : List Sale) (filters : Filters) (filteredData : List Sale) :
    List Sale :=
  if salesData.length = 0 then filteredData
  else filterPipeline toLowerCase parseDate zone salesData filters

/-! ### The summary -/

/-- The object returned by `calculateSummary`. -/
structure Summary where
  totalSales : Nat
  totalRevenue : ℚ
  averageOrderValue : ℚ
  salesByCategory : List (String × ℚ)
  salesByRegion : List (String × ℚ)
  topProducts : List (String × ℚ)
  topCustomers : List (String × ℚ)
deriving DecidableEq

/-- The statement `acc[key] = (acc[key] || 0) + x` on a dictionary of totals, for a key
that is not one of `inheritedNames`; for such a name the lookup finds the inherited value
and the sum is a string, which the dictionaries of numbers do not hold. -/
def accumulate : List (String × ℚ) → String → ℚ → List (String × ℚ)
  | [], key, x => [(key, 0 + x)]
  | (k, v) :: rest, key, x =>
    if k = key then (k, v + x) :: rest else (k, v) :: accumulate rest key x

/-- Totals of `sale.amount || 0` grouped by a string field; records without the field
are passed over. -/
def groupRevenue (field : Sale → Option String) (data : List Sale) : List (String × ℚ) :=
  data.foldl
    (fun acc sale =>
      match truthy (field sale) with
      | none => acc
      | some key => accumulate acc key (amountOrZero sale))
    []

/-- The comparator `(a, b) => b.amount - a.amount`, as the order it induces. -/
def amountOrder (a b : String × ℚ) : Prop := b.2 - a.2 ≤ 0

instance : DecidableRel amountOrder :=
  fun a b => inferInstanceAs (Decidable (b.2 - a.2 ≤ 0))

/-- The ranking `Object.entries(totals).map(..).sort((a, b) => b.amount - a.amount).slice(0, 5)`. -/
def topFive (totals : List (String × ℚ)) : List (String × ℚ) :=
  ((ownProperties Prod.fst totals).insertionSort amountOrder).take 5

/-- The summary of an empty subset (lines 190-198). -/
def emptySummary : Summary :=
  { totalSales := 0, totalRevenue := 0, averageOrderValue := 0, salesByCategory := [],
    salesByRegion := [], topProducts := [], topCustomers := [] }

/-- The function `calculateSummary` (lines 183-259) on the filtered data.  The cache of
the last result is transparent and left out. -/
def calculateSummary (filteredData : List Sale) : Summary :=
  if filteredData.length = 0 then emptySummary
  else
    let totalSales := filteredData.length
    let totalRevenue := filteredData.foldl (fun sum sale => sum + amountOrZero sale) 0
    let averageOrderValue := totalRevenue / (totalSales : ℚ)
    { totalSales := totalSales
      totalRevenue := totalRevenue
      averageOrderValue := averageOrderValue
      salesByCategory := groupRevenue (fun sale => sale.category) filteredData
      salesByRegion := groupRevenue (fun sale => sale.region) filteredData
      topProducts := topFive (groupRevenue (fun sale => sale.product) filteredData)
      topCustomers := topFive (groupRevenue (fun sale => sale.customer) filteredData) }

end UseSalesData

/-! ## `src/context/DashboardContext.jsx`: the period comparator -/

namespace DashboardProvider

open UseSalesData

/-- The date range handed to the provider: `startDate` and `endDate` of `dateRange`. -/
structure DateRange where
  startDate : Option String := none
  endDate : Option String := none
deriving DecidableEq

/-- The field `percentChange` of the comparison data. -/
structure PercentChange where
  totalSales : JsNum
  totalRevenue : JsNum
  averageOrderValue : JsNum
deriving DecidableEq

/-- The state `comparisonData`; `previousPeriodRange` is absent from its initial value. -/
structure ComparisonData where
  previousPeriodSales : List Sale
  previousPeriodRange : Option (String × String)
  percentChange : PercentChange
deriving DecidableEq

/-- The initial value of `comparisonData` (lines 31-38). -/
def initialComparisonData : ComparisonData :=
  { previousPeriodSales := []
    previousPeriodRange := none
    percentChange := { totalSales := some 0, totalRevenue := some 0, averageOrderValue := some 0 } }

/-- The helper `formatDate` of the comparison effect (line 82). -/
def formatDate (date : Int) : String := isoDateString date

/-- The callback of the previous-period filter (lines 85-88). -/
def previousFilter (parseDate : String → Option Int) (previousStartDate previousEndDate : Int)
    (sale : Sale) : Bool :=
  dateLe (some previousStartDate) (sale.date.bind parseDate) &&
  dateLe (sale.date.bind parseDate) (some previousEndDate)

/-- The reduction `previousPeriodSales.reduce((sum, sale) => sum + sale.amount, 0)`: an
absent amount turns the sum into `NaN`. -/
def previousRevenue (previousPeriodSales : List Sale) : JsNum :=
  previousPeriodSales.foldl
    (fun sum sale =>
      match sum, sale.amount with
      | some s, some a => some (s + a)
      | _, _ => none)
    (some 0)

/-- The inline `calculatePercentChange` applied to a previous value that may be `NaN`:
`NaN === 0` is false and the quotient is `NaN`. -/
def percentChangeOf (current : ℚ) (previous : JsNum) : JsNum :=
  match previous with
  | some p => some (calculatePercentChange current p)
  | none => none

/-- The comparison effect (lines 54-113).  `currentStats` is what `calculateSummary()`
returns when the effect runs and `held` the comparison data held before; the result is
the comparison data after the effect. -/
def comparisonEffect (zone : Zone) (parseDate : String → Option Int)
    (salesData : List Sale) (dateRange : DateRange) (currentStats : Summary)
    (held : ComparisonData) : ComparisonData :=
  if salesData.length = 0 then held
  else
    match truthy dateRange.startDate, truthy dateRange.endDate with
    | some s, some e =>
      match parseDate s, parseDate e with
      | some currentStartDate, some currentEndDate =>
        let periodDuration := currentEndDate - currentStartDate
        let previousEndDate := setDatePrevDay zone currentStartDate
        let previousStartDate := previousEndDate - periodDuration
        let previousPeriodSales :=
          salesData.filter (previousFilter parseDate previousStartDate previousEndDate)
        let previousTotalSales := previousPeriodSales.length
        let previousTotalRevenue := previousRevenue previousPeriodSales
        let previousAvgOrderValue : JsNum :=
          if previousPeriodSales.length ≠ 0 then
            previousTotalRevenue.map (fun r => r / (previousPeriodSales.length : ℚ))
          else some 0
        { previousPeriodSales := previousPeriodSales
          previousPeriodRange := some (formatDate previousStartDate, formatDate previousEndDate)
          percentChange :=
            { totalSales := percentChangeOf currentStats.totalSales (some previousTotalSales)
              totalRevenue := percentChangeOf currentStats.totalRevenue previousTotalRevenue
              averageOrderValue :=
                percentChangeOf currentStats.averageOrderValue previousAvgOrderValue } }
      | _, _ => held
    | _, _ => held

/-! ### Daily and monthly buckets of `dashboardMetrics` -/

/-- An entry of `salesByDay` or `salesByMonth`: the key (`day` or `month`), the number of
records and their revenue. -/
structure Bucket where
  key : String
  count : Nat
  revenue : ℚ
deriving DecidableEq

/-- The key `sale.date.split('T')[0]`. -/
def dayKey (date : String) : String := String.mk (date.data.takeWhile (fun c => c ≠ 'T'))

/-- The key `day.substring(0, 7)`; the characters here are those that `substring` counts
for a string within the Basic Multilingual Plane. -/
def monthKey (day : String) : String := String.mk (day.data.take 7)

/-- The bucket update on the own properties of the dictionary: create the entry
`{key, count: 0, revenue: 0}` when the dictionary lacks the key, then add one to its count
and `x` to its revenue. -/
def bumpOwn : List Bucket → String → ℚ → List Bucket
  | [], key, x => [{ key := key, count := 0 + 1, revenue := 0 + x }]
  | b :: rest, key, x =>
    if b.key = key then { b with count := b.count + 1, revenue := b.revenue + x } :: rest
    else b :: bumpOwn rest key x

/-- The bucket update of the loop: `if (!dict[key]) dict[key] = {key, count: 0, revenue: 0}`
followed by `dict[key].count += 1` and `dict[key].revenue += x`.  For a key that the object
inherits, `dict[key]` is the inherited value: no entry is created, the two additions go to
that value, and the dictionary is left as it is. -/
def bump (acc : List Bucket) (key : String) (x : ℚ) : List Bucket :=
  if key ∈ inheritedNames then acc else bumpOwn acc key x

/-- The dictionary `salesByDay` after the loop over the filtered data (lines 144-158). -/
def salesByDay (filteredData : List Sale) : List Bucket :=
  filteredData.foldl
    (fun acc sale =>
      match truthy sale.date with
      | none => acc
      | some date => bump acc (dayKey date) (amountOrZero sale))
    []

/-- The dictionary `salesByMonth` after the loop over the filtered data (lines 144-170). -/
def salesByMonth (filteredData : List Sale) : List Bucket :=
  filteredData.foldl
    (fun acc sale =>
      match truthy sale.date with
      | none => acc
      | some date => bump acc (monthKey (dayKey date)) (amountOrZero sale))
    []

/-- The order induced by `(a, b) => a.key.localeCompare(b.key)`, taken as the
lexicographic order of the characters, with which it agrees on keys made of digits and
hyphens, as those of ISO dates are. -/
def keyOrder (a b : Bucket) : Prop := a.key.data ≤ b.key.data

instance : DecidableRel keyOrder :=
  fun a b => inferInstanceAs (Decidable (a.key.data ≤ b.key.data))

/-- The list `dailySales` (line 187). -/
def dailySales (filteredData : List Sale) : List Bucket :=
  (ownProperties Bucket.key (salesByDay filteredData)).insertionSort keyOrder

/-- The list `monthlySales` (line 188). -/
def monthlySales (filteredData : List Sale) : List Bucket :=
  (ownProperties Bucket.key (salesByMonth filteredData)).insertionSort keyOrder

/-- The dictionary `salesByRep` after the loop over the filtered data (lines 144-183):
only records with a date reach the sales-rep step. -/
def salesByRep (filteredData : List Sale) : List Bucket :=
  filteredData.foldl
    (fun acc sale =>
      match truthy sale.date with
      | none => acc
      | some _ =>
        match truthy sale.salesRep with
        | none => acc
        | some name => bump acc name (amountOrZero sale))
    []

/-- The comparator `(a, b) => b.revenue - a.revenue`, as the order it induces. -/
def revenueOrder (a b : Bucket) : Prop := b.revenue - a.revenue ≤ 0

instance : DecidableRel revenueOrder :=
  fun a b => inferInstanceAs (Decidable (b.revenue - a.revenue ≤ 0))

/-- The list `salesRepPerformance` (line 189). -/
def salesRepPerformance (filteredData : List Sale) : List Bucket :=
  (ownProperties Bucket.key (salesByRep filteredData)).insertionSort revenueOrder

/-- The `type` of an insight. -/
inductive InsightType where
  | positive
  | negative
  | warning
  | info
deriving DecidableEq

/-- An insight.  The description is a text template filled with a name and a formatted
number; the model keeps the name (`subject`) and the number before formatting
(`value`, `none` for `NaN`). -/
structure Insight where
  type : InsightType
  title : String
  subject : Option String
  value : JsNum
deriving DecidableEq

/-- The rule "Top performing category" (lines 195-204). -/
def topCategoryInsight (summary : Summary) : List Insight :=
  if (ownProperties Prod.fst summary.salesByCategory).length ≠ 0 then
    match ((ownProperties Prod.fst summary.salesByCategory).insertionSort amountOrder).head? with
    | some topCategory =>
      [{ type := .positive, title := "Top Performing Category",
         subject := some topCategory.1, value := some topCategory.2 }]
    | none => []
  else []

/-- The rule "Revenue trend" (lines 207-216); `recentDays` is `dailySales.slice(-5)`. -/
def revenueTrendInsight (dailySales : List Bucket) : List Insight :=
  if 2 ≤ dailySales.length then
    let recentDays := dailySales.drop (dailySales.length - 5)
    match recentDays.getLast?, recentDays.head? with
    | some last, some first =>
      let trend := last.revenue - first.revenue
      [{ type := if trend ≥ 0 then .positive else .warning, title := "Recent Revenue Trend",
         subject := none, value := some |trend| }]
    | _, _ => []
  else []

/-- The rule "Top performing sales rep" (lines 219-227). -/
def topRepInsight (salesRepPerformance : List Bucket) : List Insight :=
  match salesRepPerformance.head? with
  | some topRep =>
    [{ type := .info, title := "Top Sales Rep", subject := some topRep.key,
       value := some topRep.revenue }]
  | none => []

/-- The rule "Compare with previous period" (lines 230-238); `comparisonData.percentChange`
is always an object, so the rule always fires.  With a `NaN` change the comparison
`revenueChange >= 0` is false. -/
def periodComparisonInsight (percentChange : PercentChange) : List Insight :=
  match percentChange.totalRevenue with
  | some revenueChange =>
    [{ type := if revenueChange ≥ 0 then .positive else .negative, title := "Period Comparison",
       subject := none, value := some |revenueChange| }]
  | none =>
    [{ type := .negative, title := "Period Comparison", subject := none, value := none }]

/-- The value of `dashboardMetrics`.  In the branch of an empty subset the summary object
has the three totals only; its dictionaries and rankings are then the empty lists. -/
structure Metrics where
  summary : Summary
  dailySales : List Bucket
  monthlySales : List Bucket
  salesRepPerformance : List Bucket
  insights : List Insight
deriving DecidableEq

/-- The memo `dashboardMetrics` (lines 126-247) on the filtered data and the percent
changes of the comparison data. -/
def dashboardMetrics (filteredData : List Sale) (percentChange : PercentChange) : Metrics :=
  if filteredData.length = 0 then
    { summary := { totalSales := 0, totalRevenue := 0, averageOrderValue := 0,
                   salesByCategory := [], salesByRegion := [], topProducts := [],
                   topCustomers := [] }
      dailySales := []
      monthlySales := []
      salesRepPerformance := []
      insights := [] }
  else
    let summary := calculateSummary filteredData
    let insights : List Insight := []
    let insights := insights ++ topCategoryInsight summary
    let insights := insights ++ revenueTrendInsight (dailySales filteredData)
    let insights := insights ++ topRepInsight (salesRepPerformance filteredData)
    let insights := insights ++ periodComparisonInsight percentChange
    { summary := summary
      dailySales := dailySales filteredData
      monthlySales := monthlySales filteredData
      salesRepPerformance := salesRepPerformance filteredData
      insights := insights }

end DashboardProvider

/-! ## The sums in floating-point arithmetic

The numbers of the runtime are IEEE 754 binary64 values and every sum is rounded to the
nearest of them.  The definitions above add rationals exactly.  This section holds the
rounding and the floating-point versions of the revenue sums of `calculateSummary` and of
`dashboardMetrics`, for the property that depends on the rounding. -/

namespace Binary64

open DashboardProvider

/-- The power `2 ^ k` for an integer `k`. -/
def pow2 (k : Int) : ℚ :=
  if 0 ≤ k then ((2 ^ k.toNat : Nat) : ℚ) else 1 / ((2 ^ (-k).toNat : Nat) : ℚ)

/-- The number of halvings that bring `n` below 2, at most `fuel` of them. -/
def log2From : Nat → Nat → Nat
  | 0, _ => 0
  | fuel + 1, n => if n < 2 then 0 else log2From fuel (n / 2) + 1

/-- The integer part of the binary logarithm of `n`. -/
def log2 (n : Nat) : Nat := log2From n n

/-- The integer nearest to `q`, the even one of the two when `q` lies half-way. -/
def roundHalfEven (q : ℚ) : Int :=
  let f := ⌊q⌋
  let r := q - f
  if r < 1 / 2 then f else if 1 / 2 < r then f + 1 else if f % 2 = 0 then f else f + 1

/-- The exponent `e` with `2 ^ e ≤ |x| < 2 ^ (e + 1)`, for `x` other than 0. -/
def exponent (x : ℚ) : Int :=
  let k : Int := (log2 x.num.natAbs : Int) - (log2 x.den : Int)
  if pow2 k ≤ |x| then k else k - 1

/-- The binary64 value nearest to `x`, ties to even: 53 significant bits, the least
exponent being -1022; magnitudes from `2 ^ 1024` on, which round to infinity, are not
covered. -/
def round (x : ℚ) : ℚ :=
  if x = 0 then 0
  else
    let ulp : ℚ := pow2 (max (exponent x) (-1022) - 52)
    roundHalfEven (x / ulp) * ulp

/-- The sum `a + b` of two numbers of the runtime. -/
def add (a b : ℚ) : ℚ := round (a + b)

/-- The number `sale.amount || 0` of the runtime: the data holds the amount as a decimal
and the runtime reads it as the nearest binary64 value. -/
def amountOf (sale : Sale) : ℚ := round (amountOrZero sale)

/-- The sum `totalRevenue` of `calculateSummary` (`useSalesData.js`, line 205). -/
def totalRevenue (filteredData : List Sale) : ℚ :=
  filteredData.foldl (fun sum sale => add sum (amountOf sale)) 0

/-- The bucket update on the own properties of the dictionary. -/
def bumpOwn : List Bucket → String → ℚ → List Bucket
  | [], key, x => [{ key := key, count := 0 + 1, revenue := add 0 x }]
  | b :: rest, key, x =>
    if b.key = key then { b with count := b.count + 1, revenue := add b.revenue x } :: rest
    else b :: bumpOwn rest key x

/-- The bucket update of the loop of `dashboardMetrics`; a key that the object inherits
creates no entry. -/
def bump (acc : List Bucket) (key : String) (x : ℚ) : List Bucket :=
  if key ∈ inheritedNames then acc else bumpOwn acc key x

/-- The dictionary `salesByDay` after the loop (`DashboardContext.jsx`, lines 144-158). -/
def salesByDay (filteredData : List Sale) : List Bucket :=
  filteredData.foldl
    (fun acc sale =>
      match truthy sale.date with
      | none => acc
      | some date => bump acc (dayKey date) (amountOf sale))
    []

/-- The dictionary `salesByMonth` after the loop (lines 144-170). -/
def salesByMonth (filteredData : List Sale) : List Bucket :=
  filteredData.foldl
    (fun acc sale =>
      match truthy sale.date with
      | none => acc
      | some date => bump acc (monthKey (dayKey date)) (amountOf sale))
    []

/-- The list `dailySales` (line 187). -/
def dailySales (filteredData : List Sale) : List Bucket :=
  (ownProperties Bucket.key (salesByDay filteredData)).insertionSort keyOrder

/-- The list `monthlySales` (line 188). -/
def monthlySales (filteredData : List Sale) : List Bucket :=
  (ownProperties Bucket.key (salesByMonth filteredData)).insertionSort keyOrder

end Binary64

/-! ## `src/hooks/useFilters.js`: the filter state store

The values of the filter object are JavaScript values.  An array carries the reference
`ref` that `===` compares, beside its elements; arrays are never updated in place by
the store, so a reference determines its elements.  Every operation is followed by the
render that applies its state update, so `prevFiltersRef.current` and the state are read
after the previous operation has taken effect. -/

namespace UseFilters

/-- The values a filter field can hold. -/
inductive JsVal where
  | undefined
  | null
  | str (s : String)
  | arr (ref : Nat) (elems : List String)
deriving DecidableEq

/-- JavaScript truthiness: `undefined`, `null` and the empty string are falsy. -/
def JsVal.truthy : JsVal → Bool
  | .undefined => false
  | .null => false
  | .str s => decide (s ≠ "")
  | .arr _ _ => true

/-- The operator `a === b`: arrays are compared by reference. -/
def strictEq : JsVal → JsVal → Bool
  | .undefined, .undefined => true
  | .null, .null => true
  | .str a, .str b => decide (a = b)
  | .arr r _, .arr q _ => decide (r = q)
  | _, _ => false

/-- Deep equality: arrays are compared by their elements. -/
def deepEq : JsVal → JsVal → Bool
  | .undefined, .undefined => true
  | .null, .null => true
  | .str a, .str b => decide (a = b)
  | .arr _ xs, .arr _ ys => decide (xs = ys)
  | _, _ => false

/-- The operator `a || b`. -/
def orElse (a b : JsVal) : JsVal := if a.truthy then a else b

/-- The keys of the filter object. -/
inductive FilterKey where
  | startDate
  | endDate
  | categories
  | regions
  | salesReps
  | paymentMethods
  | searchTerm
deriving DecidableEq

/-- All keys, in the order of the object literal of the initial state. -/
def FilterKey.all : List FilterKey :=
  [.startDate, .endDate, .categories, .regions, .salesReps, .paymentMethods, .searchTerm]

/-- The filter object held in the state. -/
structure FilterState where
  startDate : JsVal
  endDate : JsVal
  categories : JsVal
  regions : JsVal
  salesReps : JsVal
  paymentMethods : JsVal
  searchTerm : JsVal
deriving DecidableEq

/-- The property read `filters[key]`. -/
def FilterState.get (f : FilterState) : FilterKey → JsVal
  | .startDate => f.startDate
  | .endDate => f.endDate
  | .categories => f.categories
  | .regions => f.regions
  | .salesReps => f.salesReps
  | .paymentMethods => f.paymentMethods
  | .searchTerm => f.searchTerm

/-- The copy `{ ...filters, [key]: value }`. -/
def FilterState.set (f : FilterState) (key : FilterKey) (value : JsVal) : FilterState :=
  match key with
  | .startDate => { f with startDate := value }
  | .endDate => { f with endDate := value }
  | .categories => { f with categories := value }
  | .regions => { f with regions := value }
  | .salesReps => { f with salesReps := value }
  | .paymentMethods => { f with paymentMethods := value }
  | .searchTerm => { f with searchTerm := value }

/-- An object that names only some of the keys, such as `initialFilters` and the
argument of `updateFilters`: `none` for a key the object does not have. -/
structure PartialFilters where
  startDate : Option JsVal := none
  endDate : Option JsVal := none
  categories : Option JsVal := none
  regions : Option JsVal := none
  salesReps : Option JsVal := none
  paymentMethods : Option JsVal := none
  searchTerm : Option JsVal := none
deriving DecidableEq

/-- The own property of a partial object, if it has the key. -/
def PartialFilters.own (p : PartialFilters) : FilterKey → Option JsVal
  | .startDate => p.startDate
  | .endDate => p.endDate
  | .categories => p.categories
  | .regions => p.regions
  | .salesReps => p.salesReps
  | .paymentMethods => p.paymentMethods
  | .searchTerm => p.searchTerm

/-- The property read `p[key]`: `undefined` for a key the object does not have. -/
def PartialFilters.get (p : PartialFilters) (key : FilterKey) : JsVal :=
  match p.own key with
  | some v => v
  | none => .undefined

/-- The keys the object has: what `Object.keys` and `for ... in` enumerate. -/
def PartialFilters.keys (p : PartialFilters) : List FilterKey :=
  FilterKey.all.filter (fun key => (p.own key).isSome)

/-- The copy `{ ...f, ...p }`. -/
def FilterState.spread (f : FilterState) (p : PartialFilters) : FilterState :=
  p.keys.foldl (fun acc key => acc.set key (p.get key)) f

/-- The loop `for (const key in p) if (current[key] !== p[key]) hasChanged = true`. -/
def hasChanged (current : FilterState) (p : PartialFilters) : Bool :=
  p.keys.any (fun key => !strictEq (current.get key) (p.get key))

/-- The hook instance: the two refs, the state, the number `version` of state objects
installed so far (a new state object is what signals the consumers), and the next unused
array reference. -/
structure Store where
  initialFiltersRef : PartialFilters
  filters : FilterState
  prevFiltersRef : FilterState
  version : Nat
  nextRef : Nat
deriving DecidableEq

/-- The object literal with the defaults followed by `...initial` (lines 16-25 and
93-102); the four array literals take the references `ref`, ..., `ref + 3`. -/
def withDefaults (initial : PartialFilters) (ref : Nat) : FilterState :=
  FilterState.spread
    { startDate := orElse (initial.get .startDate) .null
      endDate := orElse (initial.get .endDate) .null
      categories := orElse (initial.get .categories) (.arr ref [])
      regions := orElse (initial.get .regions) (.arr (ref + 1) [])
      salesReps := orElse (initial.get .salesReps) (.arr (ref + 2) [])
      paymentMethods := orElse (initial.get .paymentMethods) (.arr (ref + 3) [])
      searchTerm := orElse (initial.get .searchTerm) (.str "") }
    initial

/-- The construction `useFilters(initialFilters)` (lines 10-36); `ref` is the first
unused array reference. -/
def useFilters (initialFilters : PartialFilters) (ref : Nat) : Store :=
  { initialFiltersRef := initialFilters
    filters := withDefaults initialFilters ref
    prevFiltersRef := withDefaults initialFilters ref
    version := 0
    nextRef := ref + 4 }

/-- The operation `setFilter(key, value)` (lines 39-51). -/
def setFilter (st : Store) (key : FilterKey) (value : JsVal) : Store :=
  if strictEq (st.prevFiltersRef.get key) value then st
  else
    let newFilters := st.filters.set key value
    { st with filters := newFilters, prevFiltersRef := newFilters, version := st.version + 1 }

/-- The operation `updateFilters(newFilters)` (lines 54-76). -/
def updateFilters (st : Store) (newFilters : PartialFilters) : Store :=
  if newFilters.keys.length = 0 then st
  else if !hasChanged st.prevFiltersRef newFilters then st
  else
    let updatedFilters := st.filters.spread newFilters
    { st with filters := updatedFilters, prevFiltersRef := updatedFilters,
              version := st.version + 1 }

/-- The operation `resetFilters()` (lines 79-106). -/
def resetFilters (st : Store) : Store :=
  let initial := st.initialFiltersRef
  if !hasChanged st.prevFiltersRef initial then st
  else
    let resetValues := withDefaults initial st.nextRef
    { st with filters := resetValues, prevFiltersRef := resetValues,
              version := st.version + 1, nextRef := st.nextRef + 4 }

/-- The list `prev[key] || []` of `toggleFilterValue`, when the field holds an array or
a falsy value; a field holding a non-empty string is outside the model. -/
def currentValues : JsVal → Option (List String)
  | .arr _ elems => some elems
  | .str s => if s = "" then some [] else none
  | _ => some []

/-- The expression `currentValues.indexOf(value)`, `none` standing for `-1`. -/
def indexOf : List String → String → Option Nat
  | [], _ => none
  | x :: rest, value => if x = value then some 0 else (indexOf rest value).map (fun i => i + 1)

/-- The new list of `toggleFilterValue` (lines 111-120): `splice(valueIndex, 1)` on a copy
when the value is found, the value appended otherwise. -/
def toggledValues (values : List String) (value : String) : List String :=
  match indexOf values value with
  | some valueIndex => values.eraseIdx valueIndex
  | none => values ++ [value]

/-- The operation `toggleFilterValue(key, value)` (lines 109-130); `none` when the field
holds a non-empty string. -/
def toggleFilterValue (st : Store) (key : FilterKey) (value : String) : Option Store :=
  match currentValues (st.filters.get key) with
  | none => none
  | some values =>
    let newFilters := st.filters.set key (.arr st.nextRef (toggledValues values value))
    some { st with filters := newFilters, prevFiltersRef := newFilters,
                    version := st.version + 1, nextRef := st.nextRef + 1 }

/-- The expression `v && v.length` as a truth value: an array or a string with at least
one element. -/
def JsVal.nonEmpty : JsVal → Bool
  | .arr _ elems => decide (elems.length ≠ 0)
  | .str s => decide (s ≠ "")
  | _ => false

/-- The function `hasActiveFilters()` (lines 133-145). -/
def hasActiveFilters (st : Store) : Bool :=
  st.filters.searchTerm.truthy || st.filters.startDate.truthy || st.filters.endDate.truthy ||
    st.filters.categories.nonEmpty || st.filters.regions.nonEmpty ||
    st.filters.salesReps.nonEmpty || st.filters.paymentMethods.nonEmpty

/-- The string read from a field by the pipeline: `none` unless the field holds a string. -/
def JsVal.asString : JsVal → Option String
  | .str s => some s
  | _ => none

/-- The list read from a field by the pipeline: empty unless the field holds an array. -/
def JsVal.asList : JsVal → List String
  | .arr _ elems => elems
  | _ => []

/-- The filter object holds, in every field, a value of the field's kind or nothing: a
string for the two dates and the search term, an array for the four selections. -/
def FilterState.WellTyped (f : FilterState) : Prop :=
  (∀ r l, f.startDate ≠ .arr r l) ∧ (∀ r l, f.endDate ≠ .arr r l) ∧
  (∀ r l, f.searchTerm ≠ .arr r l) ∧
  (∀ s, f.categories = .str s → s = "") ∧ (∀ s, f.regions = .str s → s = "") ∧
  (∀ s, f.salesReps = .str s → s = "") ∧ (∀ s, f.paymentMethods = .str s → s = "")

/-- The criteria the pipeline of `useSalesData` reads from the filter object of the
store, which `DashboardProvider` passes on (lines 27-28). -/
def FilterState.toFilters (f : FilterState) : Filters :=
  { startDate := f.startDate.asString
    endDate := f.endDate.asString
    categories := f.categories.asList
    regions := f.regions.asList
    salesReps := f.salesReps.asList
    paymentMethods := f.paymentMethods.asList
    searchTerm := match f.searchTerm.asString with
      | some s => s
      | none => "" }

end UseFilters

/-! ## The local-time getters and setters of `Date`

These belong to the runtime as well.  The zone is a constant offset `tz`; the constructor
`new Date(year, monthIndex, day)` is taken for years outside 0..99, which it maps to the
twentieth century. -/

/-- The number, counted from 1970-01-01, of the local day that contains the instant `t`. -/
def localDay (tz t : Int) : Int := (t + tz) / msPerDay

/-- `d.getFullYear()`. -/
def getFullYear (tz t : Int) : Int := (civilFromDays (localDay tz t)).1

/-- `d.getMonth()`: 0 for January. -/
def getMonth (tz t : Int) : Int := (civilFromDays (localDay tz t)).2.1 - 1

/-- `d.getDate()`: the day of the month. -/
def getDate (tz t : Int) : Int := (civilFromDays (localDay tz t)).2.2

/-- `d.getDay()`: 0 for Sunday; 1970-01-01 was a Thursday. -/
def getDay (tz t : Int) : Int := (localDay tz t + 4) % 7

/-- `d.setDate(n)`: day `n` of the month of `d`, counted on past the ends of the month, at
the local time of day of `d`. -/
def setDate (tz t n : Int) : Int :=
  (daysFromCivil (getFullYear tz t) (getMonth tz t + 1) 1 + n - 1) * msPerDay
    + (t + tz) % msPerDay - tz

/-- `new Date(year, monthIndex, day)`: local midnight of that day, the months counted on
past the ends of the year and the days past the ends of the month. -/
def newDate (tz year monthIndex day : Int) : Int :=
  (daysFromCivil (year + monthIndex / 12) (monthIndex % 12 + 1) 1 + day - 1) * msPerDay - tz

/-- `d.setHours(0, 0, 0, 0)`: the first millisecond of the local day that contains `t`. -/
def setHoursStartOfDay (tz t : Int) : Int := (t + tz) / msPerDay * msPerDay - tz

/-! ## `src/hooks/useDateRange.js`: the date range resolver -/

namespace UseDateRange

/-- The values of the object `DATE_RANGES` (lines 7-21). -/
def DATE_RANGES : List String :=
  ["today", "yesterday", "this_week", "last_week", "this_month", "last_month",
    "this_quarter", "last_quarter", "this_year", "last_year", "last_7_days", "last_30_days",
    "last_90_days"]

/-- The helper `formatDate` (lines 24-28) on a valid `Date`: the UTC date of its
ISO string. -/
def formatDate (date : Int) : String := isoDateString date

/-- The helper `formatDate` (lines 24-28) on a date string or a missing value: `null` for
a falsy argument; for a string that does not parse `toISOString()` throws a
`RangeError`. -/
def formatDateText (parseDate : String → Option Int) (date : Option String) :
    Except String (Option String) :=
  match truthy date with
  | none => .ok none
  | some text =>
    match parseDate text with
    | some d => .ok (some (isoDateString d))
    | none => .error "RangeError: Invalid time value"

/-- The helper `startOfDay` (lines 30-34). -/
def startOfDay (tz date : Int) : Int := setHoursStartOfDay tz date

/-- The helper `endOfDay` (lines 36-40). -/
def endOfDay (tz date : Int) : Int := setHoursEndOfDay tz date

/-- The object handed to `onChange`. -/
structure EmittedRange where
  startDate : Option String
  endDate : Option String
  label : Option String
deriving DecidableEq

/-- The window computed by the `switch` of `setPresetRange` (lines 100-229) at the instant
`today`: `startDate`, `endDate` and `label`, or `none` when the key is not a preset and
both dates stay `null`. -/
def presetWindow (tz today : Int) (presetKey : String) : Option (Int × Int × String) :=
  if presetKey = "today" then
    some (startOfDay tz today, endOfDay tz today, "Today")
  else if presetKey = "yesterday" then
    let yesterday := setDate tz today (getDate tz today - 1)
    some (startOfDay tz yesterday, endOfDay tz yesterday, "Yesterday")
  else if presetKey = "this_week" then
    let dayOfWeek := getDay tz today
    let diff := getDate tz today - dayOfWeek + (if dayOfWeek = 0 then -6 else 1)
    let thisWeekStart := setDate tz today diff
    some (startOfDay tz thisWeekStart, endOfDay tz today, "This Week")
  else if presetKey = "last_week" then
    let lastWeekDay := getDay tz today
    let lastWeekStart := setDate tz today (getDate tz today - lastWeekDay - 6)
    let lastWeekEnd := setDate tz today (getDate tz today - lastWeekDay)
    some (startOfDay tz lastWeekStart, endOfDay tz lastWeekEnd, "Last Week")
  else if presetKey = "this_month" then
    let thisMonthStart := newDate tz (getFullYear tz today) (getMonth tz today) 1
    some (startOfDay tz thisMonthStart, endOfDay tz today, "This Month")
  else if presetKey = "last_month" then
    let lastMonthStart := newDate tz (getFullYear tz today) (getMonth tz today - 1) 1
    let lastMonthEnd := newDate tz (getFullYear tz today) (getMonth tz today) 0
    some (startOfDay tz lastMonthStart, endOfDay tz lastMonthEnd, "Last Month")
  else if presetKey = "this_quarter" then
    let quarter := getMonth tz today / 3
    let thisQuarterStart := newDate tz (getFullYear tz today) (quarter * 3) 1
    some (startOfDay tz thisQuarterStart, endOfDay tz today, "This Quarter")
  else if presetKey = "last_quarter" then
    let currentQuarter := getMonth tz today / 3
    let lastQuarterStart := newDate tz (getFullYear tz today) ((currentQuarter - 1) * 3) 1
    let lastQuarterEnd := newDate tz (getFullYear tz today) (currentQuarter * 3) 0
    some (startOfDay tz lastQuarterStart, endOfDay tz lastQuarterEnd, "Last Quarter")
  else if presetKey = "this_year" then
    let thisYearStart := newDate tz (getFullYear tz today) 0 1
    some (startOfDay tz thisYearStart, endOfDay tz today, "This Year")
  else if presetKey = "last_year" then
    let lastYearStart := newDate tz (getFullYear tz today - 1) 0 1
    let lastYearEnd := newDate tz (getFullYear tz today - 1) 11 31
    some (startOfDay tz lastYearStart, endOfDay tz lastYearEnd, "Last Year")
  else if presetKey = "last_7_days" then
    let last7Start := setDate tz today (getDate tz today - 6)
    some (startOfDay tz last7Start, endOfDay tz today, "Last 7 Days")
  else if presetKey = "last_30_days" then
    let last30Start := setDate tz today (getDate tz today - 29)
    some (startOfDay tz last30Start, endOfDay tz today, "Last 30 Days")
  else if presetKey = "last_90_days" then
    let last90Start := setDate tz today (getDate tz today - 89)
    some (startOfDay tz last90Start, endOfDay tz today, "Last 90 Days")
  else none

/-- The function `setPresetRange(presetKey)` (lines 97-239) called at the instant `today`:
the object it hands to `onChange`, `none` when it emits nothing.  `onChange` tells whether
the hook was given a callback. -/
def setPresetRange (onChange : Bool) (tz today : Int) (presetKey : String) :
    Option EmittedRange :=
  if !onChange then none
  else
    match presetWindow tz today presetKey with
    | some (startDate, endDate, label) =>
      some { startDate := some (formatDate startDate), endDate := some (formatDate endDate),
             label := some label }
    | none => none

/-- The function `setCustomRange(startDate, endDate, label)` (lines 86-94): the object it
hands to `onChange`, `none` when it emits nothing, or the error it throws. -/
def setCustomRange (parseDate : String → Option Int) (onChange : Bool)
    (startDate endDate : Option String) (label : String) :
    Except String (Option EmittedRange) :=
  if !onChange then .ok none
  else
    match formatDateText parseDate startDate with
    | .error err => .error err
    | .ok start =>
      match formatDateText parseDate endDate with
      | .error err => .error err
      | .ok finish => .ok (some { startDate := start, endDate := finish, label := some label })

/-- The function `clearDateRange()` (lines 242-250). -/
def clearDateRange (onChange : Bool) : Option EmittedRange :=
  if !onChange then none
  else some { startDate := none, endDate := none, label := none }

/-- The default range emitted once by the hook body (lines 67-83), when the range it was
given has no bound and a callback was supplied. -/
def defaultRange (onChange : Bool) (tz today : Int) (startDate endDate : Option String) :
    Option EmittedRange :=
  if truthy startDate = none ∧ truthy endDate = none ∧ onChange = true then
    let last30Start := setDate tz today (getDate tz today - 29)
    some { startDate := some (formatDate (startOfDay tz last30Start))
           endDate := some (formatDate (endOfDay tz today))
           label := some "Last 30 Days" }
  else none

end UseDateRange

/-! ## The date range hook inside `DashboardProvider` -/

namespace DashboardProvider

/-- A call of one of the three operations that the provider exposes as
`setCustomDateRange`, `setPresetDateRange` and `clearDateRange`. -/
inductive DateRangeCall where
  | setCustomRange (startDate endDate : Option String) (label : String)
  | setPresetRange (presetKey : String)
  | clearDateRange

/-- What a call hands to `onChange`, for a hook built with or without a callback. -/
def DateRangeCall.emitted (parseDate : String → Option Int) (onChange : Bool)
    (tz today : Int) : DateRangeCall → Except String (Option UseDateRange.EmittedRange)
  | .setCustomRange startDate endDate label =>
    UseDateRange.setCustomRange parseDate onChange startDate endDate label
  | .setPresetRange presetKey => .ok (UseDateRange.setPresetRange onChange tz today presetKey)
  | .clearDateRange => .ok (UseDateRange.clearDateRange onChange)

/-- The `dateRange` exposed by the hook of the provider: `useDateRange()` is called without
arguments (line 16), so the hook passes on its default parameter `{}`. -/
def hookDateRange : DateRange := {}

/-- The part of the provider state the date range touches. -/
structure ProviderState where
  dateRange : DateRange
  comparisonData : ComparisonData
deriving DecidableEq

/-- The provider state after the first render. -/
def initialProviderState : ProviderState :=
  { dateRange := hookDateRange, comparisonData := initialComparisonData }

/-- One step of the provider: a call of a date range operation at the instant `today`,
followed by a render with the raw records and current summary of that moment.  The hook
has no callback and keeps no state, so the exposed `dateRange` is again the default of
the hook, and the comparison effect runs on it; a call that throws leaves the state as it
is.  `tz` is the offset of the local zone around `today`, which the presets read, and
`zone` the local zone with its transitions, which the comparison effect reads. -/
def providerStep (parseDate : String → Option Int) (tz : Int) (zone : Zone)
    (st : ProviderState) (event : DateRangeCall × Int × List Sale × UseSalesData.Summary) :
    ProviderState :=
  match event with
  | (call, today, salesData, currentStats) =>
    match call.emitted parseDate false tz today with
    | .error _ => st
    | .ok _ =>
      { dateRange := hookDateRange
        comparisonData :=
          comparisonEffect zone parseDate salesData hookDateRange currentStats
            st.comparisonData }

end DashboardProvider

/-! ## Notions of the specification -/

/-- Every criterion is empty: no start date, no end date, no selection, no search term. -/
def Filters.Unrestricted (filters : Filters) : Prop :=
  truthy filters.startDate = none ∧ truthy filters.endDate = none ∧
  filters.categories = [] ∧ filters.regions = [] ∧ filters.salesReps = [] ∧
  filters.paymentMethods = [] ∧ filters.searchTerm = ""

/-- The date predicate of the specification: vacuous unless both bounds are set. -/
def datePredicate (parseDate : String → Option Int) (zone : Zone) (filters : Filters)
    (sale : Sale) : Bool :=
  match truthy filters.startDate, truthy filters.endDate with
  | some s, some e =>
    UseSalesData.dateFilter parseDate (parseDate s)
      ((parseDate e).map zone.setHoursEndOfDay) sale
  | _, _ => true

/-- A membership predicate of the specification: vacuous for an empty selection. -/
def memberPredicate (selection : List String) (field : Sale → Option String)
    (sale : Sale) : Bool :=
  decide (selection = []) || UseSalesData.memberFilter selection field sale

/-- The free-text predicate of the specification: vacuous for an empty search term. -/
def searchPredicate (toLowerCase : String → String) (filters : Filters) (sale : Sale) :
    Bool :=
  decide (filters.searchTerm = "") ||
    UseSalesData.searchFilter toLowerCase (toLowerCase filters.searchTerm) sale

/-- The conjunction of the six predicates of the specification. -/
def keeps (toLowerCase : String → String) (parseDate : String → Option Int) (zone : Zone)
    (filters : Filters) (sale : Sale) : Bool :=
  datePredicate parseDate zone filters sale &&
  memberPredicate filters.categories (fun sale => sale.category) sale &&
  memberPredicate filters.regions (fun sale => sale.region) sale &&
  memberPredicate filters.salesReps (fun sale => sale.salesRep) sale &&
  memberPredicate filters.paymentMethods (fun sale => sale.paymentMethod) sale &&
  searchPredicate toLowerCase filters sale

/-- The window from the instant `start` to the instant `finish` is a range of whole local
days: it begins with the first millisecond of the local day `firstDay` and ends with the
last millisecond of the local day `lastDay` (day numbers counted from 1970-01-01). -/
def IsDayWindow (tz start finish firstDay lastDay : Int) : Prop :=
  localDay tz start = firstDay ∧ (start + tz) % msPerDay = 0 ∧
  localDay tz finish = lastDay ∧ (finish + tz) % msPerDay = msPerDay - 1

/-- The key under which a record enters a dictionary of buckets, `keyOf` being the key of a
date: none when the record has no date and when the key is a name that every object
inherits. -/
def bucketKey (keyOf : String → String) (sale : Sale) : Option String :=
  match truthy sale.date with
  | none => none
  | some date => if keyOf date ∈ inheritedNames then none else some (keyOf date)

/-- None of the names is one that every object inherits. -/
def OwnNames (names : List String) : Prop := ∀ name ∈ names, name ∉ inheritedNames

instance : DecidablePred OwnNames :=
  fun names => inferInstanceAs (Decidable (∀ name ∈ names, name ∉ inheritedNames))

/-- The distinct elements of a list, in the order of their first occurrence. -/
def firstOccurrences : List String → List String
  | [] => []
  | k :: rest => k :: (firstOccurrences rest).filter (fun x => decide (x ≠ k))

/-- The order in which an object lists its properties when these were created by assigning
to the names of `names` one after the other: the names that are array indices in ascending
numeric order, then the other names in the order of their first occurrence. -/
def enumerationOrder (names : List String) : List String :=
  ownProperties id (firstOccurrences names)

/-- The list `result` is a top-`n` ranking of `input` by the value `val`: it has
`min n (length of input)` entries; together with the omitted entries it is the input; it
descends by value; no omitted entry has a larger value than a returned one; and for every
value the returned entries of that value are the first ones of the input with that value,
in the order of the input (stable tie-break). -/
def IsTopRanking {α : Type} (val : α → ℚ) (input : List α) (n : Nat) (result : List α) :
    Prop :=
  result.length ≤ n ∧
  result.length = min n input.length ∧
  (∃ omitted, (result ++ omitted).Perm input ∧ ∀ x ∈ result, ∀ y ∈ omitted, val y ≤ val x) ∧
  result.Pairwise (fun a b => val b ≤ val a) ∧
  ∀ v, result.filter (fun x => decide (val x = v))
    <+: input.filter (fun x => decide (val x = v))

/-! # Properties -/

/-! ## Properties of the percent change -/

/-- The inline percent change of the provider and `calculatePercentChange` of the
utilities agree whenever the previous value is not negative. -/
theorem inline_percentChange_agrees_nonneg (current previous : ℚ) (h : 0 ≤ previous) :
    DashboardProvider.calculatePercentChange current previous
      = Calculators.calculatePercentChange current previous := by
  unfold DashboardProvider.calculatePercentChange Calculators.calculatePercentChange
  rw [abs_of_nonneg h]

/-! ## Properties of the date step of the filter pipeline -/

section DateStep

open UseSalesData

theorem dateLe_some (x y : Int) : dateLe (some x) (some y) = decide (x ≤ y) := rfl

theorem dateLe_none_left (b : Option Int) : dateLe none b = false := by
  cases b <;> rfl

theorem dateLe_none_right (a : Option Int) : dateLe a none = false := by
  cases a <;> rfl

theorem dateLe_eq_true {a b : Option Int} :
    dateLe a b = true ↔ ∃ x y, a = some x ∧ b = some y ∧ x ≤ y := by
  cases a <;> cases b <;> simp [dateLe]

theorem memberStep_nil (selection : List String) (field : Sale → Option String) :
    memberStep selection field [] = [] := by
  unfold memberStep; split <;> rfl

theorem searchStep_nil (toLowerCase : String → String) (filters : Filters) : searchStep toLowerCase filters [] = [] := by
  unfold searchStep; split <;> rfl

/-- The end of the local day that contains `t` is not before `t`. -/
theorem le_setHoursEndOfDay (tz t : Int) : t ≤ setHoursEndOfDay tz t := by
  unfold setHoursEndOfDay msPerDay
  omega

/-- The end of day lies on the same local day as `t`, at 23:59:59.999. -/
theorem setHoursEndOfDay_spec (tz t : Int) :
    (setHoursEndOfDay tz t + tz) / msPerDay = (t + tz) / msPerDay ∧
    (setHoursEndOfDay tz t + tz) % msPerDay = msPerDay - 1 := by
  unfold setHoursEndOfDay msPerDay
  omega

/-- An instant of the same local day as `t` is not after the end of that day. -/
theorem le_setHoursEndOfDay_of_sameDay (tz t u : Int)
    (h : (u + tz) / msPerDay = (t + tz) / msPerDay) : u ≤ setHoursEndOfDay tz t := by
  unfold setHoursEndOfDay
  unfold msPerDay at *
  omega

/-- An instant of a later local day than `t` is after the end of the day of `t`. -/
theorem setHoursEndOfDay_lt_of_laterDay (tz t u : Int)
    (h : (t + tz) / msPerDay < (u + tz) / msPerDay) : setHoursEndOfDay tz t < u := by
  unfold setHoursEndOfDay
  unfold msPerDay at *
  omega

/-- In a zone of constant offset the end of day is the one of the constant-offset
arithmetic. -/
theorem setHoursEndOfDay_fixed (tz t : Int) :
    (Zone.fixed tz).setHoursEndOfDay t = setHoursEndOfDay tz t := by
  simp only [Zone.setHoursEndOfDay, Zone.fixed, Zone.utcOfLocal, Zone.utcFrom, Zone.offsetAt,
    List.foldl_nil, setHoursEndOfDay]

theorem dateFilter_eq_true (parseDate : String → Option Int) (start finish : Option Int)
    (sale : Sale) :
    dateFilter parseDate start finish sale = true ↔
      ∃ d t a b, truthy sale.date = some d ∧ parseDate d = some t ∧ start = some a ∧
        finish = some b ∧ a ≤ t ∧ t ≤ b := by
  unfold dateFilter
  cases hd : truthy sale.date with
  | none => simp
  | some d =>
    simp only [Bool.and_eq_true, dateLe_eq_true]
    constructor
    · rintro ⟨⟨a, t, ha, ht, hat⟩, ⟨t2, b, ht2, hb, htb⟩⟩
      rw [ht] at ht2
      cases ht2
      exact ⟨d, t, a, b, rfl, ht, ha, hb, hat, htb⟩
    · rintro ⟨d2, t, a, b, hd2, ht, ha, hb, hat, htb⟩
      cases hd2
      exact ⟨⟨a, t, ha, ht, hat⟩, ⟨t, b, ht, hb, htb⟩⟩

/-- C12 (counterexample): with the single raw record dated 2025-03-05 and the inverted
range 2025-03-10..2025-03-01, and likewise with a start bound that does not parse, the
pipeline returns no record, whereas with both bounds cleared it returns the record: the
date axis is not treated as unrestricted. -/
theorem invalid_range_not_unrestricted :
    filterPipeline toLowerCaseASCII parseISODate (Zone.fixed 0) [{ date := some "2025-03-05", amount := some 100 }]
        { startDate := some "2025-03-10", endDate := some "2025-03-01" } = [] ∧
    filterPipeline toLowerCaseASCII parseISODate (Zone.fixed 0) [{ date := some "2025-03-05", amount := some 100 }]
        { startDate := some "not a date", endDate := some "2025-03-10" } = [] ∧
    filterPipeline toLowerCaseASCII parseISODate (Zone.fixed 0) [{ date := some "2025-03-05", amount := some 100 }]
        { startDate := none, endDate := none }
      = [{ date := some "2025-03-05", amount := some 100 }] := by
  refine ⟨by decide!, by decide!, by decide!⟩

/-- C12 (amended): when both bounds are set and one of them does not parse, or the start
is later than the end of the end day, the date predicate rejects every record, so the
pipeline returns the empty list (a value, nothing is raised), whatever the other
criteria are. -/
theorem invalid_range_yields_empty (toLowerCase : String → String)
    (parseDate : String → Option Int) (zone : Zone)
    (salesData : List Sale) (filters : Filters) (s e : String)
    (hs : truthy filters.startDate = some s) (he : truthy filters.endDate = some e)
    (hinv : parseDate s = none ∨ parseDate e = none ∨
      ∃ a b, parseDate s = some a ∧ parseDate e = some b ∧ zone.setHoursEndOfDay b < a) :
    dateStep parseDate zone filters salesData = [] ∧
    filterPipeline toLowerCase parseDate zone salesData filters = [] := by
  have hstep : dateStep parseDate zone filters salesData = [] := by
    unfold dateStep
    rw [hs, he]
    simp only
    rw [List.filter_eq_nil_iff]
    intro sale _ hkeep
    rw [dateFilter_eq_true] at hkeep
    obtain ⟨d, t, a, b, _, _, ha, hb, hat, htb⟩ := hkeep
    rcases hinv with h | h | ⟨a2, b2, ha2, hb2, hlt⟩
    · rw [h] at ha; cases ha
    · rw [h] at hb; cases hb
    · rw [ha2] at ha
      rw [hb2] at hb
      cases ha
      cases hb
      omega
  refine ⟨hstep, ?_⟩
  unfold filterPipeline
  simp only [hstep, memberStep_nil, searchStep_nil]

/-- C12 (amended), at the inverted range 2025-03-10..2025-03-01 over one record. -/
theorem invalid_range_yields_empty_witness :
    dateStep parseISODate (Zone.fixed 0) { startDate := some "2025-03-10", endDate := some "2025-03-01" }
        [{ date := some "2025-03-05", amount := some 100 }] = [] ∧
    filterPipeline toLowerCaseASCII parseISODate (Zone.fixed 0) [{ date := some "2025-03-05", amount := some 100 }]
        { startDate := some "2025-03-10", endDate := some "2025-03-01" } = [] :=
  invalid_range_yields_empty toLowerCaseASCII parseISODate (Zone.fixed 0) [{ date := some "2025-03-05", amount := some 100 }]
    { startDate := some "2025-03-10", endDate := some "2025-03-01" } "2025-03-10" "2025-03-01"
    (by decide) (by decide)
    (Or.inr (Or.inr ⟨1741564800000, 1740787200000, by decide, by decide, by decide⟩))

/-- With both bounds set and parsing to `a ≤ b`, the date step keeps, in their order, exactly the records whose date parses to an instant `t` with
`a ≤ t ≤ 23:59:59.999 of the local day of b`.  So a record stamped at the start bound is
kept, a record stamped anywhere on the end day (and not before the start) is kept, and
a record before the start or on a day after the end day is dropped. -/
theorem date_step_inclusive_end_of_day (parseDate : String → Option Int) (tz : Int)
    (salesData : List Sale) (filters : Filters) (s e : String) (a b : Int)
    (hs : truthy filters.startDate = some s) (he : truthy filters.endDate = some e)
    (ha : parseDate s = some a) (hb : parseDate e = some b) (hab : a ≤ b) :
    ((setHoursEndOfDay tz b + tz) / msPerDay = (b + tz) / msPerDay ∧
      (setHoursEndOfDay tz b + tz) % msPerDay = msPerDay - 1) ∧
    (dateStep parseDate (Zone.fixed tz) filters salesData).Sublist salesData ∧
    (∀ sale, sale ∈ dateStep parseDate (Zone.fixed tz) filters salesData ↔
      sale ∈ salesData ∧ ∃ d t, truthy sale.date = some d ∧ parseDate d = some t ∧
        a ≤ t ∧ t ≤ setHoursEndOfDay tz b) ∧
    (∀ sale ∈ salesData, ∀ d, truthy sale.date = some d → parseDate d = some a →
      sale ∈ dateStep parseDate (Zone.fixed tz) filters salesData) ∧
    (∀ sale ∈ salesData, ∀ d t, truthy sale.date = some d → parseDate d = some t →
      a ≤ t → (t + tz) / msPerDay = (b + tz) / msPerDay →
      sale ∈ dateStep parseDate (Zone.fixed tz) filters salesData) ∧
    (∀ sale d t, truthy sale.date = some d → parseDate d = some t →
      (t < a ∨ (b + tz) / msPerDay < (t + tz) / msPerDay) →
      sale ∉ dateStep parseDate (Zone.fixed tz) filters salesData) := by
  have hstep : dateStep parseDate (Zone.fixed tz) filters salesData =
      salesData.filter (dateFilter parseDate (some a) (some (setHoursEndOfDay tz b))) := by
    unfold dateStep
    rw [hs, he]
    simp only [ha, hb, Option.map_some', setHoursEndOfDay_fixed]
  have hmem : ∀ sale, sale ∈ dateStep parseDate (Zone.fixed tz) filters salesData ↔
      sale ∈ salesData ∧ ∃ d t, truthy sale.date = some d ∧ parseDate d = some t ∧
        a ≤ t ∧ t ≤ setHoursEndOfDay tz b := by
    intro sale
    rw [hstep, List.mem_filter, dateFilter_eq_true]
    constructor
    · rintro ⟨hin, d, t, a2, b2, hd, ht, ha2, hb2, h1, h2⟩
      cases ha2
      cases hb2
      exact ⟨hin, d, t, hd, ht, h1, h2⟩
    · rintro ⟨hin, d, t, hd, ht, h1, h2⟩
      exact ⟨hin, d, t, a, _, hd, ht, rfl, rfl, h1, h2⟩
  refine ⟨setHoursEndOfDay_spec tz b, ?_, hmem, ?_, ?_, ?_⟩
  · rw [hstep]
    exact List.filter_sublist salesData
  · intro sale hin d hd ht
    exact (hmem sale).2 ⟨hin, d, a, hd, ht, le_refl a,
      le_trans hab (le_setHoursEndOfDay tz b)⟩
  · intro sale hin d t hd ht hat hday
    exact (hmem sale).2 ⟨hin, d, t, hd, ht, hat, le_setHoursEndOfDay_of_sameDay tz b t hday⟩
  · intro sale d t hd ht hout hin
    obtain ⟨_, d2, t2, hd2, ht2, h1, h2⟩ := (hmem sale).1 hin
    rw [hd] at hd2
    cases hd2
    rw [ht] at ht2
    cases ht2
    rcases hout with h | h
    · omega
    · have := setHoursEndOfDay_lt_of_laterDay tz b t h
      omega

/-- The date step at the window 2025-03-01..2025-03-10 in a zone at UTC over one record. -/
theorem date_step_inclusive_end_of_day_witness :
    ((setHoursEndOfDay 0 1741564800000 + 0) / msPerDay = (1741564800000 + 0) / msPerDay ∧
      (setHoursEndOfDay 0 1741564800000 + 0) % msPerDay = msPerDay - 1) ∧
    (dateStep parseISODate (Zone.fixed 0) { startDate := some "2025-03-01", endDate := some "2025-03-10" }
      [{ date := some "2025-03-10" }]).Sublist [{ date := some "2025-03-10" }] ∧
    (∀ sale, sale ∈ dateStep parseISODate (Zone.fixed 0)
        { startDate := some "2025-03-01", endDate := some "2025-03-10" }
        [{ date := some "2025-03-10" }] ↔
      sale ∈ [({ date := some "2025-03-10" } : Sale)] ∧
        ∃ d t, truthy sale.date = some d ∧ parseISODate d = some t ∧
          1740787200000 ≤ t ∧ t ≤ setHoursEndOfDay 0 1741564800000) ∧
    (∀ sale ∈ [({ date := some "2025-03-10" } : Sale)], ∀ d, truthy sale.date = some d →
      parseISODate d = some 1740787200000 →
      sale ∈ dateStep parseISODate (Zone.fixed 0)
        { startDate := some "2025-03-01", endDate := some "2025-03-10" }
        [{ date := some "2025-03-10" }]) ∧
    (∀ sale ∈ [({ date := some "2025-03-10" } : Sale)], ∀ d t, truthy sale.date = some d →
      parseISODate d = some t → 1740787200000 ≤ t →
      (t + 0) / msPerDay = (1741564800000 + 0) / msPerDay →
      sale ∈ dateStep parseISODate (Zone.fixed 0)
        { startDate := some "2025-03-01", endDate := some "2025-03-10" }
        [{ date := some "2025-03-10" }]) ∧
    (∀ sale d t, truthy sale.date = some d → parseISODate d = some t →
      (t < 1740787200000 ∨ (1741564800000 + 0) / msPerDay < (t + 0) / msPerDay) →
      sale ∉ dateStep parseISODate (Zone.fixed 0)
        { startDate := some "2025-03-01", endDate := some "2025-03-10" }
        [{ date := some "2025-03-10" }]) :=
  date_step_inclusive_end_of_day parseISODate 0 [{ date := some "2025-03-10" }]
    { startDate := some "2025-03-01", endDate := some "2025-03-10" } "2025-03-01" "2025-03-10"
    1740787200000 1741564800000 (by decide) (by decide) (by decide) (by decide) (by decide)

/-- C18 (failing input): the criteria are startDate 2025-03-01 and endDate 2025-03-10, the
record is stamped 2025-03-10T12:00:00Z, noon of the end day, and the local zone is five
hours west of UTC.  `new Date('2025-03-10')` is midnight UTC, which is 19:00 of 2025-03-09
in the zone, so `setHours(23, 59, 59, 999)` puts the end bound at the end of the local day
2025-03-09, that is 2025-03-10T04:59:59.999Z.  The record, whose date is 2025-03-10 both in
UTC and in the zone, is dropped; so it is in the zone America/New_York, where the end bound
is 2025-03-10T03:59:59.999Z.  In a zone at UTC the record is kept. -/
theorem end_day_cut_west_of_utc :
    filterPipeline toLowerCaseASCII parseISODate (Zone.fixed (-18000000))
        [{ date := some "2025-03-10T12:00:00Z", amount := some 100 }]
        { startDate := some "2025-03-01", endDate := some "2025-03-10" } = [] ∧
    parseISODate "2025-03-10" = some 1741564800000 ∧
    (Zone.fixed (-18000000)).setHoursEndOfDay 1741564800000 = 1741582799999 ∧
    parseISODate "2025-03-10T04:59:59Z" = some 1741582799000 ∧
    parseISODate "2025-03-10T12:00:00Z" = some 1741608000000 ∧
    (1741582799999 : Int) < 1741608000000 ∧
    isoDateString 1741608000000 = "2025-03-10" ∧
    civilFromDays ((1741608000000 + -18000000) / msPerDay) = (2025, 3, 10) ∧
    civilFromDays ((1741582799999 + -18000000) / msPerDay) = (2025, 3, 9) ∧
    filterPipeline toLowerCaseASCII parseISODate newYork2025
        [{ date := some "2025-03-10T12:00:00Z", amount := some 100 }]
        { startDate := some "2025-03-01", endDate := some "2025-03-10" } = [] ∧
    newYork2025.setHoursEndOfDay 1741564800000 = 1741579199999 ∧
    filterPipeline toLowerCaseASCII parseISODate (Zone.fixed 0)
        [{ date := some "2025-03-10T12:00:00Z", amount := some 100 }]
        { startDate := some "2025-03-01", endDate := some "2025-03-10" }
      = [{ date := some "2025-03-10T12:00:00Z", amount := some 100 }] := by
  refine ⟨by decide!, by decide, by decide, by decide, by decide, by decide, by decide,
    by decide, by decide, by decide!, by decide, by decide!⟩

end DateStep

/-! ## Properties of the period comparator -/

section Comparator

open UseSalesData DashboardProvider

theorem previousFilter_false_of_inverted (parseDate : String → Option Int) (lo hi : Int)
    (h : hi < lo) (sale : Sale) : previousFilter parseDate lo hi sale = false := by
  unfold previousFilter
  cases hd : sale.date.bind parseDate with
  | none => simp [dateLe_none_right]
  | some t =>
    simp only [dateLe_some, Bool.and_eq_false_imp, decide_eq_true_eq, decide_eq_false_iff_not]
    intro h1
    omega

theorem percentChangeOf_zero (current : ℚ) :
    percentChangeOf current (some 0) = some (if current > 0 then 100 else 0) := by
  simp [percentChangeOf, DashboardProvider.calculatePercentChange]

end Comparator

/-! ## Properties of the summary -/

section SummaryTotals

open UseSalesData DashboardProvider

theorem foldl_amount_sum (l : List Sale) (acc : ℚ) :
    l.foldl (fun sum sale => sum + amountOrZero sale) acc
      = acc + (l.map amountOrZero).sum := by
  induction l generalizing acc with
  | nil => simp
  | cons x xs ih => simp [List.foldl_cons, ih, add_assoc]

theorem calculateSummary_totalSales (l : List Sale) :
    (calculateSummary l).totalSales = l.length := by
  unfold calculateSummary
  split
  · next h => simp [emptySummary, h]
  · rfl

theorem calculateSummary_totalRevenue (l : List Sale) :
    (calculateSummary l).totalRevenue = (l.map amountOrZero).sum := by
  unfold calculateSummary
  split
  · next h =>
    have hl : l = [] := List.length_eq_zero.mp h
    simp [emptySummary, hl]
  · simp [foldl_amount_sum]

theorem calculateSummary_average (l : List Sale) :
    (calculateSummary l).averageOrderValue
      = (calculateSummary l).totalRevenue / ((calculateSummary l).totalSales : ℚ) := by
  unfold calculateSummary
  split
  · simp [emptySummary]
  · rfl

/-- C14 (counterexample): adding a record without an amount to the subset
[{2025-03-01, 100}] raises totalSales from 1 to 2 and lowers averageOrderValue from 100
to 50; adding a record without a date, of amount 40, raises totalRevenue from 100 to 140.
In the comparator a previous-period record without an amount turns the previous revenue
into `NaN`. -/
theorem malformed_record_not_skipped :
    (calculateSummary [{ date := some "2025-03-01", amount := some 100 }]).totalSales = 1 ∧
    (calculateSummary [{ date := some "2025-03-01", amount := some 100 },
        { date := some "2025-03-02" }]).totalSales = 2 ∧
    (calculateSummary [{ date := some "2025-03-01", amount := some 100 }]).averageOrderValue
      = 100 ∧
    (calculateSummary [{ date := some "2025-03-01", amount := some 100 },
        { date := some "2025-03-02" }]).averageOrderValue = 50 ∧
    (calculateSummary [{ date := some "2025-03-01", amount := some 100 }]).totalRevenue = 100 ∧
    (calculateSummary [{ date := some "2025-03-01", amount := some 100 },
        { amount := some 40 }]).totalRevenue = 140 ∧
    previousRevenue [{ date := some "2025-02-25", amount := some 100 },
        { date := some "2025-02-26" }] = none := by
  refine ⟨by decide!, by decide!, by decide!, by decide!, by decide!, by decide!, by decide!⟩

/-- The summary does not read the dates of the records. -/
theorem calculateSummary_ignores_dates (data : List Sale) (dates : Sale → Option String) :
    calculateSummary (data.map (fun sale => { sale with date := dates sale }))
      = calculateSummary data := by
  simp only [calculateSummary, groupRevenue, List.length_map, List.foldl_map, amountOrZero]

/-- C14 (amended): `calculateSummary` skips no record.  For records whose amounts are
numbers or missing: a record added anywhere to a subset raises totalSales by one, whatever
its amount and its date; when its amount is missing (or 0) it leaves totalRevenue as it
was; averageOrderValue is the totalRevenue divided by the new number of records; and the
dates have no part in the summary, which is the same whatever the dates of the records
are, missing ones included. -/
theorem summary_counts_every_record (before after : List Sale) (r : Sale) :
    (calculateSummary (before ++ r :: after)).totalSales
      = (calculateSummary (before ++ after)).totalSales + 1 ∧
    (calculateSummary (before ++ r :: after)).totalSales = (before ++ after).length + 1 ∧
    (r.amount = none ∨ r.amount = some 0 →
      (calculateSummary (before ++ r :: after)).totalRevenue
        = (calculateSummary (before ++ after)).totalRevenue) ∧
    (calculateSummary (before ++ r :: after)).averageOrderValue
      = (calculateSummary (before ++ r :: after)).totalRevenue
          / (((before ++ after).length : ℚ) + 1) ∧
    (∀ (data : List Sale) (dates : Sale → Option String),
      calculateSummary (data.map (fun sale => { sale with date := dates sale }))
        = calculateSummary data) ∧
    calculateSummary [{ date := some "2025-03-01", amount := some 100 }, { amount := some 40 }]
      = calculateSummary [{ date := some "2025-03-01", amount := some 100 },
          { date := some "garbage", amount := some 40 }] := by
  have hcount : (calculateSummary (before ++ r :: after)).totalSales
      = (calculateSummary (before ++ after)).totalSales + 1 := by
    simp only [calculateSummary_totalSales, List.length_append, List.length_cons]
    omega
  refine ⟨hcount, ?_, ?_, ?_, calculateSummary_ignores_dates, by decide!⟩
  · rw [hcount, calculateSummary_totalSales]
  · intro hamount
    have hzero : amountOrZero r = 0 := by
      rcases hamount with h | h <;> simp [amountOrZero, h]
    simp only [calculateSummary_totalRevenue, List.map_append, List.map_cons, List.sum_append,
      List.sum_cons, hzero, zero_add]
  · rw [calculateSummary_average, hcount, calculateSummary_totalSales]
    push_cast
    rfl

end SummaryTotals

/-! ## Properties of the filter state store -/

section FilterStore

open UseFilters

/-- C15 (failing input): the store is built from the default empty object, the
categories are set to ["A"], and `resetFilters` is called.  The loop that looks for a
change runs over the keys of the initial object, finds none and returns: the store is
left as it was, with the categories still ["A"] and not the empty list they held after
construction.  The same happens with the initial object of `DashboardProvider`, which
names only `startDate` and `endDate`. -/
theorem resetFilters_keeps_changes :
    (useFilters {} 0).filters.categories = .arr 0 [] ∧
    (setFilter (useFilters {} 0) .categories (.arr 100 ["A"])).filters.categories
      = .arr 100 ["A"] ∧
    resetFilters (setFilter (useFilters {} 0) .categories (.arr 100 ["A"]))
      = setFilter (useFilters {} 0) .categories (.arr 100 ["A"]) ∧
    (resetFilters (setFilter (useFilters {} 0) .categories (.arr 100 ["A"]))).filters.categories
      = .arr 100 ["A"] ∧
    (resetFilters (setFilter
        (useFilters { startDate := some .undefined, endDate := some .undefined } 0)
        .searchTerm (.str "laptop"))).filters.searchTerm = .str "laptop" ∧
    (useFilters { startDate := some .undefined, endDate := some .undefined } 0).filters.searchTerm
      = .str "" := by
  refine ⟨by decide, by decide, by decide, by decide, by decide, by decide⟩

theorem strictEq_refl_of_not_arr (v w : JsVal) (hv : ∀ r l, v ≠ .arr r l)
    (h : deepEq v w = true) : strictEq v w = true := by
  cases v <;> cases w <;> simp_all [deepEq, strictEq]

theorem hasChanged_eq_false (current : FilterState) (p : PartialFilters)
    (h : ∀ key ∈ p.keys, strictEq (current.get key) (p.get key) = true) :
    hasChanged current p = false := by
  unfold hasChanged
  rw [List.any_eq_false]
  intro key hkey
  simp [h key hkey]

/-- The ref `prevFiltersRef` and the state hold the same filter object after construction
and after every operation of the store. -/
theorem store_in_sync (initial : PartialFilters) (ref : Nat) (st : Store)
    (h : st.prevFiltersRef = st.filters) (key : FilterKey) (v : JsVal) (p : PartialFilters)
    (w : String) :
    (useFilters initial ref).prevFiltersRef = (useFilters initial ref).filters ∧
    (setFilter st key v).prevFiltersRef = (setFilter st key v).filters ∧
    (updateFilters st p).prevFiltersRef = (updateFilters st p).filters ∧
    (resetFilters st).prevFiltersRef = (resetFilters st).filters ∧
    (∀ st2, toggleFilterValue st key w = some st2 → st2.prevFiltersRef = st2.filters) := by
  refine ⟨rfl, ?_, ?_, ?_, ?_⟩
  · unfold setFilter
    split
    · exact h
    · rfl
  · unfold updateFilters
    split
    · exact h
    · split
      · exact h
      · rfl
  · unfold resetFilters
    simp only
    split
    · exact h
    · rfl
  · intro st2 hst2
    unfold toggleFilterValue at hst2
    cases hcur : currentValues (st.filters.get key) with
    | none => rw [hcur] at hst2; cases hst2
    | some values =>
      rw [hcur] at hst2
      simp only [Option.some.injEq] at hst2
      rw [← hst2]

/-- C16 (counterexample): the categories hold the list ["A"]; `setFilter` and
`updateFilters` are given a freshly built list ["A"], deep-equal to the current value.
Both replace the filter state: the version of the state object goes from 0 to 1 and the
stored list is the new object. -/
theorem fresh_equal_list_replaces_state :
    deepEq ((useFilters { categories := some (.arr 1 ["A"]) } 10).filters.get .categories)
      (.arr 2 ["A"]) = true ∧
    (useFilters { categories := some (.arr 1 ["A"]) } 10).version = 0 ∧
    (setFilter (useFilters { categories := some (.arr 1 ["A"]) } 10) .categories
      (.arr 2 ["A"])).version = 1 ∧
    setFilter (useFilters { categories := some (.arr 1 ["A"]) } 10) .categories (.arr 2 ["A"])
      ≠ useFilters { categories := some (.arr 1 ["A"]) } 10 ∧
    (updateFilters (useFilters { categories := some (.arr 1 ["A"]) } 10)
      { categories := some (.arr 2 ["A"]) }).version = 1 ∧
    updateFilters (useFilters { categories := some (.arr 1 ["A"]) } 10)
        { categories := some (.arr 2 ["A"]) }
      ≠ useFilters { categories := some (.arr 1 ["A"]) } 10 := by
  refine ⟨by decide, by decide, by decide, by decide, by decide, by decide⟩

/-- C16 (amended): `setFilter(key, v)` is a no-op, leaving the store and the version of
its state object as they are, when `v` is identical (`===`) to the current value of the
key: the same string, `null` or `undefined`, or the very same array object; so it is a
no-op for every deep-equal `v` when the current value is not an array.
`updateFilters(partial)` is a no-op when every supplied value is identical to the
current value of its key, and when nothing is supplied. -/
theorem identical_update_is_noop (st : Store) (hsync : st.prevFiltersRef = st.filters) :
    (∀ key v, strictEq (st.filters.get key) v = true → setFilter st key v = st) ∧
    (∀ key v, (∀ r l, st.filters.get key ≠ .arr r l) → deepEq (st.filters.get key) v = true →
      setFilter st key v = st) ∧
    (∀ p : PartialFilters,
      (∀ key ∈ p.keys, strictEq (st.filters.get key) (p.get key) = true) →
      updateFilters st p = st) := by
  refine ⟨?_, ?_, ?_⟩
  · intro key v h
    unfold setFilter
    rw [hsync, h]
    rfl
  · intro key v hv h
    unfold setFilter
    rw [hsync, strictEq_refl_of_not_arr _ _ hv h]
    rfl
  · intro p h
    unfold updateFilters
    rw [hsync, hasChanged_eq_false st.filters p h]
    simp

/-- C16 (amended), at the store built from { searchTerm: "laptop", categories: ["A"] }:
setting the search term to "laptop" again, setting the categories to the same array
object, and updating both with identical values leave the store as it is. -/
theorem identical_update_is_noop_witness :
    setFilter
        (useFilters { searchTerm := some (.str "laptop"), categories := some (.arr 1 ["A"]) } 10)
        .categories (.arr 1 ["A"])
      = useFilters { searchTerm := some (.str "laptop"), categories := some (.arr 1 ["A"]) } 10 ∧
    setFilter
        (useFilters { searchTerm := some (.str "laptop"), categories := some (.arr 1 ["A"]) } 10)
        .searchTerm (.str "laptop")
      = useFilters { searchTerm := some (.str "laptop"), categories := some (.arr 1 ["A"]) } 10 ∧
    updateFilters
        (useFilters { searchTerm := some (.str "laptop"), categories := some (.arr 1 ["A"]) } 10)
        { searchTerm := some (.str "laptop"), categories := some (.arr 1 ["A"]) }
      = useFilters { searchTerm := some (.str "laptop"), categories := some (.arr 1 ["A"]) } 10 :=
  ⟨(identical_update_is_noop
      (useFilters { searchTerm := some (.str "laptop"), categories := some (.arr 1 ["A"]) } 10)
      rfl).1 .categories (.arr 1 ["A"]) (by decide),
    (identical_update_is_noop
      (useFilters { searchTerm := some (.str "laptop"), categories := some (.arr 1 ["A"]) } 10)
      rfl).2.1 .searchTerm (.str "laptop") (fun _ _ h => JsVal.noConfusion h) (by decide),
    (identical_update_is_noop
      (useFilters { searchTerm := some (.str "laptop"), categories := some (.arr 1 ["A"]) } 10)
      rfl).2.2 { searchTerm := some (.str "laptop"), categories := some (.arr 1 ["A"]) }
      (by decide)⟩

theorem FilterState.get_set_same (f : FilterState) (key : FilterKey) (v : JsVal) :
    (f.set key v).get key = v := by
  cases key <;> rfl

theorem FilterState.get_set_other (f : FilterState) (key other : FilterKey) (v : JsVal)
    (h : other ≠ key) : (f.set key v).get other = f.get other := by
  cases key <;> cases other <;> first | rfl | exact absurd rfl h

theorem indexOf_eq_none {values : List String} {value : String} (h : value ∉ values) :
    indexOf values value = none := by
  induction values with
  | nil => rfl
  | cons x xs ih =>
    have hx : x ≠ value := fun hxv => h (by simp [hxv])
    have hxs : value ∉ xs := fun hm => h (List.mem_cons_of_mem _ hm)
    simp [indexOf, hx, ih hxs]

theorem toggledValues_of_not_mem {values : List String} {value : String}
    (h : value ∉ values) : toggledValues values value = values ++ [value] := by
  unfold toggledValues
  rw [indexOf_eq_none h]

theorem toggledValues_of_mem {values : List String} {value : String}
    (h : value ∈ values) : toggledValues values value = values.erase value := by
  unfold toggledValues
  induction values with
  | nil => exact absurd h (List.not_mem_nil _)
  | cons x xs ih =>
    by_cases hx : x = value
    · subst hx
      simp [indexOf]
    · have hxs : value ∈ xs := by
        rcases List.mem_cons.mp h with h1 | h1
        · exact absurd h1.symm hx
        · exact h1
      have ih2 := ih hxs
      simp only [indexOf, hx, if_false]
      cases hidx : indexOf xs value with
      | none =>
        rw [hidx] at ih2
        simp only [Option.map_none']
        have hlen := congrArg List.length ih2
        have hpos : 0 < xs.length := List.length_pos_of_mem hxs
        rw [List.length_append, List.length_erase_of_mem hxs] at hlen
        simp at hlen
        omega
      | some i =>
        rw [hidx] at ih2
        simp only [Option.map_some', List.eraseIdx_cons_succ]
        simp only at ih2
        rw [ih2, List.erase_cons_tail (by simpa using hx)]

/-- C17 (counterexample): the categories hold ["A", "A"]; after
`toggleFilterValue("categories", "A")` they hold ["A"], so "A" is still a member. -/
theorem toggle_leaves_duplicate :
    (toggleFilterValue (useFilters { categories := some (.arr 1 ["A", "A"]) } 10)
        .categories "A").map (fun st => st.filters.categories) = some (.arr 14 ["A"]) ∧
    "A" ∈ ["A"] := by
  refine ⟨by decide, by decide⟩

/-- C17 (amended): for a field holding a list (or nothing), `toggleFilterValue(key, v)`
installs a new list under `key`: the old list with `v` appended when `v` is absent; the
old list without the first occurrence of `v` when `v` is present, so that the other
elements keep their order and number and `v` is no longer a member when it occurred
once.  Every field other than `key` is unchanged. -/
theorem toggle_removes_first_occurrence (st : Store) (key : FilterKey) (v : String)
    (values : List String) (hlist : currentValues (st.filters.get key) = some values) :
    ∃ st2 newValues, toggleFilterValue st key v = some st2 ∧
      st2.filters.get key = .arr st.nextRef newValues ∧
      (v ∉ values → newValues = values ++ [v]) ∧
      (v ∈ values → newValues = values.erase v ∧ newValues.Sublist values ∧
        newValues.length + 1 = values.length ∧
        (∀ w, w ≠ v → newValues.count w = values.count w) ∧
        newValues.count v + 1 = values.count v ∧
        (values.count v = 1 → v ∉ newValues)) ∧
      (∀ other, other ≠ key → st2.filters.get other = st.filters.get other) := by
  refine ⟨{ st with
      filters := st.filters.set key (.arr st.nextRef (toggledValues values v))
      prevFiltersRef := st.filters.set key (.arr st.nextRef (toggledValues values v))
      version := st.version + 1
      nextRef := st.nextRef + 1 }, toggledValues values v, ?_, ?_, ?_, ?_, ?_⟩
  · unfold toggleFilterValue
    rw [hlist]
  · exact FilterState.get_set_same _ _ _
  · intro h
    exact toggledValues_of_not_mem h
  · intro h
    rw [toggledValues_of_mem h]
    have hcount : (values.erase v).count v + 1 = values.count v := by
      rw [List.count_erase_self]
      have : 0 < values.count v := List.count_pos_iff.mpr h
      omega
    refine ⟨rfl, List.erase_sublist v values, ?_, ?_, hcount, ?_⟩
    · rw [List.length_erase_of_mem h]
      have : 0 < values.length := List.length_pos_of_mem h
      omega
    · intro w hw
      exact List.count_erase_of_ne hw values
    · intro hone hmem
      have : 0 < (values.erase v).count v := List.count_pos_iff.mpr hmem
      omega
  · intro other hne
    exact FilterState.get_set_other _ _ _ _ hne

/-- C17 (amended), at the categories ["A", "B"] toggled with "A". -/
theorem toggle_removes_first_occurrence_witness :
    ∃ st2 newValues,
      toggleFilterValue (useFilters { categories := some (.arr 1 ["A", "B"]) } 10)
        .categories "A" = some st2 ∧
      st2.filters.get .categories
        = .arr (useFilters { categories := some (.arr 1 ["A", "B"]) } 10).nextRef newValues ∧
      ("A" ∉ ["A", "B"] → newValues = ["A", "B"] ++ ["A"]) ∧
      ("A" ∈ ["A", "B"] → newValues = ["A", "B"].erase "A" ∧ newValues.Sublist ["A", "B"] ∧
        newValues.length + 1 = ["A", "B"].length ∧
        (∀ w, w ≠ "A" → newValues.count w = ["A", "B"].count w) ∧
        newValues.count "A" + 1 = ["A", "B"].count "A" ∧
        (["A", "B"].count "A" = 1 → "A" ∉ newValues)) ∧
      (∀ other, other ≠ FilterKey.categories → st2.filters.get other
        = (useFilters { categories := some (.arr 1 ["A", "B"]) } 10).filters.get other) :=
  toggle_removes_first_occurrence (useFilters { categories := some (.arr 1 ["A", "B"]) } 10)
    .categories "A" ["A", "B"] (by decide)

end FilterStore

/-! ## Properties of the rankings -/

section Ranking

open UseSalesData Calculators

/-- Inserting into a list keeps, among the elements of one value, the inserted element
in front. -/
theorem filter_orderedInsert_stable {α : Type} (val : α → ℚ) (r : α → α → Prop)
    [DecidableRel r] (hr : ∀ a b, r a b ↔ val b ≤ val a) (v : ℚ) (a : α) (l : List α) :
    (l.orderedInsert r a).filter (fun x => decide (val x = v))
      = if val a = v then a :: l.filter (fun x => decide (val x = v))
        else l.filter (fun x => decide (val x = v)) := by
  induction l with
  | nil => by_cases h : val a = v <;> simp [h]
  | cons b l ih =>
    by_cases hab : r a b
    · rw [List.orderedInsert_of_le _ _ hab]
      by_cases h : val a = v <;> simp [List.filter_cons, h]
    · have hlt : val a < val b := by
        rw [hr] at hab
        exact not_le.mp hab
      simp only [List.orderedInsert, hab, if_false, List.filter_cons, ih]
      by_cases ha : val a = v
      · have hb : val b ≠ v := by
          intro hb
          rw [ha, hb] at hlt
          exact lt_irrefl _ hlt
        simp [ha, hb]
      · simp [ha]

/-- A stable sort leaves the elements of one value in their original order. -/
theorem filter_insertionSort_stable {α : Type} (val : α → ℚ) (r : α → α → Prop)
    [DecidableRel r] (hr : ∀ a b, r a b ↔ val b ≤ val a) (v : ℚ) (l : List α) :
    (l.insertionSort r).filter (fun x => decide (val x = v))
      = l.filter (fun x => decide (val x = v)) := by
  induction l with
  | nil => rfl
  | cons a l ih =>
    rw [List.insertionSort_cons_eq_take_drop]
    rw [← List.orderedInsert_eq_take_drop, filter_orderedInsert_stable val r hr, ih]
    by_cases h : val a = v <;> simp [List.filter_cons, h]

/-- The first `n` elements of the list sorted by descending value: they are at most `n`,
they and the omitted ones are the input, they descend, no omitted element has a larger
value than a returned one, and the elements of one value are a starting segment of the
input's elements of that value, in the input's order. -/
theorem take_insertionSort_ranking {α : Type} (val : α → ℚ) (r : α → α → Prop)
    [DecidableRel r] (hr : ∀ a b, r a b ↔ val b ≤ val a) (l : List α) (n : Nat) :
    ((l.insertionSort r).take n).length ≤ n ∧
    ((l.insertionSort r).take n).length = min n l.length ∧
    ((l.insertionSort r).take n ++ (l.insertionSort r).drop n).Perm l ∧
    ((l.insertionSort r).take n).Pairwise (fun a b => val b ≤ val a) ∧
    (∀ x ∈ (l.insertionSort r).take n, ∀ y ∈ (l.insertionSort r).drop n, val y ≤ val x) ∧
    (∀ v, ((l.insertionSort r).take n).filter (fun x => decide (val x = v))
      <+: l.filter (fun x => decide (val x = v))) := by
  haveI : IsTotal α r := ⟨fun a b => by rw [hr, hr]; exact le_total _ _⟩
  haveI : IsTrans α r := ⟨fun a b c hab hbc => by
    rw [hr] at hab hbc ⊢
    exact le_trans hbc hab⟩
  have hsorted : (l.insertionSort r).Pairwise (fun a b => val b ≤ val a) := by
    have h := List.sorted_insertionSort r l
    exact List.Pairwise.imp (fun {a b} hab => (hr a b).mp hab) h
  refine ⟨?_, ?_, ?_, ?_, ?_, ?_⟩
  · rw [List.length_take]
    exact Nat.min_le_left _ _
  · rw [List.length_take, List.length_insertionSort]
  · rw [List.take_append_drop]
    exact List.perm_insertionSort r l
  · exact hsorted.sublist (List.take_sublist n _)
  · intro x hx y hy
    have h := hsorted
    rw [← List.take_append_drop n (l.insertionSort r), List.pairwise_append] at h
    exact h.2.2 x hx y hy
  · intro v
    rw [← filter_insertionSort_stable val r hr v l]
    exact List.IsPrefix.filter _ ( List.take_prefix n _)

end Ranking

/-! ## Keys of the dictionaries -/

section Keys

open UseSalesData DashboardProvider

theorem mem_firstOccurrences (l : List String) (k : String) :
    k ∈ firstOccurrences l ↔ k ∈ l := by
  induction l with
  | nil => simp [firstOccurrences]
  | cons x xs ih =>
    simp only [firstOccurrences, List.mem_cons, List.mem_filter, ih, decide_eq_true_eq]
    constructor
    · rintro (h | ⟨h, _⟩)
      · exact Or.inl h
      · exact Or.inr h
    · intro h
      by_cases hk : k = x
      · exact Or.inl hk
      · rcases h with h | h
        · exact absurd h hk
        · exact Or.inr ⟨h, hk⟩

theorem nodup_firstOccurrences (l : List String) : (firstOccurrences l).Nodup := by
  induction l with
  | nil => exact List.nodup_nil
  | cons x xs ih =>
    simp only [firstOccurrences, List.nodup_cons, List.mem_filter, decide_eq_true_eq]
    refine ⟨fun h => h.2 rfl, ih.filter _⟩

/-- Adding the keys one after the other, each at the end unless already present, lists
the new keys in the order of their first occurrence. -/
theorem foldl_addKey (keys ks : List String) :
    keys.foldl (fun acc k => if k ∈ acc then acc else acc ++ [k]) ks
      = ks ++ (firstOccurrences keys).filter (fun x => decide (x ∉ ks)) := by
  induction keys generalizing ks with
  | nil => simp [firstOccurrences]
  | cons k rest ih =>
    rw [List.foldl_cons, ih]
    by_cases hk : k ∈ ks
    · simp only [hk, if_true, firstOccurrences, List.filter_cons, not_true_eq_false,
        decide_False, Bool.false_eq_true, if_false, List.filter_filter]
      congr 1
      apply List.filter_congr
      intro x _
      by_cases hx : x ∈ ks
      · simp [hx]
      · have : x ≠ k := fun h => hx (h ▸ hk)
        simp [hx, this]
    · simp only [hk, if_false, firstOccurrences, List.filter_cons, not_false_eq_true,
        decide_True, if_true, List.filter_filter, List.append_assoc, List.singleton_append]
      congr 2
      apply List.filter_congr
      intro x _
      by_cases hx : x ∈ ks <;> by_cases hxk : x = k <;> simp [hx, hxk]

theorem keys_accumulate (acc : List (String × ℚ)) (key : String) (x : ℚ) :
    (accumulate acc key x).map Prod.fst
      = if key ∈ acc.map Prod.fst then acc.map Prod.fst else acc.map Prod.fst ++ [key] := by
  induction acc with
  | nil => simp [accumulate]
  | cons p rest ih =>
    obtain ⟨k, v⟩ := p
    by_cases hk : k = key
    · simp [accumulate, hk]
    · have hk2 : ¬ key = k := fun h => hk h.symm
      simp only [accumulate, hk, if_false, List.map_cons, ih, List.mem_cons, hk2, false_or]
      split <;> simp

/-- The keys of a grouped total are the values of the field, each once, in the order of
their first occurrence in the data. -/
theorem keys_groupRevenue (field : Sale → Option String) (data : List Sale) :
    (groupRevenue field data).map Prod.fst
      = firstOccurrences (data.filterMap (fun sale => truthy (field sale))) := by
  have gen : ∀ acc : List (String × ℚ),
      (data.foldl
        (fun acc sale =>
          match truthy (field sale) with
          | none => acc
          | some key => accumulate acc key (amountOrZero sale)) acc).map Prod.fst
      = (data.filterMap (fun sale => truthy (field sale))).foldl
          (fun acc k => if k ∈ acc then acc else acc ++ [k]) (acc.map Prod.fst) := by
    induction data with
    | nil => intro acc; rfl
    | cons sale rest ih =>
      intro acc
      rw [List.foldl_cons, ih]
      cases hkey : truthy (field sale) with
      | none => simp [List.filterMap_cons, hkey]
      | some key => simp [List.filterMap_cons, hkey, keys_accumulate]
  unfold groupRevenue
  rw [gen [], foldl_addKey]
  simp

theorem keys_bumpOwn (acc : List Bucket) (key : String) (x : ℚ) :
    (bumpOwn acc key x).map Bucket.key
      = if key ∈ acc.map Bucket.key then acc.map Bucket.key
        else acc.map Bucket.key ++ [key] := by
  induction acc with
  | nil => simp [bumpOwn]
  | cons b rest ih =>
    by_cases hk : b.key = key
    · simp [bumpOwn, hk]
    · have hk2 : ¬ key = b.key := fun h => hk h.symm
      simp only [bumpOwn, hk, if_false, List.map_cons, ih, List.mem_cons, hk2, false_or]
      split <;> simp

theorem count_pos_bumpOwn (acc : List Bucket) (key : String) (x : ℚ)
    (h : ∀ b ∈ acc, 1 ≤ b.count) : ∀ b ∈ bumpOwn acc key x, 1 ≤ b.count := by
  induction acc with
  | nil =>
    intro b hb
    simp only [bumpOwn, List.mem_singleton] at hb
    rw [hb]
  | cons c rest ih =>
    intro b hb
    by_cases hk : c.key = key
    · simp only [bumpOwn, hk, if_true, List.mem_cons] at hb
      rcases hb with hb | hb
      · rw [hb]
        simp
      · exact h b (List.mem_cons_of_mem _ hb)
    · simp only [bumpOwn, hk, if_false, List.mem_cons] at hb
      rcases hb with hb | hb
      · rw [hb]
        exact h c (List.mem_cons_self _ _)
      · exact ih (fun b hb => h b (List.mem_cons_of_mem _ hb)) b hb

/-- One step of the loop over the records, in terms of the key under which the record
enters the dictionary. -/
theorem bucket_step (keyOf : String → String) (acc : List Bucket) (sale : Sale) :
    (match truthy sale.date with
      | none => acc
      | some date => bump acc (keyOf date) (amountOrZero sale))
      = (match bucketKey keyOf sale with
        | none => acc
        | some key => bumpOwn acc key (amountOrZero sale)) := by
  unfold bucketKey bump
  cases truthy sale.date with
  | none => rfl
  | some date =>
    by_cases hin : keyOf date ∈ inheritedNames
    · simp only [hin, if_true]
    · simp only [hin, if_false]

/-- The buckets built by the loop, for a key function `keyOf` of the date: their keys are
the keys under which the records enter, each once, in the order of first occurrence, and
every bucket counts at least one record. -/
theorem buckets_fold (keyOf : String → String) (data : List Sale) :
    ((data.foldl
        (fun acc sale =>
          match truthy sale.date with
          | none => acc
          | some date => bump acc (keyOf date) (amountOrZero sale)) []).map Bucket.key
      = firstOccurrences (data.filterMap (bucketKey keyOf))) ∧
    (∀ b ∈ data.foldl
        (fun acc sale =>
          match truthy sale.date with
          | none => acc
          | some date => bump acc (keyOf date) (amountOrZero sale)) [], 1 ≤ b.count) := by
  have gen : ∀ acc : List Bucket,
      ((data.foldl
        (fun acc sale =>
          match truthy sale.date with
          | none => acc
          | some date => bump acc (keyOf date) (amountOrZero sale)) acc).map Bucket.key
      = (data.filterMap (bucketKey keyOf)).foldl
          (fun acc k => if k ∈ acc then acc else acc ++ [k]) (acc.map Bucket.key)) ∧
      ((∀ b ∈ acc, 1 ≤ b.count) → ∀ b ∈ data.foldl
        (fun acc sale =>
          match truthy sale.date with
          | none => acc
          | some date => bump acc (keyOf date) (amountOrZero sale)) acc, 1 ≤ b.count) := by
    induction data with
    | nil => intro acc; exact ⟨rfl, fun h => h⟩
    | cons sale rest ih =>
      intro acc
      rw [List.foldl_cons, bucket_step]
      cases hkey : bucketKey keyOf sale with
      | none =>
        simp only [List.filterMap_cons, hkey]
        exact ih acc
      | some key =>
        simp only [List.filterMap_cons, hkey, List.foldl_cons]
        refine ⟨?_, fun h => (ih _).2 (count_pos_bumpOwn acc _ _ h)⟩
        rw [(ih _).1, keys_bumpOwn]
  refine ⟨?_, (gen []).2 (fun b hb => absurd hb (List.not_mem_nil b))⟩
  rw [(gen []).1, foldl_addKey]
  simp

end Keys

/-! ## The order of the properties of an object -/

section PropertyOrder

theorem perm_ownProperties {α : Type} (name : α → String) (props : List α) :
    (ownProperties name props).Perm props := by
  unfold ownProperties
  exact ((List.perm_insertionSort _ _).append_right _).trans
    (List.filter_append_perm (fun p => isArrayIndex (name p)) props)

theorem map_ownProperties {α : Type} (name : α → String) (props : List α) :
    (ownProperties name props).map name = ownProperties id (props.map name) := by
  unfold ownProperties
  rw [List.map_append,
    List.map_insertionSort (indexOrder name) (indexOrder id) name _ (fun a _ b _ => Iff.rfl),
    List.filter_map, List.filter_map]
  rfl

/-- When no name is an array index the properties are listed in the order of their
creation. -/
theorem ownProperties_of_no_index {α : Type} (name : α → String) (props : List α)
    (h : ∀ p ∈ props, isArrayIndex (name p) = false) : ownProperties name props = props := by
  unfold ownProperties
  have h1 : props.filter (fun p => isArrayIndex (name p)) = [] := by
    rw [List.filter_eq_nil_iff]
    intro p hp
    simp [h p hp]
  have h2 : props.filter (fun p => !isArrayIndex (name p)) = props := by
    rw [List.filter_eq_self]
    intro p hp
    simp [h p hp]
  rw [h1, h2]
  rfl

theorem enumerationOrder_of_no_index (names : List String)
    (h : ∀ name ∈ names, isArrayIndex name = false) :
    enumerationOrder names = firstOccurrences names := by
  unfold enumerationOrder
  apply ownProperties_of_no_index
  intro name hname
  exact h name ((mem_firstOccurrences names name).mp hname)

/-- The names of a grouped total, as the runtime lists them. -/
theorem keys_ownProperties_groupRevenue (field : Sale → Option String) (data : List Sale) :
    (ownProperties Prod.fst (UseSalesData.groupRevenue field data)).map Prod.fst
      = enumerationOrder (data.filterMap (fun sale => truthy (field sale))) := by
  rw [map_ownProperties, keys_groupRevenue]
  rfl

end PropertyOrder

/-! ## The rankings of the engine -/

section TopRanking

open UseSalesData Calculators

theorem isTopRanking_take_insertionSort {α : Type} (val : α → ℚ) (r : α → α → Prop)
    [DecidableRel r] (hr : ∀ a b, r a b ↔ val b ≤ val a) (l : List α) (n : Nat) :
    IsTopRanking val l n ((l.insertionSort r).take n) := by
  obtain ⟨h1, h2, h3, h4, h5, h6⟩ := take_insertionSort_ranking val r hr l n
  exact ⟨h1, h2, ⟨_, h3, h5⟩, h4, h6⟩

theorem findTopItems_eq {α : Type} (field : α → Option ℚ) (data : List α) (n : Nat) :
    findTopItems field data n = (data.insertionSort (topItemsOrder field)).take n := by
  unfold findTopItems
  split
  · next h =>
    have hl : data = [] := List.length_eq_zero.mp h
    simp [hl]
  · rfl

theorem topProducts_eq (filteredData : List Sale) :
    (calculateSummary filteredData).topProducts
      = topFive (groupRevenue (fun sale => sale.product) filteredData) := by
  unfold calculateSummary
  split
  · next h =>
    have hl : filteredData = [] := List.length_eq_zero.mp h
    simp [hl, emptySummary, topFive, groupRevenue]
  · rfl

theorem topCustomers_eq (filteredData : List Sale) :
    (calculateSummary filteredData).topCustomers
      = topFive (groupRevenue (fun sale => sale.customer) filteredData) := by
  unfold calculateSummary
  split
  · next h =>
    have hl : filteredData = [] := List.length_eq_zero.mp h
    simp [hl, emptySummary, topFive, groupRevenue]
  · rfl

/-- C19 (counterexample): two products named "10" and "9", met in this order, each with
the total 5.  `topProducts` lists "9" before "10": the totals are the properties of an
object, and the runtime lists the names that are array indices in ascending numeric order
before the sort sees them.  So the two entries of equal amount do not keep the order of
their first occurrence, in which "10" stands before "9". -/
theorem top_products_index_names :
    (calculateSummary [{ product := some "10", amount := some 5 },
        { product := some "9", amount := some 5 }]).topProducts = [("9", 5), ("10", 5)] ∧
    groupRevenue (fun sale => sale.product) [{ product := some "10", amount := some 5 },
        { product := some "9", amount := some 5 }] = [("10", 5), ("9", 5)] ∧
    firstOccurrences ([{ product := some "10", amount := some 5 },
        { product := some "9", amount := some 5 }].filterMap
          (fun sale : Sale => truthy sale.product)) = ["10", "9"] ∧
    ¬ IsTopRanking (fun entry : String × ℚ => entry.2)
        (groupRevenue (fun sale => sale.product) [{ product := some "10", amount := some 5 },
          { product := some "9", amount := some 5 }]) 5
        (calculateSummary [{ product := some "10", amount := some 5 },
          { product := some "9", amount := some 5 }]).topProducts := by
  have h1 : (calculateSummary [{ product := some "10", amount := some 5 },
      { product := some "9", amount := some 5 }]).topProducts = [("9", 5), ("10", 5)] := by
    decide!
  have h2 : groupRevenue (fun sale => sale.product) [{ product := some "10", amount := some 5 },
      { product := some "9", amount := some 5 }] = [("10", 5), ("9", 5)] := by
    decide!
  refine ⟨h1, h2, by decide, ?_⟩
  rw [h1, h2]
  intro h
  have hties := h.2.2.2.2 5
  revert hties
  decide!

/-- C19 (amended): `findTopItems(data, field, n)` is a top-`n` ranking of `data` by the
numeric value of the field: at most `n` entries, all from the input, in descending order,
no omitted entry larger than a returned one, entries of equal value in their original
order.  When no product name is a name that every object inherits, `topProducts` of
`calculateSummary` is a top-5 ranking of the per-product totals in the same sense, where
the original order of the totals is the order in which the runtime lists the properties of
the totals object: the names that are array indices first, in ascending numeric order, then
the other names in the order of their first occurrence in the data; when no name is an
array index this is the order of first occurrence.  The same holds of `topCustomers` and
the customer names.  Of the items a:3, b:5, c:none, d:5, e:4 the top 3 are b, d, e; of
seven products the five largest totals are returned, ties in the order described. -/
theorem top_rankings {α : Type} (field : α → Option ℚ) (data : List α) (n : Nat)
    (filteredData : List Sale) :
    IsTopRanking (fun a => numberOrZero (field a)) data n (findTopItems field data n) ∧
    (OwnNames (filteredData.filterMap (fun sale => truthy sale.product)) →
      IsTopRanking (fun entry : String × ℚ => entry.2)
        (ownProperties Prod.fst (groupRevenue (fun sale => sale.product) filteredData)) 5
        (calculateSummary filteredData).topProducts ∧
      (ownProperties Prod.fst
          (groupRevenue (fun sale => sale.product) filteredData)).map Prod.fst
        = enumerationOrder (filteredData.filterMap (fun sale => truthy sale.product))) ∧
    (OwnNames (filteredData.filterMap (fun sale => truthy sale.customer)) →
      IsTopRanking (fun entry : String × ℚ => entry.2)
        (ownProperties Prod.fst (groupRevenue (fun sale => sale.customer) filteredData)) 5
        (calculateSummary filteredData).topCustomers ∧
      (ownProperties Prod.fst
          (groupRevenue (fun sale => sale.customer) filteredData)).map Prod.fst
        = enumerationOrder (filteredData.filterMap (fun sale => truthy sale.customer))) ∧
    (∀ names : List String, (∀ name ∈ names, isArrayIndex name = false) →
      enumerationOrder names = firstOccurrences names) ∧
    findTopItems (fun item : String × Option ℚ => item.2)
        [("a", some 3), ("b", some 5), ("c", none), ("d", some 5), ("e", some 4)] 3
      = [("b", some 5), ("d", some 5), ("e", some 4)] ∧
    (calculateSummary [{ product := some "pen", amount := some 2 },
        { product := some "ink", amount := some 7 },
        { product := some "7", amount := some 4 },
        { product := some "pen", amount := some 5 },
        { product := some "cap", amount := some 1 },
        { product := some "12", amount := some 7 },
        { product := some "nib", amount := some 3 },
        { amount := some 50 },
        { product := some "pad", amount := some 7 }]).topProducts
      = [("12", 7), ("pen", 7), ("ink", 7), ("pad", 7), ("7", 4)] ∧
    enumerationOrder ["pen", "ink", "7", "pen", "cap", "12", "nib", "pad"]
      = ["7", "12", "pen", "ink", "cap", "nib", "pad"] ∧
    OwnNames ["pen", "ink", "7", "pen", "cap", "12", "nib", "pad"] := by
  refine ⟨?_, fun _ => ⟨?_, keys_ownProperties_groupRevenue _ _⟩,
    fun _ => ⟨?_, keys_ownProperties_groupRevenue _ _⟩,
    enumerationOrder_of_no_index, by decide!, by decide!, by decide, by decide⟩
  · rw [findTopItems_eq]
    apply isTopRanking_take_insertionSort
    intro a b
    unfold topItemsOrder
    exact sub_nonpos
  · rw [topProducts_eq]
    unfold topFive
    apply isTopRanking_take_insertionSort
    intro a b
    unfold amountOrder
    exact sub_nonpos
  · rw [topCustomers_eq]
    unfold topFive
    apply isTopRanking_take_insertionSort
    intro a b
    unfold amountOrder
    exact sub_nonpos

end TopRanking

/-! ## The daily and monthly series -/

section Series

open UseSalesData DashboardProvider

/-- The buckets of a dictionary, listed in any order and then sorted by key: the keys are
those of the dictionary, each once, every bucket keeps its count, and the keys ascend
strictly. -/
theorem sorted_buckets (buckets listed : List Bucket) (keys : List String)
    (hlisted : listed.Perm buckets)
    (hkeys : buckets.map Bucket.key = firstOccurrences keys)
    (hcount : ∀ b ∈ buckets, 1 ≤ b.count) :
    (∀ k, k ∈ (listed.insertionSort keyOrder).map Bucket.key ↔ k ∈ keys) ∧
    ((listed.insertionSort keyOrder).map Bucket.key).Nodup ∧
    (∀ b ∈ listed.insertionSort keyOrder, 1 ≤ b.count) ∧
    (listed.insertionSort keyOrder).Pairwise (fun a b => a.key.data < b.key.data) := by
  haveI : IsTotal Bucket keyOrder := ⟨fun a b => le_total a.key.data b.key.data⟩
  haveI : IsTrans Bucket keyOrder :=
    ⟨fun a b c hab hbc => le_trans (α := List Char) hab hbc⟩
  have hperm := (List.perm_insertionSort keyOrder listed).trans hlisted
  have hpermKeys := hperm.map Bucket.key
  have hnodup : ((listed.insertionSort keyOrder).map Bucket.key).Nodup := by
    rw [hpermKeys.nodup_iff, hkeys]
    exact nodup_firstOccurrences keys
  refine ⟨?_, hnodup, ?_, ?_⟩
  · intro k
    rw [hpermKeys.mem_iff, hkeys, mem_firstOccurrences]
  · intro b hb
    exact hcount b (hperm.mem_iff.mp hb)
  · have hsorted : (listed.insertionSort keyOrder).Pairwise keyOrder :=
      List.sorted_insertionSort keyOrder listed
    have hne : (listed.insertionSort keyOrder).Pairwise (fun a b => a.key ≠ b.key) :=
      List.pairwise_map.mp hnodup
    refine (hsorted.and hne).imp ?_
    intro a b hab
    refine lt_of_le_of_ne hab.1 ?_
    intro hdata
    exact hab.2 (String.ext hdata)

/-- The day key of a date is its part before the first 'T'. -/
theorem dayKey_spec :
    (∀ day rest : String, 'T' ∉ day.data → dayKey (day ++ "T" ++ rest) = day) ∧
    (∀ date : String, 'T' ∉ date.data → dayKey date = date) := by
  constructor
  · intro day rest hT
    unfold dayKey
    have hpos : ∀ c ∈ day.data, (fun c : Char => decide (c ≠ 'T')) c = true := by
      intro c hc
      have hne : c ≠ 'T' := fun h => hT (h ▸ hc)
      simp [hne]
    have hdata : (day ++ "T" ++ rest).data = day.data ++ ('T' :: rest.data) := by
      simp [String.data_append]
    rw [hdata, List.takeWhile_append_of_pos hpos]
    simp
  · intro date hT
    unfold dayKey
    have hall : date.data.takeWhile (fun c : Char => decide (c ≠ 'T')) = date.data := by
      rw [List.takeWhile_eq_self_iff]
      intro c hc
      have hne : c ≠ 'T' := fun h => hT (h ▸ hc)
      simp [hne]
    rw [hall]

/-- C20 (counterexample): a subset of one record whose date is "valueOf".  The record has
a date, and its day key and month key are both "valueOf"; the lookup
`salesByDay["valueOf"]` finds the function that every object inherits, so no entry is
created, and both series are empty although the day key and the month key occur among the
dated records.  With the date "constructor" the daily series is empty and the monthly
series has the entry "constru". -/
theorem inherited_key_no_entry :
    truthy ({ date := some "valueOf", amount := some 5 } : Sale).date = some "valueOf" ∧
    dayKey "valueOf" = "valueOf" ∧
    monthKey (dayKey "valueOf") = "valueOf" ∧
    dailySales [{ date := some "valueOf", amount := some 5 }] = [] ∧
    monthlySales [{ date := some "valueOf", amount := some 5 }] = [] ∧
    dailySales [{ date := some "constructor", amount := some 5 }] = [] ∧
    monthlySales [{ date := some "constructor", amount := some 5 }]
      = [{ key := "constru", count := 1, revenue := 5 }] := by
  refine ⟨by decide, by decide, by decide, by decide!, by decide!, by decide!, by decide!⟩

/-- C20 (amended): `dailySales` holds exactly one entry for every day key that occurs among
the records with a date and is not a name that every object inherits, and `monthlySales`
exactly one for every such month key; every entry counts at least one record; both lists
ascend strictly by key.  The day key is the part of the date before its first 'T' (the
whole date when it has none) and the month key the first seven characters of the day key.
Of the records dated 2025-03-02T10:00:00Z, 2025-03-01, 2025-03-02 and
2025-04-01T00:00:00Z and one record without a date, the daily series has the three entries
2025-03-01, 2025-03-02 (two records) and 2025-04-01, and the monthly series the two
entries 2025-03 and 2025-04.  A record has a date when the field is present and not empty,
whether or not it parses: the date "garbage" makes the entry "garbage" in both series. -/
theorem daily_monthly_series (filteredData : List Sale) :
    ((∀ k, k ∈ (dailySales filteredData).map Bucket.key ↔
        ∃ sale ∈ filteredData, ∃ date, truthy sale.date = some date ∧ dayKey date = k ∧
          k ∉ inheritedNames) ∧
      ((dailySales filteredData).map Bucket.key).Nodup ∧
      (∀ b ∈ dailySales filteredData, 1 ≤ b.count) ∧
      (dailySales filteredData).Pairwise (fun a b => a.key.data < b.key.data)) ∧
    ((∀ k, k ∈ (monthlySales filteredData).map Bucket.key ↔
        ∃ sale ∈ filteredData, ∃ date, truthy sale.date = some date ∧
          monthKey (dayKey date) = k ∧ k ∉ inheritedNames) ∧
      ((monthlySales filteredData).map Bucket.key).Nodup ∧
      (∀ b ∈ monthlySales filteredData, 1 ≤ b.count) ∧
      (monthlySales filteredData).Pairwise (fun a b => a.key.data < b.key.data)) ∧
    (∀ day rest : String, 'T' ∉ day.data → dayKey (day ++ "T" ++ rest) = day) ∧
    (∀ date : String, 'T' ∉ date.data → dayKey date = date) ∧
    (∀ day : String, (monthKey day).data = day.data.take 7) ∧
    dayKey "2025-03-02T10:00:00Z" = "2025-03-02" ∧
    monthKey (dayKey "2025-03-02T10:00:00Z") = "2025-03" ∧
    dailySales [{ date := some "2025-03-02T10:00:00Z", amount := some 5 },
        { date := some "2025-03-01", amount := some 7 },
        { date := some "2025-03-02", amount := some 1 },
        { amount := some 9 },
        { date := some "2025-04-01T00:00:00Z" }]
      = [{ key := "2025-03-01", count := 1, revenue := 7 },
          { key := "2025-03-02", count := 2, revenue := 6 },
          { key := "2025-04-01", count := 1, revenue := 0 }] ∧
    monthlySales [{ date := some "2025-03-02T10:00:00Z", amount := some 5 },
        { date := some "2025-03-01", amount := some 7 },
        { date := some "2025-03-02", amount := some 1 },
        { amount := some 9 },
        { date := some "2025-04-01T00:00:00Z" }]
      = [{ key := "2025-03", count := 3, revenue := 13 },
          { key := "2025-04", count := 1, revenue := 0 }] ∧
    dailySales [{ date := some "garbage", amount := some 5 }]
      = [{ key := "garbage", count := 1, revenue := 5 }] ∧
    monthlySales [{ date := some "garbage", amount := some 5 }]
      = [{ key := "garbage", count := 1, revenue := 5 }] := by
  have hmem : ∀ (keyOf : String → String) (k : String),
      k ∈ filteredData.filterMap (bucketKey keyOf) ↔
        ∃ sale ∈ filteredData, ∃ date, truthy sale.date = some date ∧ keyOf date = k ∧
          k ∉ inheritedNames := by
    intro keyOf k
    rw [List.mem_filterMap]
    constructor
    · rintro ⟨sale, hsale, hk⟩
      unfold bucketKey at hk
      cases hd : truthy sale.date with
      | none =>
        rw [hd] at hk
        cases hk
      | some date =>
        rw [hd] at hk
        by_cases hin : keyOf date ∈ inheritedNames
        · simp [hin] at hk
        · simp only [hin, if_false, Option.some.injEq] at hk
          exact ⟨sale, hsale, date, hd, hk, hk ▸ hin⟩
    · rintro ⟨sale, hsale, date, hd, hk, hin⟩
      refine ⟨sale, hsale, ?_⟩
      unfold bucketKey
      rw [hd]
      subst hk
      simp [hin]
  refine ⟨?_, ?_, dayKey_spec.1, dayKey_spec.2, fun _ => rfl, by decide, by decide,
    by decide!, by decide!, by decide!, by decide!⟩
  · obtain ⟨h1, h2⟩ := buckets_fold dayKey filteredData
    obtain ⟨m, n, c, p⟩ := sorted_buckets (salesByDay filteredData)
      (ownProperties Bucket.key (salesByDay filteredData)) _ (perm_ownProperties _ _) h1 h2
    exact ⟨fun k => (m k).trans (hmem dayKey k), n, c, p⟩
  · obtain ⟨h1, h2⟩ := buckets_fold (fun date => monthKey (dayKey date)) filteredData
    obtain ⟨m, n, c, p⟩ := sorted_buckets (salesByMonth filteredData)
      (ownProperties Bucket.key (salesByMonth filteredData)) _ (perm_ownProperties _ _) h1 h2
    exact ⟨fun k => (m k).trans (hmem (fun date => monthKey (dayKey date)) k), n, c, p⟩

end Series

/-! ## The filter pipeline as one conjunction -/

section Pipeline

open UseSalesData UseFilters

theorem dateStep_eq_filter (parseDate : String → Option Int) (zone : Zone) (filters : Filters)
    (l : List Sale) :
    dateStep parseDate zone filters l = l.filter (datePredicate parseDate zone filters) := by
  unfold dateStep
  cases hs : truthy filters.startDate with
  | none =>
    have hp : datePredicate parseDate zone filters = fun _ => true := by
      funext sale
      simp [datePredicate, hs]
    simp [hp]
  | some s =>
    cases he : truthy filters.endDate with
    | none =>
      have hp : datePredicate parseDate zone filters = fun _ => true := by
        funext sale
        simp [datePredicate, hs, he]
      simp [hp]
    | some e =>
      have hp : datePredicate parseDate zone filters
          = dateFilter parseDate (parseDate s) ((parseDate e).map zone.setHoursEndOfDay) := by
        funext sale
        simp [datePredicate, hs, he]
      simp [hp]

theorem memberStep_eq_filter (selection : List String) (field : Sale → Option String)
    (l : List Sale) :
    memberStep selection field l = l.filter (memberPredicate selection field) := by
  unfold memberStep
  cases selection with
  | nil =>
    have hp : memberPredicate [] field = fun _ => true := by
      funext sale
      simp [memberPredicate]
    simp [hp]
  | cons x xs =>
    have hp : memberPredicate (x :: xs) field = memberFilter (x :: xs) field := by
      funext sale
      simp [memberPredicate]
    simp [hp]

theorem searchStep_eq_filter (toLowerCase : String → String) (filters : Filters)
    (l : List Sale) :
    searchStep toLowerCase filters l = l.filter (searchPredicate toLowerCase filters) := by
  unfold searchStep
  by_cases h : filters.searchTerm = ""
  · have hp : searchPredicate toLowerCase filters = fun _ => true := by
      funext sale
      simp [searchPredicate, h]
    simp [h, hp]
  · have hp : searchPredicate toLowerCase filters = searchFilter toLowerCase (toLowerCase filters.searchTerm) := by
      funext sale
      simp [searchPredicate, h]
    simp [h, hp]

theorem filterPipeline_eq_filter (toLowerCase : String → String)
    (parseDate : String → Option Int) (zone : Zone)
    (salesData : List Sale) (filters : Filters) :
    filterPipeline toLowerCase parseDate zone salesData filters
      = salesData.filter (keeps toLowerCase parseDate zone filters) := by
  unfold filterPipeline
  simp only [dateStep_eq_filter, memberStep_eq_filter, searchStep_eq_filter,
    List.filter_filter]
  apply List.filter_congr
  intro sale _
  unfold keeps
  cases datePredicate parseDate zone filters sale <;>
    cases memberPredicate filters.categories (fun sale => sale.category) sale <;>
    cases memberPredicate filters.regions (fun sale => sale.region) sale <;>
    cases memberPredicate filters.salesReps (fun sale => sale.salesRep) sale <;>
    cases memberPredicate filters.paymentMethods (fun sale => sale.paymentMethod) sale <;>
    cases searchPredicate toLowerCase filters sale <;> rfl

theorem foldl_filter_all (ps : List (Sale → Bool)) (l : List Sale) :
    ps.foldl (fun acc p => acc.filter p) l = l.filter (fun sale => ps.all (fun p => p sale)) := by
  induction ps generalizing l with
  | nil => simp
  | cons p ps ih =>
    rw [List.foldl_cons, ih, List.filter_filter]
    apply List.filter_congr
    intro sale _
    simp [List.all_cons, Bool.and_comm]

theorem all_eq_of_perm {ps qs : List (Sale → Bool)} (h : ps.Perm qs) (sale : Sale) :
    ps.all (fun p => p sale) = qs.all (fun p => p sale) := by
  rw [Bool.eq_iff_iff, List.all_eq_true, List.all_eq_true]
  constructor
  · intro hall p hp
    exact hall p (h.mem_iff.mpr hp)
  · intro hall p hp
    exact hall p (h.mem_iff.mp hp)

theorem memberPredicate_eq_true (selection : List String) (field : Sale → Option String)
    (sale : Sale) :
    memberPredicate selection field sale = true ↔
      (selection ≠ [] → ∃ v, truthy (field sale) = some v ∧ v ∈ selection) := by
  unfold memberPredicate memberFilter
  by_cases hsel : selection = []
  · simp [hsel]
  · cases hf : truthy (field sale) with
    | none => simp [hsel]
    | some v => simp [hsel]

theorem searchField_eq_true (toLowerCase : String → String) (searchLower : String)
    (field : Option String) :
    searchField toLowerCase searchLower field = true ↔
      ∃ v, truthy field = some v ∧ searchLower.data <:+: (toLowerCase v).data := by
  unfold searchField
  cases hf : truthy field with
  | none => simp
  | some v => simp [includes]

theorem searchPredicate_eq_true (toLowerCase : String → String) (filters : Filters)
    (sale : Sale) :
    searchPredicate toLowerCase filters sale = true ↔
      (filters.searchTerm ≠ "" →
        ∃ field ∈ [sale.customer, sale.product, sale.salesRep, sale.category, sale.region],
          ∃ v, truthy field = some v ∧
            (toLowerCase filters.searchTerm).data <:+: (toLowerCase v).data) := by
  unfold searchPredicate searchFilter
  by_cases hterm : filters.searchTerm = ""
  · simp [hterm]
  · simp only [hterm, decide_False, Bool.false_or, Bool.or_eq_true, searchField_eq_true,
      ne_eq, not_false_eq_true, true_implies, List.mem_cons, List.mem_singleton,
      exists_eq_or_imp, exists_eq_left, List.not_mem_nil, false_and, exists_false, or_false,
      or_assoc]

theorem datePredicate_eq_true (parseDate : String → Option Int) (zone : Zone) (filters : Filters)
    (sale : Sale) :
    datePredicate parseDate zone filters sale = true ↔
      (∀ s e, truthy filters.startDate = some s → truthy filters.endDate = some e →
        ∃ d t a b, truthy sale.date = some d ∧ parseDate d = some t ∧
          parseDate s = some a ∧ parseDate e = some b ∧ a ≤ t ∧ t ≤ zone.setHoursEndOfDay b) := by
  unfold datePredicate
  cases hs : truthy filters.startDate with
  | none => simp
  | some s =>
    cases he : truthy filters.endDate with
    | none => simp
    | some e =>
      simp only [dateFilter_eq_true, Option.some.injEq, Option.map_eq_some']
      constructor
      · rintro ⟨d, t, a, b, hd, ht, ha, ⟨b0, hb0, hb⟩, h1, h2⟩ s2 e2 hs2 he2
        subst hs2
        subst he2
        exact ⟨d, t, a, b0, hd, ht, ha, hb0, h1, by rw [hb]; exact h2⟩
      · intro h
        obtain ⟨d, t, a, b, hd, ht, ha, hb, h1, h2⟩ := h s e rfl rfl
        exact ⟨d, t, a, _, hd, ht, ha, ⟨b, hb, rfl⟩, h1, h2⟩

theorem truthy_asString (v : JsVal) (h : ∀ r l, v ≠ .arr r l) :
    v.truthy = false ↔ truthy v.asString = none := by
  cases v with
  | undefined => simp [JsVal.truthy, JsVal.asString, truthy]
  | null => simp [JsVal.truthy, JsVal.asString, truthy]
  | str s => by_cases hs : s = "" <;> simp [JsVal.truthy, JsVal.asString, truthy, hs]
  | arr r l => exact absurd rfl (h r l)

theorem truthy_searchTerm (v : JsVal) (h : ∀ r l, v ≠ .arr r l) :
    v.truthy = false ↔ (match v.asString with | some s => s | none => "") = "" := by
  cases v with
  | undefined => simp [JsVal.truthy, JsVal.asString]
  | null => simp [JsVal.truthy, JsVal.asString]
  | str s => simp [JsVal.truthy, JsVal.asString]
  | arr r l => exact absurd rfl (h r l)

theorem nonEmpty_asList (v : JsVal) (h : ∀ s, v = .str s → s = "") :
    v.nonEmpty = false ↔ v.asList = [] := by
  cases v with
  | undefined => simp [JsVal.nonEmpty, JsVal.asList]
  | null => simp [JsVal.nonEmpty, JsVal.asList]
  | str s => simp [JsVal.nonEmpty, JsVal.asList, h s rfl]
  | arr r l => simp [JsVal.nonEmpty, JsVal.asList]

theorem keeps_of_unrestricted (toLowerCase : String → String)
    (parseDate : String → Option Int) (zone : Zone) (filters : Filters)
    (h : filters.Unrestricted) (sale : Sale) : keeps toLowerCase parseDate zone filters sale = true := by
  obtain ⟨h1, _, h3, h4, h5, h6, h7⟩ := h
  simp [keeps, datePredicate, memberPredicate, searchPredicate, h1, h3, h4, h5, h6, h7]

/-- C1: the filtered list is a sublist of the raw records: every kept record is a raw
record, none occurs more often than in the raw records, and the kept records stand in
their original order.  The effect keeps this: when it returns early on empty raw data,
the list it leaves is a sublist of the raw records if it was one before. -/
theorem filtered_sublist_of_raw (toLowerCase : String → String)
    (parseDate : String → Option Int) (zone : Zone)
    (salesData : List Sale) (filters : Filters) :
    (filterPipeline toLowerCase parseDate zone salesData filters).Sublist salesData ∧
    (∀ sale ∈ filterPipeline toLowerCase parseDate zone salesData filters, sale ∈ salesData) ∧
    (∀ sale, (filterPipeline toLowerCase parseDate zone salesData filters).count sale
      ≤ salesData.count sale) ∧
    (∀ held : List Sale, held.Sublist salesData →
      (applyFiltersEffect toLowerCase parseDate zone salesData filters held).Sublist salesData) := by
  have hsub : (filterPipeline toLowerCase parseDate zone salesData filters).Sublist salesData := by
    rw [filterPipeline_eq_filter]
    exact List.filter_sublist salesData
  refine ⟨hsub, fun sale h => hsub.subset h, fun sale => hsub.count_le sale, ?_⟩
  intro held hheld
  unfold applyFiltersEffect
  split
  · exact hheld
  · exact hsub

/-- C2: for a store whose filter object is well typed, `hasActiveFilters()` is false
exactly when every criterion read by the pipeline is empty, and then the pipeline returns
the raw records unchanged. -/
theorem unrestricted_returns_raw (toLowerCase : String → String)
    (parseDate : String → Option Int) (zone : Zone)
    (salesData : List Sale) (st : Store) (hwt : st.filters.WellTyped) :
    (hasActiveFilters st = false ↔ st.filters.toFilters.Unrestricted) ∧
    (hasActiveFilters st = false →
      filterPipeline toLowerCase parseDate zone salesData st.filters.toFilters = salesData) ∧
    (∀ filters : Filters, filters.Unrestricted →
      filterPipeline toLowerCase parseDate zone salesData filters = salesData) := by
  obtain ⟨w1, w2, w3, w4, w5, w6, w7⟩ := hwt
  have hall : ∀ filters : Filters, filters.Unrestricted →
      filterPipeline toLowerCase parseDate zone salesData filters = salesData := by
    intro filters h
    rw [filterPipeline_eq_filter, List.filter_eq_self]
    intro sale _
    exact keeps_of_unrestricted toLowerCase parseDate zone filters h sale
  have hiff : hasActiveFilters st = false ↔ st.filters.toFilters.Unrestricted := by
    unfold hasActiveFilters Filters.Unrestricted FilterState.toFilters
    simp only [Bool.or_eq_false_iff, truthy_asString _ w1, truthy_asString _ w2,
      truthy_searchTerm _ w3, nonEmpty_asList _ w4, nonEmpty_asList _ w5,
      nonEmpty_asList _ w6, nonEmpty_asList _ w7]
    tauto
  exact ⟨hiff, fun h => hall _ (hiff.mp h), hall⟩

/-- C2, at the store built from the default empty object and two raw records. -/
theorem unrestricted_returns_raw_witness :
    hasActiveFilters (useFilters {} 0) = false ∧
    filterPipeline toLowerCaseASCII parseISODate (Zone.fixed 0)
        [{ date := some "2025-03-01", amount := some 100, category := some "A" },
          { date := some "2025-03-02", amount := some 200, category := some "B" }]
        (useFilters {} 0).filters.toFilters
      = [{ date := some "2025-03-01", amount := some 100, category := some "A" },
          { date := some "2025-03-02", amount := some 200, category := some "B" }] :=
  ⟨by decide,
    (unrestricted_returns_raw toLowerCaseASCII parseISODate (Zone.fixed 0)
      [{ date := some "2025-03-01", amount := some 100, category := some "A" },
        { date := some "2025-03-02", amount := some 200, category := some "B" }]
      (useFilters {} 0)
      ⟨fun _ _ h => JsVal.noConfusion h, fun _ _ h => JsVal.noConfusion h,
        fun _ _ h => JsVal.noConfusion h, fun _ h => JsVal.noConfusion h,
        fun _ h => JsVal.noConfusion h, fun _ h => JsVal.noConfusion h,
        fun _ h => JsVal.noConfusion h⟩).2.1 (by decide)⟩

/-- C3: the pipeline keeps a raw record exactly when the six predicates hold, each
vacuous when its criterion is empty: the date is present, parses and lies between the
start bound and the end bound moved to 23:59:59.999 of its local day; the category, region, sales rep and payment method are
present and members of their selections; one of customer, product, salesRep, category and
region is present and contains the lower-cased search term in its lower-cased value.  A
record that lacks a field fails the predicate of that field.  The result is the same in
whatever order the six predicates are applied.  `toLowerCase` is the lower-casing of the
runtime, applied to the search term and to the field.  With the search term "wIDg" the
records whose product is "Blue Widget" or whose region is "Midwidgeton" are kept, which
needs both sides lower-cased, and a record without any of the five fields is dropped; a
run with a date range, a category selection and a search term keeps the two records that
meet all three. -/
theorem kept_iff_all_predicates (toLowerCase : String → String)
    (parseDate : String → Option Int) (zone : Zone)
    (salesData : List Sale) (filters : Filters) :
    filterPipeline toLowerCase parseDate zone salesData filters
      = salesData.filter (keeps toLowerCase parseDate zone filters) ∧
    (∀ sale, sale ∈ filterPipeline toLowerCase parseDate zone salesData filters ↔
      sale ∈ salesData ∧
      (∀ s e, truthy filters.startDate = some s → truthy filters.endDate = some e →
        ∃ d t a b, truthy sale.date = some d ∧ parseDate d = some t ∧
          parseDate s = some a ∧ parseDate e = some b ∧ a ≤ t ∧ t ≤ zone.setHoursEndOfDay b) ∧
      (filters.categories ≠ [] →
        ∃ v, truthy sale.category = some v ∧ v ∈ filters.categories) ∧
      (filters.regions ≠ [] → ∃ v, truthy sale.region = some v ∧ v ∈ filters.regions) ∧
      (filters.salesReps ≠ [] → ∃ v, truthy sale.salesRep = some v ∧ v ∈ filters.salesReps) ∧
      (filters.paymentMethods ≠ [] →
        ∃ v, truthy sale.paymentMethod = some v ∧ v ∈ filters.paymentMethods) ∧
      (filters.searchTerm ≠ "" →
        ∃ field ∈ [sale.customer, sale.product, sale.salesRep, sale.category, sale.region],
          ∃ v, truthy field = some v ∧
            (toLowerCase filters.searchTerm).data <:+: (toLowerCase v).data)) ∧
    (∀ ps : List (Sale → Bool),
      ps.Perm [datePredicate parseDate zone filters,
        memberPredicate filters.categories (fun sale => sale.category),
        memberPredicate filters.regions (fun sale => sale.region),
        memberPredicate filters.salesReps (fun sale => sale.salesRep),
        memberPredicate filters.paymentMethods (fun sale => sale.paymentMethod),
        searchPredicate toLowerCase filters] →
      ps.foldl (fun acc p => acc.filter p) salesData
        = filterPipeline toLowerCase parseDate zone salesData filters) ∧
    filterPipeline toLowerCaseASCII parseISODate (Zone.fixed 0)
        [{ customer := some "ACME Corp", product := some "Blue Widget" },
          { customer := some "Beta Ltd", product := some "Gadget", region := some "Midwidgeton" },
          { customer := some "Gamma", product := some "Gear" },
          { amount := some 5 }]
        { searchTerm := "wIDg" }
      = [{ customer := some "ACME Corp", product := some "Blue Widget" },
          { customer := some "Beta Ltd", product := some "Gadget",
            region := some "Midwidgeton" }] ∧
    includes "Blue Widget" "wIDg" = false ∧
    includes (toLowerCaseASCII "Blue Widget") "wIDg" = false ∧
    includes "Blue Widget" (toLowerCaseASCII "wIDg") = false ∧
    filterPipeline toLowerCaseASCII parseISODate (Zone.fixed 0)
        [{ date := some "2025-03-05", category := some "A", customer := some "ACME Corp" },
          { date := some "2025-03-05", category := some "B", customer := some "ACME Corp" },
          { date := some "2025-03-12", category := some "A", customer := some "ACME Corp" },
          { date := some "2025-03-05", category := some "A", customer := some "Beta Ltd" },
          { category := some "A", customer := some "ACME Corp" },
          { date := some "2025-03-06", customer := some "ACME Corp" },
          { date := some "2025-03-07", category := some "A", product := some "Acme anvil" }]
        { startDate := some "2025-03-01", endDate := some "2025-03-10", categories := ["A"],
          searchTerm := "acME" }
      = [{ date := some "2025-03-05", category := some "A", customer := some "ACME Corp" },
          { date := some "2025-03-07", category := some "A", product := some "Acme anvil" }] := by
  refine ⟨filterPipeline_eq_filter toLowerCase parseDate zone salesData filters, ?_, ?_,
    by decide!, by decide, by decide, by decide, by decide!⟩
  · intro sale
    rw [filterPipeline_eq_filter, List.mem_filter]
    unfold keeps
    simp only [Bool.and_eq_true, datePredicate_eq_true, memberPredicate_eq_true,
      searchPredicate_eq_true, and_assoc]
  · intro ps hperm
    rw [foldl_filter_all, filterPipeline_eq_filter]
    apply List.filter_congr
    intro sale _
    rw [all_eq_of_perm hperm sale]
    simp [keeps, List.all_cons, Bool.and_assoc]

end Pipeline

/-! ## Totals, percent change and the previous window -/

section Totals

open UseSalesData DashboardProvider

/-- C4: for a non-empty subset, `calculateSummary` returns the number of records as
totalSales, the sum of `amount || 0` as totalRevenue and their quotient as
averageOrderValue.  For the records [{2025-03-01, 100, A}, {2025-03-02, 200, B}] and the
criteria categories = [A] the pipeline keeps the first record alone, and the summary has
totalSales 1, totalRevenue 100 and averageOrderValue 100. -/
theorem summary_totals :
    (∀ subset : List Sale, subset ≠ [] →
      (calculateSummary subset).totalSales = subset.length ∧
      (calculateSummary subset).totalRevenue = (subset.map amountOrZero).sum ∧
      (calculateSummary subset).averageOrderValue
        = (subset.map amountOrZero).sum / (subset.length : ℚ)) ∧
    filterPipeline toLowerCaseASCII parseISODate (Zone.fixed 0)
        [{ date := some "2025-03-01", amount := some 100, category := some "A" },
          { date := some "2025-03-02", amount := some 200, category := some "B" }]
        { categories := ["A"] }
      = [{ date := some "2025-03-01", amount := some 100, category := some "A" }] ∧
    (calculateSummary (filterPipeline toLowerCaseASCII parseISODate (Zone.fixed 0)
        [{ date := some "2025-03-01", amount := some 100, category := some "A" },
          { date := some "2025-03-02", amount := some 200, category := some "B" }]
        { categories := ["A"] })).totalSales = 1 ∧
    (calculateSummary (filterPipeline toLowerCaseASCII parseISODate (Zone.fixed 0)
        [{ date := some "2025-03-01", amount := some 100, category := some "A" },
          { date := some "2025-03-02", amount := some 200, category := some "B" }]
        { categories := ["A"] })).totalRevenue = 100 ∧
    (calculateSummary (filterPipeline toLowerCaseASCII parseISODate (Zone.fixed 0)
        [{ date := some "2025-03-01", amount := some 100, category := some "A" },
          { date := some "2025-03-02", amount := some 200, category := some "B" }]
        { categories := ["A"] })).averageOrderValue = 100 := by
  refine ⟨?_, by decide!, by decide!, by decide!, by decide!⟩
  intro subset _
  refine ⟨calculateSummary_totalSales subset, calculateSummary_totalRevenue subset, ?_⟩
  rw [calculateSummary_average, calculateSummary_totalRevenue, calculateSummary_totalSales]

/-- C5: for the empty subset `calculateSummary` returns totalSales 0, totalRevenue 0,
averageOrderValue 0, empty dictionaries and empty rankings, and `dashboardMetrics` carries
the all-zero summary, empty series and no insight, whatever the comparison data are. -/
theorem empty_subset_zero (percentChange : PercentChange) :
    (calculateSummary []).totalSales = 0 ∧
    (calculateSummary []).totalRevenue = 0 ∧
    (calculateSummary []).averageOrderValue = 0 ∧
    (calculateSummary []).salesByCategory = [] ∧
    (calculateSummary []).salesByRegion = [] ∧
    (calculateSummary []).topProducts = [] ∧
    (calculateSummary []).topCustomers = [] ∧
    (dashboardMetrics [] percentChange).summary.totalSales = 0 ∧
    (dashboardMetrics [] percentChange).summary.totalRevenue = 0 ∧
    (dashboardMetrics [] percentChange).summary.averageOrderValue = 0 ∧
    (dashboardMetrics [] percentChange).dailySales = [] ∧
    (dashboardMetrics [] percentChange).monthlySales = [] ∧
    (dashboardMetrics [] percentChange).salesRepPerformance = [] ∧
    (dashboardMetrics [] percentChange).insights = [] := by
  refine ⟨rfl, rfl, rfl, rfl, rfl, rfl, rfl, rfl, rfl, rfl, rfl, rfl, rfl, rfl⟩

/-- C6: `calculatePercentChange(current, previous)` is 0 when both are 0, 100 when
previous is 0 and current is positive, and `(current - previous) / |previous| * 100` when
previous is not 0, in which case the divisor is not 0. -/
theorem percentChange_cases (current previous : ℚ) :
    (previous = 0 → current = 0 → Calculators.calculatePercentChange current previous = 0) ∧
    (previous = 0 → current > 0 → Calculators.calculatePercentChange current previous = 100) ∧
    (previous ≠ 0 → Calculators.calculatePercentChange current previous
      = (current - previous) / |previous| * 100) ∧
    (previous ≠ 0 → |previous| ≠ 0) := by
  refine ⟨?_, ?_, ?_, ?_⟩
  · intro hp hc
    simp [Calculators.calculatePercentChange, hp, hc]
  · intro hp hc
    simp [Calculators.calculatePercentChange, hp, hc]
  · intro hp
    simp [Calculators.calculatePercentChange, hp]
  · intro hp
    exact abs_ne_zero.mpr hp

/-- C7 (counterexample): `calculatePercentChange` takes the current value first, so with
the arguments in the written order, current = 0 and previous = 100, the result is -100. -/
theorem percentChange_written_order :
    Calculators.calculatePercentChange 0 100 = -100 ∧
    Calculators.calculatePercentChange 0 100 ≠ 100 := by
  constructor <;> norm_num [Calculators.calculatePercentChange]

/-- C7 (amended): `calculatePercentChange(0, 0) = 0`, `calculatePercentChange(200, 100)
= 100`, and `calculatePercentChange(100, 0) = 100`: the change from a previous value 0 to
a current value 100, the current value being the first argument. -/
theorem percentChange_examples :
    Calculators.calculatePercentChange 0 0 = 0 ∧
    Calculators.calculatePercentChange 100 0 = 100 ∧
    Calculators.calculatePercentChange 200 100 = 100 := by
  refine ⟨?_, ?_, ?_⟩ <;> norm_num [Calculators.calculatePercentChange]

/-- In a zone of constant offset `setDate(getDate() - 1)` moves a date back by 24 hours. -/
theorem setDatePrevDay_fixed (tz t : Int) : setDatePrevDay (Zone.fixed tz) t = t - msPerDay := by
  simp only [setDatePrevDay, Zone.fixed, Zone.utcOfLocal, Zone.utcFrom, Zone.offsetAt,
    List.foldl_nil]
  ring

/-- The previous window of `getPreviousPeriod` has the length of the current one in every
zone, and in a zone of constant offset it ends 24 hours before the start of the current
one. -/
theorem previous_window_length (zone : Zone) (parseDate : String → Option Int) (s e : String)
    (S E : Int) (hs : s ≠ "") (he : e ≠ "") (hS : parseDate s = some S)
    (hE : parseDate e = some E) :
    (∃ previousStart previousEnd : Int,
      DateUtils.getPreviousPeriod zone parseDate (some s) (some e)
        = (some previousStart, some previousEnd) ∧
      previousEnd = setDatePrevDay zone S ∧
      previousEnd - previousStart = E - S) ∧
    (∀ tz : Int, DateUtils.getPreviousPeriod (Zone.fixed tz) parseDate (some s) (some e)
      = (some (S - msPerDay - (E - S)), some (S - msPerDay))) := by
  constructor
  · refine ⟨setDatePrevDay zone S - (E - S), setDatePrevDay zone S, ?_, rfl, by ring⟩
    unfold DateUtils.getPreviousPeriod
    simp only [hs, he, or_self, if_false, hS, hE]
  · intro tz
    unfold DateUtils.getPreviousPeriod
    simp only [hs, he, or_self, if_false, hS, hE, setDatePrevDay_fixed]

/-- C8 (failing input): `getPreviousPeriod('2025-11-03', '2025-11-10')` in the zone
America/New_York.  The start parses to midnight UTC of 2025-11-03, which is 19:00 of
2025-11-02 local standard time; `setDate(getDate() - 1)` gives 19:00 of 2025-11-01, still
in daylight saving time, that is 2025-11-01T23:00:00Z.  The previous window ends 25 hours
before the start, on the date 2025-11-01, and begins on 2025-10-25: the date 2025-11-02,
the day before the current start, belongs to neither window.  The length of the previous
window equals that of the current one.  In a zone at UTC and in America/New_York the
window 2025-03-01..2025-03-10 has the previous window 2025-02-19..2025-02-28. -/
theorem previous_window_across_dst :
    parseISODate "2025-11-03" = some 1762128000000 ∧
    parseISODate "2025-11-10" = some 1762732800000 ∧
    newYork2025.offsetAt 1762128000000 = -18000000 ∧
    setDatePrevDay newYork2025 1762128000000 = 1762038000000 ∧
    DateUtils.getPreviousPeriod newYork2025 parseISODate (some "2025-11-03") (some "2025-11-10")
      = (some 1761433200000, some 1762038000000) ∧
    (1762128000000 : Int) - 1762038000000 = msPerDay + 3600000 ∧
    (1762038000000 : Int) - 1761433200000 = 1762732800000 - 1762128000000 ∧
    isoDateString 1762038000000 = "2025-11-01" ∧
    isoDateString 1761433200000 = "2025-10-25" ∧
    isoDateString (1762128000000 - msPerDay) = "2025-11-02" ∧
    DateUtils.getPreviousPeriod (Zone.fixed 0) parseISODate (some "2025-03-01")
        (some "2025-03-10")
      = (parseISODate "2025-02-19", parseISODate "2025-02-28") ∧
    DateUtils.getPreviousPeriod newYork2025 parseISODate (some "2025-03-01") (some "2025-03-10")
      = (parseISODate "2025-02-19", parseISODate "2025-02-28") := by
  refine ⟨by decide, by decide, by decide, by decide, by decide, by decide, by decide,
    by decide, by decide, by decide, by decide, by decide⟩

end Totals

/-! ## The calendar of the runtime -/

section Calendar

theorem dayOfYear_bounds (a b c d e f g : Int) (h0 : 0 ≤ a) (h1 : a ≤ 146096)
    (he : e = a / 1460) (hf : f = a / 36524) (hg : g = a / 146096)
    (hb : b = (a - e + f - g) / 365) (hc : c = b / 4) (hd : d = b / 100) :
    0 ≤ a - (365 * b + c - d) ∧ a - (365 * b + c - d) ≤ 365 ∧ 0 ≤ b ∧ b ≤ 399 := by
  have hf4 : 0 ≤ f ∧ f ≤ 4 := by omega
  have hd3 : 0 ≤ d ∧ d ≤ 3 := by omega
  rcases (by omega : f = 0 ∨ f = 1 ∨ f = 2 ∨ f = 3 ∨ f = 4) with h | h | h | h | h <;>
  rcases (by omega : d = 0 ∨ d = 1 ∨ d = 2 ∨ d = 3) with k | k | k | k <;>
  subst h <;> subst k <;> omega

theorem monthOfDay_bounds (doy mp d m : Int) (h0 : 0 ≤ doy) (h1 : doy ≤ 365)
    (hmp : mp = (5 * doy + 2) / 153) (hd : d = doy - (153 * mp + 2) / 5 + 1)
    (hm : m = if mp < 10 then mp + 3 else mp - 9) :
    1 ≤ m ∧ m ≤ 12 ∧ 1 ≤ d ∧ d ≤ 31 ∧ (m + 9) % 12 = mp ∧
    (153 * mp + 2) / 5 + d - 1 = doy ∧ (m ≤ 2 ↔ 10 ≤ mp) := by
  have : 0 ≤ mp ∧ mp ≤ 11 := by omega
  split at hm <;> omega

/-- The civil date of a day number is a month 1..12 and a day 1..31 whose day number is
the given one. -/
theorem civilFromDays_spec (z : Int) :
    daysFromCivil (civilFromDays z).1 (civilFromDays z).2.1 (civilFromDays z).2.2 = z ∧
    1 ≤ (civilFromDays z).2.1 ∧ (civilFromDays z).2.1 ≤ 12 ∧
    1 ≤ (civilFromDays z).2.2 ∧ (civilFromDays z).2.2 ≤ 31 := by
  have hdoe : 0 ≤ z + 719468 - (z + 719468) / 146097 * 146097 ∧
      z + 719468 - (z + 719468) / 146097 * 146097 ≤ 146096 := by omega
  generalize hera : (z + 719468) / 146097 = era at hdoe
  generalize hdoeq : z + 719468 - era * 146097 = doe at hdoe
  obtain ⟨hy1, hy2, hb1, hb2⟩ :=
    dayOfYear_bounds doe _ _ _ _ _ _ hdoe.1 hdoe.2 rfl rfl rfl rfl rfl rfl
  generalize hyoe : (doe - doe / 1460 + doe / 36524 - doe / 146096) / 365 = yoe
    at hy1 hy2 hb1 hb2
  generalize hdoy : doe - (365 * yoe + yoe / 4 - yoe / 100) = doy at hy1 hy2
  obtain ⟨c1, c2, c3, c4, c5, c6, _⟩ := monthOfDay_bounds doy _ _ _ hy1 hy2 rfl rfl rfl
  generalize hmp : (5 * doy + 2) / 153 = mp at c1 c2 c3 c4 c5 c6
  generalize hd : doy - (153 * mp + 2) / 5 + 1 = d at c1 c2 c3 c4 c5 c6
  generalize hm : (if mp < 10 then mp + 3 else mp - 9) = m at c1 c2 c3 c4 c5 c6
  have hciv : civilFromDays z
      = (if m ≤ 2 then yoe + era * 400 + 1 else yoe + era * 400, m, d) := by
    unfold civilFromDays
    simp only [hera, hdoeq, hyoe, hdoy, hmp, hd, hm]
  rw [hciv]
  refine ⟨?_, c1, c2, c3, c4⟩
  unfold daysFromCivil
  simp only
  have hyear : (if m ≤ 2 then (if m ≤ 2 then yoe + era * 400 + 1 else yoe + era * 400) - 1
      else (if m ≤ 2 then yoe + era * 400 + 1 else yoe + era * 400)) = yoe + era * 400 := by
    split <;> omega
  rw [hyear, c5]
  have hq : (yoe + era * 400) / 400 = era := by omega
  rw [hq]
  have hsub : yoe + era * 400 - era * 400 = yoe := by ring
  rw [hsub, c6]
  omega

/-- Within a month the day number grows with the day of the month. -/
theorem daysFromCivil_day (y m d : Int) :
    daysFromCivil y m d = daysFromCivil y m 1 + d - 1 := by
  unfold daysFromCivil
  simp only
  omega

/-- The first day of a month comes at least 28 days after the first day of the month
before it, within a year and across the turn of the year. -/
theorem firstOfMonth_step (y m : Int) (h1 : 1 ≤ m) (h2 : m ≤ 11) :
    daysFromCivil y m 1 + 28 ≤ daysFromCivil y (m + 1) 1 ∧
    daysFromCivil y 12 1 + 31 = daysFromCivil (y + 1) 1 1 := by
  have hm : m = 1 ∨ m = 2 ∨ m = 3 ∨ m = 4 ∨ m = 5 ∨ m = 6 ∨ m = 7 ∨ m = 8 ∨ m = 9 ∨
      m = 10 ∨ m = 11 := by omega
  constructor
  · rcases hm with h | h | h | h | h | h | h | h | h | h | h <;> subst h <;>
      simp only [daysFromCivil] <;> norm_num <;> omega
  · simp only [daysFromCivil]
    norm_num
    omega

end Calendar

/-! ## The local-time operations of `Date` -/

section LocalTime

open UseDateRange

/-- `d.setDate(d.getDate() + k)` moves `d` by `k` days. -/
theorem setDate_getDate_add (tz t k : Int) :
    setDate tz t (getDate tz t + k) = t + k * msPerDay := by
  obtain ⟨hround, _, _, _, _⟩ := civilFromDays_spec (localDay tz t)
  rw [daysFromCivil_day] at hround
  unfold setDate getFullYear getMonth getDate
  have hday : daysFromCivil (civilFromDays (localDay tz t)).1
      ((civilFromDays (localDay tz t)).2.1 - 1 + 1) 1
      + ((civilFromDays (localDay tz t)).2.2 + k) - 1 = localDay tz t + k := by
    rw [sub_add_cancel]
    omega
  rw [hday]
  unfold localDay msPerDay
  omega

theorem localDay_add_days (tz t k : Int) :
    localDay tz (t + k * msPerDay) = localDay tz t + k := by
  unfold localDay msPerDay
  omega

/-- The start of day: the first millisecond of the same local day. -/
theorem startOfDay_spec (tz t : Int) :
    startOfDay tz t = localDay tz t * msPerDay - tz ∧
    localDay tz (startOfDay tz t) = localDay tz t ∧
    (startOfDay tz t + tz) % msPerDay = 0 ∧ startOfDay tz t ≤ t := by
  unfold startOfDay setHoursStartOfDay localDay msPerDay
  omega

/-- The end of day: the last millisecond of the same local day. -/
theorem endOfDay_spec (tz t : Int) :
    endOfDay tz t = localDay tz t * msPerDay + (msPerDay - 1) - tz ∧
    localDay tz (endOfDay tz t) = localDay tz t ∧
    (endOfDay tz t + tz) % msPerDay = msPerDay - 1 ∧ t ≤ endOfDay tz t := by
  unfold endOfDay setHoursEndOfDay localDay msPerDay
  omega

/-- The start of day of `today` moved by `k` days. -/
theorem startOfDay_setDate (tz today k : Int) :
    startOfDay tz (setDate tz today (getDate tz today + k))
      = (localDay tz today + k) * msPerDay - tz := by
  rw [setDate_getDate_add, (startOfDay_spec tz _).1, localDay_add_days]

/-- The end of day of `today` moved by `k` days. -/
theorem endOfDay_setDate (tz today k : Int) :
    endOfDay tz (setDate tz today (getDate tz today + k))
      = (localDay tz today + k) * msPerDay + (msPerDay - 1) - tz := by
  rw [setDate_getDate_add, (endOfDay_spec tz _).1, localDay_add_days]

/-- The day of `new Date(year, monthIndex, day)`, at local midnight. -/
theorem newDate_spec (tz year monthIndex day : Int) :
    localDay tz (newDate tz year monthIndex day)
      = daysFromCivil (year + monthIndex / 12) (monthIndex % 12 + 1) 1 + day - 1 ∧
    startOfDay tz (newDate tz year monthIndex day)
      = (daysFromCivil (year + monthIndex / 12) (monthIndex % 12 + 1) 1 + day - 1) * msPerDay
          - tz ∧
    endOfDay tz (newDate tz year monthIndex day)
      = (daysFromCivil (year + monthIndex / 12) (monthIndex % 12 + 1) 1 + day - 1) * msPerDay
          + (msPerDay - 1) - tz := by
  have h : localDay tz (newDate tz year monthIndex day)
      = daysFromCivil (year + monthIndex / 12) (monthIndex % 12 + 1) 1 + day - 1 := by
    unfold localDay newDate msPerDay
    omega
  refine ⟨h, ?_, ?_⟩
  · rw [(startOfDay_spec tz _).1, h]
  · rw [(endOfDay_spec tz _).1, h]

/-- The day of the week is one of 0..6. -/
theorem getDay_range (tz t : Int) : 0 ≤ getDay tz t ∧ getDay tz t ≤ 6 := by
  unfold getDay
  omega

/-- The month index is one of 0..11 and the day of the month at least 1. -/
theorem getMonth_range (tz t : Int) :
    0 ≤ getMonth tz t ∧ getMonth tz t ≤ 11 ∧ 1 ≤ getDate tz t ∧
    daysFromCivil (getFullYear tz t) (getMonth tz t + 1) 1 + getDate tz t - 1
      = localDay tz t := by
  obtain ⟨hround, h1, h2, h3, _⟩ := civilFromDays_spec (localDay tz t)
  rw [daysFromCivil_day] at hround
  unfold getMonth getDate getFullYear
  rw [sub_add_cancel]
  omega

end LocalTime

/-! ## The presets of the date range resolver -/

section Presets

open UseDateRange

theorem isDayWindow_of_days (tz firstDay lastDay : Int) :
    IsDayWindow tz (firstDay * msPerDay - tz) (lastDay * msPerDay + (msPerDay - 1) - tz)
      firstDay lastDay := by
  unfold IsDayWindow localDay msPerDay
  omega

/-- At every instant and in every zone of constant offset, the presets last_7_days,
last_30_days and last_90_days compute the window that begins with the local day 6, 29 and 89 days before
today and ends with today, so it holds exactly 7, 30 and 90 local days.  With now on
2025-03-15 in a zone at UTC, last_7_days emits startDate 2025-03-09 and endDate
2025-03-15. -/
theorem last_days_presets (tz today : Int) :
    (∃ start finish, presetWindow tz today "last_7_days" = some (start, finish, "Last 7 Days") ∧
      IsDayWindow tz start finish (localDay tz today - 6) (localDay tz today) ∧
      localDay tz finish - localDay tz start + 1 = 7) ∧
    (∃ start finish,
      presetWindow tz today "last_30_days" = some (start, finish, "Last 30 Days") ∧
      IsDayWindow tz start finish (localDay tz today - 29) (localDay tz today) ∧
      localDay tz finish - localDay tz start + 1 = 30) ∧
    (∃ start finish,
      presetWindow tz today "last_90_days" = some (start, finish, "Last 90 Days") ∧
      IsDayWindow tz start finish (localDay tz today - 89) (localDay tz today) ∧
      localDay tz finish - localDay tz start + 1 = 90) ∧
    (∀ now, localDay 0 now = daysFromCivil 2025 3 15 →
      setPresetRange true 0 now "last_7_days"
        = some { startDate := some "2025-03-09", endDate := some "2025-03-15",
                 label := some "Last 7 Days" }) := by
  have key : ∀ n : Int,
      startOfDay tz (setDate tz today (getDate tz today - n))
        = (localDay tz today - n) * msPerDay - tz := by
    intro n
    rw [sub_eq_add_neg, startOfDay_setDate, ← sub_eq_add_neg]
  have hend := (endOfDay_spec tz today).1
  have hwin : ∀ n : Int, IsDayWindow tz
      (startOfDay tz (setDate tz today (getDate tz today - n))) (endOfDay tz today)
      (localDay tz today - n) (localDay tz today) := by
    intro n
    rw [key, hend]
    exact isDayWindow_of_days tz _ _
  refine ⟨⟨_, _, by simp [presetWindow], hwin 6, ?_⟩, ⟨_, _, by simp [presetWindow], hwin 29, ?_⟩,
    ⟨_, _, by simp [presetWindow], hwin 89, ?_⟩, ?_⟩
  · rw [(hwin 6).1, (hwin 6).2.2.1]; ring
  · rw [(hwin 29).1, (hwin 29).2.2.1]; ring
  · rw [(hwin 89).1, (hwin 89).2.2.1]; ring
  · intro now hnow
    have h1 : startOfDay 0 (setDate 0 now (getDate 0 now - 6)) = 1741478400000 := by
      rw [sub_eq_add_neg, startOfDay_setDate, hnow]
      decide
    have h2 : endOfDay 0 now = 1742083199999 := by
      rw [(endOfDay_spec 0 now).1, hnow]
      decide
    have hw : presetWindow 0 now "last_7_days"
        = some (1741478400000, 1742083199999, "Last 7 Days") := by
      simp [presetWindow, h1, h2]
    unfold setPresetRange
    rw [hw]
    decide

/-- The days of the last quarter, for each of the four quarters `q` of the year `y`: the
quarter before `q` begins with the given first day and ends with the given last day, which
is the day before the first day of quarter `q`. -/
theorem quarter_days (y q : Int) (hq : q = 0 ∨ q = 1 ∨ q = 2 ∨ q = 3) :
    daysFromCivil (y + (q * 3) / 12) ((q * 3) % 12 + 1) 1 = daysFromCivil y (3 * q + 1) 1 ∧
    (q = 0 →
      daysFromCivil (y + ((q - 1) * 3) / 12) (((q - 1) * 3) % 12 + 1) 1 + 1 - 1
        = daysFromCivil (y - 1) 10 1 ∧
      daysFromCivil (y + (q * 3) / 12) ((q * 3) % 12 + 1) 1 + 0 - 1
        = daysFromCivil (y - 1) 12 31) ∧
    (q = 1 →
      daysFromCivil (y + ((q - 1) * 3) / 12) (((q - 1) * 3) % 12 + 1) 1 + 1 - 1
        = daysFromCivil y 1 1 ∧
      daysFromCivil (y + (q * 3) / 12) ((q * 3) % 12 + 1) 1 + 0 - 1 = daysFromCivil y 3 31) ∧
    (q = 2 →
      daysFromCivil (y + ((q - 1) * 3) / 12) (((q - 1) * 3) % 12 + 1) 1 + 1 - 1
        = daysFromCivil y 4 1 ∧
      daysFromCivil (y + (q * 3) / 12) ((q * 3) % 12 + 1) 1 + 0 - 1 = daysFromCivil y 6 30) ∧
    (q = 3 →
      daysFromCivil (y + ((q - 1) * 3) / 12) (((q - 1) * 3) % 12 + 1) 1 + 1 - 1
        = daysFromCivil y 7 1 ∧
      daysFromCivil (y + (q * 3) / 12) ((q * 3) % 12 + 1) 1 + 0 - 1 = daysFromCivil y 9 30) := by
  refine ⟨?_, ?_, ?_, ?_, ?_⟩
  · rcases hq with h | h | h | h <;> subst h <;> norm_num
  · intro h
    subst h
    constructor
    all_goals simp only [daysFromCivil]
    all_goals norm_num
    all_goals omega
  · intro h
    subst h
    constructor
    all_goals simp only [daysFromCivil]
    all_goals norm_num
    all_goals omega
  · intro h
    subst h
    constructor
    all_goals simp only [daysFromCivil]
    all_goals norm_num
    all_goals omega
  · intro h
    subst h
    constructor
    all_goals simp only [daysFromCivil]
    all_goals norm_num
    all_goals omega

/-- At every instant and in every zone of constant offset, with `Y` the local year of now
and `q` the quotient of its month index by 3, the preset last_quarter computes the window of whole
local days from the first to the last day of the quarter before quarter `q`: October 1 to
December 31 of `Y - 1` when now lies in January to March, else January 1 to March 31,
April 1 to June 30, or July 1 to September 30 of `Y`; the last day is the day before the
first day of now's quarter.  With now on 2025-02-10 in a zone at UTC it emits 2024-10-01
and 2024-12-31. -/
theorem last_quarter_preset (tz today : Int) :
    ∃ start finish,
      presetWindow tz today "last_quarter" = some (start, finish, "Last Quarter") ∧
      (getMonth tz today / 3 = 0 ∨ getMonth tz today / 3 = 1 ∨ getMonth tz today / 3 = 2 ∨
        getMonth tz today / 3 = 3) ∧
      (getMonth tz today / 3 = 0 ↔ getMonth tz today ≤ 2) ∧
      (getMonth tz today / 3 = 0 →
        IsDayWindow tz start finish (daysFromCivil (getFullYear tz today - 1) 10 1)
          (daysFromCivil (getFullYear tz today - 1) 12 31)) ∧
      (getMonth tz today / 3 = 1 →
        IsDayWindow tz start finish (daysFromCivil (getFullYear tz today) 1 1)
          (daysFromCivil (getFullYear tz today) 3 31)) ∧
      (getMonth tz today / 3 = 2 →
        IsDayWindow tz start finish (daysFromCivil (getFullYear tz today) 4 1)
          (daysFromCivil (getFullYear tz today) 6 30)) ∧
      (getMonth tz today / 3 = 3 →
        IsDayWindow tz start finish (daysFromCivil (getFullYear tz today) 7 1)
          (daysFromCivil (getFullYear tz today) 9 30)) ∧
      localDay tz finish + 1
        = daysFromCivil (getFullYear tz today) (3 * (getMonth tz today / 3) + 1) 1 ∧
      (∀ now, localDay 0 now = daysFromCivil 2025 2 10 →
        setPresetRange true 0 now "last_quarter"
          = some { startDate := some "2024-10-01", endDate := some "2024-12-31",
                   label := some "Last Quarter" }) := by
  obtain ⟨hm0, hm11, _, _⟩ := getMonth_range tz today
  have hq : getMonth tz today / 3 = 0 ∨ getMonth tz today / 3 = 1 ∨
      getMonth tz today / 3 = 2 ∨ getMonth tz today / 3 = 3 := by omega
  obtain ⟨q0, q1, q2, q3, q4⟩ := quarter_days (getFullYear tz today) (getMonth tz today / 3) hq
  have hs := (newDate_spec tz (getFullYear tz today) ((getMonth tz today / 3 - 1) * 3) 1).2.1
  have hf := (newDate_spec tz (getFullYear tz today) (getMonth tz today / 3 * 3) 0).2.2
  have hwin := isDayWindow_of_days tz
    (daysFromCivil (getFullYear tz today + ((getMonth tz today / 3 - 1) * 3) / 12)
      (((getMonth tz today / 3 - 1) * 3) % 12 + 1) 1 + 1 - 1)
    (daysFromCivil (getFullYear tz today + (getMonth tz today / 3 * 3) / 12)
      ((getMonth tz today / 3 * 3) % 12 + 1) 1 + 0 - 1)
  rw [← hs, ← hf] at hwin
  refine ⟨startOfDay tz (newDate tz (getFullYear tz today) ((getMonth tz today / 3 - 1) * 3) 1),
    endOfDay tz (newDate tz (getFullYear tz today) (getMonth tz today / 3 * 3) 0),
    by simp [presetWindow], hq, by omega, ?_, ?_, ?_, ?_, ?_, ?_⟩
  · intro h
    rw [← (q1 h).1, ← (q1 h).2]
    exact hwin
  · intro h
    rw [← (q2 h).1, ← (q2 h).2]
    exact hwin
  · intro h
    rw [← (q3 h).1, ← (q3 h).2]
    exact hwin
  · intro h
    rw [← (q4 h).1, ← (q4 h).2]
    exact hwin
  · rw [hwin.2.2.1, ← q0]
    ring
  · intro now hnow
    have hy : getFullYear 0 now = 2025 := by
      unfold getFullYear
      rw [hnow]
      decide
    have hmo : getMonth 0 now = 1 := by
      unfold getMonth
      rw [hnow]
      decide
    have h1 : startOfDay 0 (newDate 0 2025 (-3) 1) = 1727740800000 := by decide
    have h2 : endOfDay 0 (newDate 0 2025 0 0) = 1735689599999 := by decide
    have hw : presetWindow 0 now "last_quarter"
        = some (1727740800000, 1735689599999, "Last Quarter") := by
      simp [presetWindow, hy, hmo, h1, h2]
    unfold setPresetRange
    rw [hw]
    decide

/-- The first days of the months of a year come in order. -/
theorem firstOfMonth_mono (y m1 m2 : Int) (h1 : 1 ≤ m1) (h12 : m1 ≤ m2) (h2 : m2 ≤ 12) :
    daysFromCivil y m1 1 ≤ daysFromCivil y m2 1 := by
  have s1 : daysFromCivil y 1 1 + 28 ≤ daysFromCivil y 2 1 :=
    (firstOfMonth_step y 1 (by norm_num) (by norm_num)).1
  have s2 : daysFromCivil y 2 1 + 28 ≤ daysFromCivil y 3 1 :=
    (firstOfMonth_step y 2 (by norm_num) (by norm_num)).1
  have s3 : daysFromCivil y 3 1 + 28 ≤ daysFromCivil y 4 1 :=
    (firstOfMonth_step y 3 (by norm_num) (by norm_num)).1
  have s4 : daysFromCivil y 4 1 + 28 ≤ daysFromCivil y 5 1 :=
    (firstOfMonth_step y 4 (by norm_num) (by norm_num)).1
  have s5 : daysFromCivil y 5 1 + 28 ≤ daysFromCivil y 6 1 :=
    (firstOfMonth_step y 5 (by norm_num) (by norm_num)).1
  have s6 : daysFromCivil y 6 1 + 28 ≤ daysFromCivil y 7 1 :=
    (firstOfMonth_step y 6 (by norm_num) (by norm_num)).1
  have s7 : daysFromCivil y 7 1 + 28 ≤ daysFromCivil y 8 1 :=
    (firstOfMonth_step y 7 (by norm_num) (by norm_num)).1
  have s8 : daysFromCivil y 8 1 + 28 ≤ daysFromCivil y 9 1 :=
    (firstOfMonth_step y 8 (by norm_num) (by norm_num)).1
  have s9 : daysFromCivil y 9 1 + 28 ≤ daysFromCivil y 10 1 :=
    (firstOfMonth_step y 9 (by norm_num) (by norm_num)).1
  have s10 : daysFromCivil y 10 1 + 28 ≤ daysFromCivil y 11 1 :=
    (firstOfMonth_step y 10 (by norm_num) (by norm_num)).1
  have s11 : daysFromCivil y 11 1 + 28 ≤ daysFromCivil y 12 1 :=
    (firstOfMonth_step y 11 (by norm_num) (by norm_num)).1
  have hm1 : m1 = 1 ∨ m1 = 2 ∨ m1 = 3 ∨ m1 = 4 ∨ m1 = 5 ∨ m1 = 6 ∨ m1 = 7 ∨ m1 = 8 ∨
      m1 = 9 ∨ m1 = 10 ∨ m1 = 11 ∨ m1 = 12 := by omega
  have hm2 : m2 = 1 ∨ m2 = 2 ∨ m2 = 3 ∨ m2 = 4 ∨ m2 = 5 ∨ m2 = 6 ∨ m2 = 7 ∨ m2 = 8 ∨
      m2 = 9 ∨ m2 = 10 ∨ m2 = 11 ∨ m2 = 12 := by omega
  rcases hm1 with h | h | h | h | h | h | h | h | h | h | h | h <;>
    rcases hm2 with k | k | k | k | k | k | k | k | k | k | k | k <;>
    subst h <;> subst k <;> omega

/-- The first day of the month before a month of the year precedes its first day. -/
theorem firstOfMonth_previous (y mi : Int) (h0 : 0 ≤ mi) (h11 : mi ≤ 11) :
    daysFromCivil (y + (mi - 1) / 12) ((mi - 1) % 12 + 1) 1 + 28
      ≤ daysFromCivil y (mi + 1) 1 := by
  by_cases hz : mi = 0
  · subst hz
    have h := (firstOfMonth_step (y + -1) 1 (by norm_num) (by norm_num)).2
    have e : y + -1 + 1 = y := by ring
    rw [e] at h
    norm_num
    omega
  · have hq : (mi - 1) / 12 = 0 := by omega
    have hr : (mi - 1) % 12 + 1 = mi := by omega
    rw [hq, hr, add_zero]
    exact (firstOfMonth_step y mi (by omega) h11).1

theorem window_of_days_ordered (tz first last : Int) (h : first ≤ last) :
    first * msPerDay - tz ≤ last * msPerDay + (msPerDay - 1) - tz ∧
    (first * msPerDay - tz) / msPerDay ≤ (last * msPerDay + (msPerDay - 1) - tz) / msPerDay := by
  unfold msPerDay
  omega

/-- The presets counted in days from today: each computes a range of whole local days,
from the day `first` to the day `last`, with `first ≤ last`. -/
theorem preset_days_relative (tz today : Int) (presetKey : String)
    (hkey : presetKey ∈ ["today", "yesterday", "this_week", "last_week", "last_7_days",
      "last_30_days", "last_90_days"]) :
    ∃ first last label,
      presetWindow tz today presetKey
        = some (first * msPerDay - tz, last * msPerDay + (msPerDay - 1) - tz, label) ∧
      first ≤ last := by
  have hS : ∀ k : Int, startOfDay tz (setDate tz today (getDate tz today - k))
      = (localDay tz today - k) * msPerDay - tz := by
    intro k
    rw [sub_eq_add_neg, startOfDay_setDate, ← sub_eq_add_neg]
  have hE : ∀ k : Int, endOfDay tz (setDate tz today (getDate tz today - k))
      = (localDay tz today - k) * msPerDay + (msPerDay - 1) - tz := by
    intro k
    rw [sub_eq_add_neg, endOfDay_setDate, ← sub_eq_add_neg]
  have hs0 := (startOfDay_spec tz today).1
  have he0 := (endOfDay_spec tz today).1
  obtain ⟨hd0, hd6⟩ := getDay_range tz today
  simp only [List.mem_cons, List.mem_singleton, List.not_mem_nil, or_false] at hkey
  rcases hkey with h | h | h | h | h | h | h <;> subst h
  · exact ⟨localDay tz today, localDay tz today, "Today", by simp [presetWindow, hs0, he0],
      le_refl _⟩
  · exact ⟨localDay tz today - 1, localDay tz today - 1, "Yesterday",
      by simp [presetWindow, hS, hE], le_refl _⟩
  · have hdiff : getDate tz today - getDay tz today + (if getDay tz today = 0 then -6 else 1)
        = getDate tz today
          - (getDay tz today - (if getDay tz today = 0 then -6 else 1)) := by ring
    refine ⟨localDay tz today - (getDay tz today - (if getDay tz today = 0 then -6 else 1)),
      localDay tz today, "This Week", ?_, ?_⟩
    · have hw : presetWindow tz today "this_week"
          = some (startOfDay tz (setDate tz today (getDate tz today - getDay tz today
              + (if getDay tz today = 0 then -6 else 1))), endOfDay tz today, "This Week") := by
        simp [presetWindow]
      rw [hw, hdiff, hS, he0]
    · split <;> omega
  · have hdiff : getDate tz today - getDay tz today - 6
        = getDate tz today - (getDay tz today + 6) := by ring
    refine ⟨localDay tz today - (getDay tz today + 6), localDay tz today - getDay tz today,
      "Last Week", ?_, by omega⟩
    have hw : presetWindow tz today "last_week"
        = some (startOfDay tz (setDate tz today (getDate tz today - getDay tz today - 6)),
            endOfDay tz (setDate tz today (getDate tz today - getDay tz today)),
            "Last Week") := by
      simp [presetWindow]
    rw [hw, hdiff, hS, hE]
  · exact ⟨localDay tz today - 6, localDay tz today, "Last 7 Days",
      by simp [presetWindow, hS, he0], by omega⟩
  · exact ⟨localDay tz today - 29, localDay tz today, "Last 30 Days",
      by simp [presetWindow, hS, he0], by omega⟩
  · exact ⟨localDay tz today - 89, localDay tz today, "Last 90 Days",
      by simp [presetWindow, hS, he0], by omega⟩

/-- The presets named after the calendar: each computes a range of whole local days, from
the day `first` to the day `last`, with `first ≤ last`. -/
theorem preset_days_calendar (tz today : Int) (presetKey : String)
    (hkey : presetKey ∈ ["this_month", "last_month", "this_quarter", "last_quarter",
      "this_year", "last_year"]) :
    ∃ first last label,
      presetWindow tz today presetKey
        = some (first * msPerDay - tz, last * msPerDay + (msPerDay - 1) - tz, label) ∧
      first ≤ last := by
  have he0 := (endOfDay_spec tz today).1
  obtain ⟨hm0, hm11, hd1, hday⟩ := getMonth_range tz today
  have hq : getMonth tz today / 3 = 0 ∨ getMonth tz today / 3 = 1 ∨
      getMonth tz today / 3 = 2 ∨ getMonth tz today / 3 = 3 := by omega
  obtain ⟨q0, q1, q2, q3, q4⟩ := quarter_days (getFullYear tz today) (getMonth tz today / 3) hq
  simp only [List.mem_cons, List.mem_singleton, List.not_mem_nil, or_false] at hkey
  rcases hkey with h | h | h | h | h | h <;> subst h
  · have hw : presetWindow tz today "this_month"
        = some (startOfDay tz (newDate tz (getFullYear tz today) (getMonth tz today) 1),
            endOfDay tz today, "This Month") := by
      simp [presetWindow]
    refine ⟨(daysFromCivil (getFullYear tz today + getMonth tz today / 12) (getMonth tz today % 12 + 1) 1 + 1 - 1),
      localDay tz today, "This Month", ?_, ?_⟩
    · rw [hw, (newDate_spec tz _ _ _).2.1, he0]
    · have h1 : getMonth tz today / 12 = 0 := by omega
      have h2 : getMonth tz today % 12 = getMonth tz today := by omega
      simp only [h1, h2, add_zero]
      omega
  · have hw : presetWindow tz today "last_month"
        = some (startOfDay tz (newDate tz (getFullYear tz today) (getMonth tz today - 1) 1),
            endOfDay tz (newDate tz (getFullYear tz today) (getMonth tz today) 0),
            "Last Month") := by
      simp [presetWindow]
    refine ⟨(daysFromCivil (getFullYear tz today + (getMonth tz today - 1) / 12) ((getMonth tz today - 1) % 12 + 1) 1 + 1 - 1),
      (daysFromCivil (getFullYear tz today + getMonth tz today / 12) (getMonth tz today % 12 + 1) 1 + 0 - 1),
      "Last Month", ?_, ?_⟩
    · rw [hw, (newDate_spec tz _ _ _).2.1, (newDate_spec tz _ _ _).2.2]
    · have hprev := firstOfMonth_previous (getFullYear tz today) (getMonth tz today) hm0 hm11
      have h1 : getMonth tz today / 12 = 0 := by omega
      have h2 : getMonth tz today % 12 = getMonth tz today := by omega
      simp only [h1, h2, add_zero]
      omega
  · have hw : presetWindow tz today "this_quarter"
        = some (startOfDay tz (newDate tz (getFullYear tz today)
              (getMonth tz today / 3 * 3) 1), endOfDay tz today, "This Quarter") := by
      simp [presetWindow]
    refine ⟨(daysFromCivil (getFullYear tz today + (getMonth tz today / 3 * 3) / 12) ((getMonth tz today / 3 * 3) % 12 + 1) 1 + 1 - 1),
      localDay tz today, "This Quarter", ?_, ?_⟩
    · rw [hw, (newDate_spec tz _ _ _).2.1, he0]
    · rw [q0]
      have hmono := firstOfMonth_mono (getFullYear tz today) (3 * (getMonth tz today / 3) + 1)
        (getMonth tz today + 1) (by omega) (by omega) (by omega)
      omega
  · have hw : presetWindow tz today "last_quarter"
        = some (startOfDay tz (newDate tz (getFullYear tz today)
              ((getMonth tz today / 3 - 1) * 3) 1),
            endOfDay tz (newDate tz (getFullYear tz today) (getMonth tz today / 3 * 3) 0),
            "Last Quarter") := by
      simp [presetWindow]
    refine ⟨(daysFromCivil (getFullYear tz today + ((getMonth tz today / 3 - 1) * 3) / 12) (((getMonth tz today / 3 - 1) * 3) % 12 + 1) 1 + 1 - 1),
      (daysFromCivil (getFullYear tz today + (getMonth tz today / 3 * 3) / 12) ((getMonth tz today / 3 * 3) % 12 + 1) 1 + 0 - 1),
      "Last Quarter", ?_, ?_⟩
    · rw [hw, (newDate_spec tz _ _ _).2.1, (newDate_spec tz _ _ _).2.2]
    · rcases hq with h | h | h | h
      · rw [(q1 h).1, (q1 h).2, daysFromCivil_day (getFullYear tz today - 1) 12 31]
        have := firstOfMonth_mono (getFullYear tz today - 1) 10 12 (by norm_num) (by norm_num)
          (by norm_num)
        omega
      · rw [(q2 h).1, (q2 h).2, daysFromCivil_day (getFullYear tz today) 3 31]
        have := firstOfMonth_mono (getFullYear tz today) 1 3 (by norm_num) (by norm_num)
          (by norm_num)
        omega
      · rw [(q3 h).1, (q3 h).2, daysFromCivil_day (getFullYear tz today) 6 30]
        have := firstOfMonth_mono (getFullYear tz today) 4 6 (by norm_num) (by norm_num)
          (by norm_num)
        omega
      · rw [(q4 h).1, (q4 h).2, daysFromCivil_day (getFullYear tz today) 9 30]
        have := firstOfMonth_mono (getFullYear tz today) 7 9 (by norm_num) (by norm_num)
          (by norm_num)
        omega
  · have hw : presetWindow tz today "this_year"
        = some (startOfDay tz (newDate tz (getFullYear tz today) 0 1), endOfDay tz today,
            "This Year") := by
      simp [presetWindow]
    refine ⟨(daysFromCivil (getFullYear tz today + 0 / 12) (0 % 12 + 1) 1 + 1 - 1),
      localDay tz today, "This Year", ?_, ?_⟩
    · rw [hw, (newDate_spec tz _ _ _).2.1, he0]
    · have hmono := firstOfMonth_mono (getFullYear tz today) 1 (getMonth tz today + 1)
        (by norm_num) (by omega) (by omega)
      norm_num
      omega
  · have hw : presetWindow tz today "last_year"
        = some (startOfDay tz (newDate tz (getFullYear tz today - 1) 0 1),
            endOfDay tz (newDate tz (getFullYear tz today - 1) 11 31), "Last Year") := by
      simp [presetWindow]
    refine ⟨(daysFromCivil ((getFullYear tz today - 1) + 0 / 12) (0 % 12 + 1) 1 + 1 - 1),
      (daysFromCivil ((getFullYear tz today - 1) + 11 / 12) (11 % 12 + 1) 1 + 31 - 1),
      "Last Year", ?_, ?_⟩
    · rw [hw, (newDate_spec tz _ _ _).2.1, (newDate_spec tz _ _ _).2.2]
    · have hmono := firstOfMonth_mono (getFullYear tz today - 1) 1 12 (by norm_num)
        (by norm_num) (by norm_num)
      norm_num
      omega

/-- C24: for every preset key of `DATE_RANGES`, at every instant and in every zone,
`setPresetRange` emits a range with both bounds present: the dates of two instants
`start ≤ finish`, the first and last millisecond of two local days `firstDay ≤ lastDay`;
the UTC days whose dates are emitted as startDate and endDate are in order as well. -/
theorem presets_emit_ordered (tz today : Int) (presetKey : String)
    (hkey : presetKey ∈ DATE_RANGES) :
    ∃ start finish label firstDay lastDay,
      presetWindow tz today presetKey = some (start, finish, label) ∧
      setPresetRange true tz today presetKey
        = some { startDate := some (formatDate start), endDate := some (formatDate finish),
                 label := some label } ∧
      IsDayWindow tz start finish firstDay lastDay ∧ firstDay ≤ lastDay ∧
      start ≤ finish ∧ start / msPerDay ≤ finish / msPerDay := by
  have hfam : presetKey ∈ ["today", "yesterday", "this_week", "last_week", "last_7_days",
        "last_30_days", "last_90_days"] ∨
      presetKey ∈ ["this_month", "last_month", "this_quarter", "last_quarter", "this_year",
        "last_year"] := by
    simp only [DATE_RANGES, List.mem_cons, List.mem_singleton, List.not_mem_nil, or_false]
      at hkey ⊢
    tauto
  have hdays : ∃ first last label,
      presetWindow tz today presetKey
        = some (first * msPerDay - tz, last * msPerDay + (msPerDay - 1) - tz, label) ∧
      first ≤ last := by
    rcases hfam with h | h
    · exact preset_days_relative tz today presetKey h
    · exact preset_days_calendar tz today presetKey h
  obtain ⟨first, last, label, hw, hle⟩ := hdays
  obtain ⟨h1, h2⟩ := window_of_days_ordered tz first last hle
  refine ⟨_, _, label, first, last, hw, ?_, isDayWindow_of_days tz first last, hle, h1, h2⟩
  unfold setPresetRange
  rw [hw]
  rfl

/-- C24, at the preset this_month on 2025-03-15 at noon in a zone at UTC: the range
2025-03-01..2025-03-15. -/
theorem presets_emit_ordered_witness :
    (∃ start finish label firstDay lastDay,
      presetWindow 0 1742040000000 "this_month" = some (start, finish, label) ∧
      setPresetRange true 0 1742040000000 "this_month"
        = some { startDate := some (formatDate start), endDate := some (formatDate finish),
                 label := some label } ∧
      IsDayWindow 0 start finish firstDay lastDay ∧ firstDay ≤ lastDay ∧
      start ≤ finish ∧ start / msPerDay ≤ finish / msPerDay) ∧
    setPresetRange true 0 1742040000000 "this_month"
      = some { startDate := some "2025-03-01", endDate := some "2025-03-15",
               label := some "This Month" } :=
  ⟨presets_emit_ordered 0 1742040000000 "this_month" (by decide), by decide⟩

/-- C21 (failing input): now is Sunday 2025-03-16 at noon, in a zone at UTC.  The preset
this_week starts on Monday 2025-03-10, so the week before runs from 2025-03-03 to
2025-03-09; the preset last_week emits 2025-03-10..2025-03-16, the week that this_week
emits.  On the Saturday before, last_week emits 2025-03-03..2025-03-09. -/
theorem last_week_on_sunday :
    getDay 0 1742126400000 = 0 ∧
    isoDateString 1742126400000 = "2025-03-16" ∧
    setPresetRange true 0 1742126400000 "this_week"
      = some { startDate := some "2025-03-10", endDate := some "2025-03-16",
               label := some "This Week" } ∧
    setPresetRange true 0 1742126400000 "last_week"
      = some { startDate := some "2025-03-10", endDate := some "2025-03-16",
               label := some "Last Week" } ∧
    setPresetRange true 0 1742040000000 "last_week"
      = some { startDate := some "2025-03-03", endDate := some "2025-03-09",
               label := some "Last Week" } := by
  refine ⟨by decide, by decide, by decide, by decide, by decide⟩

/-- C28 (failing input): now is 2025-03-15 at 10:00 UTC.  In a zone two hours east of UTC
the local date is 2025-03-15, and the preset today emits startDate 2025-03-14 with endDate
2025-03-15; in a zone five hours west of UTC the local date is 2025-03-15 as well, and it
emits startDate 2025-03-15 with endDate 2025-03-16. -/
theorem today_preset_off_utc :
    civilFromDays (localDay 7200000 1742032800000) = (2025, 3, 15) ∧
    setPresetRange true 7200000 1742032800000 "today"
      = some { startDate := some "2025-03-14", endDate := some "2025-03-15",
               label := some "Today" } ∧
    civilFromDays (localDay (-18000000) 1742032800000) = (2025, 3, 15) ∧
    setPresetRange true (-18000000) 1742032800000 "today"
      = some { startDate := some "2025-03-15", endDate := some "2025-03-16",
               label := some "Today" } ∧
    setPresetRange true 0 1742032800000 "today"
      = some { startDate := some "2025-03-15", endDate := some "2025-03-15",
               label := some "Today" } := by
  refine ⟨by decide, by decide, by decide, by decide, by decide⟩

/-- C22 (failing input): now is 2025-02-10 at 10:00 UTC, in the first quarter of 2025 in
every zone considered.  In a zone two hours east of UTC the preset last_quarter emits
2024-09-30..2024-12-31, and in a zone five hours west of UTC 2024-10-01..2025-01-01; only
in a zone at UTC does it emit October 1 to December 31 of 2024.  The window is computed
in local time and its bounds are written as UTC dates. -/
theorem last_quarter_off_utc :
    civilFromDays (localDay 7200000 1739181600000) = (2025, 2, 10) ∧
    setPresetRange true 7200000 1739181600000 "last_quarter"
      = some { startDate := some "2024-09-30", endDate := some "2024-12-31",
               label := some "Last Quarter" } ∧
    civilFromDays (localDay (-18000000) 1739181600000) = (2025, 2, 10) ∧
    setPresetRange true (-18000000) 1739181600000 "last_quarter"
      = some { startDate := some "2024-10-01", endDate := some "2025-01-01",
               label := some "Last Quarter" } ∧
    setPresetRange true 0 1739181600000 "last_quarter"
      = some { startDate := some "2024-10-01", endDate := some "2024-12-31",
               label := some "Last Quarter" } := by
  refine ⟨by decide, by decide, by decide, by decide, by decide⟩

/-- C23 (failing input): now is 2025-03-15 at 10:00 UTC, the local date being 2025-03-15
in every zone considered.  In a zone two hours east of UTC the preset last_7_days emits
2025-03-08..2025-03-15, eight dates, and in a zone five hours west of UTC
2025-03-09..2025-03-16; only in a zone at UTC does it emit 2025-03-09..2025-03-15.  Two
hours east of UTC last_30_days emits 2025-02-13..2025-03-15, 31 dates. -/
theorem last_7_days_off_utc :
    civilFromDays (localDay 7200000 1742032800000) = (2025, 3, 15) ∧
    setPresetRange true 7200000 1742032800000 "last_7_days"
      = some { startDate := some "2025-03-08", endDate := some "2025-03-15",
               label := some "Last 7 Days" } ∧
    civilFromDays (localDay (-18000000) 1742032800000) = (2025, 3, 15) ∧
    setPresetRange true (-18000000) 1742032800000 "last_7_days"
      = some { startDate := some "2025-03-09", endDate := some "2025-03-16",
               label := some "Last 7 Days" } ∧
    setPresetRange true 0 1742032800000 "last_7_days"
      = some { startDate := some "2025-03-09", endDate := some "2025-03-15",
               label := some "Last 7 Days" } ∧
    setPresetRange true 7200000 1742032800000 "last_30_days"
      = some { startDate := some "2025-02-13", endDate := some "2025-03-15",
               label := some "Last 30 Days" } := by
  refine ⟨by decide, by decide, by decide, by decide, by decide, by decide⟩

/-- C25 (counterexample): given the start 2025-03-10 and the end 2025-03-01,
`setCustomRange` emits this range, whose start is later than its end, as it stands; given
a start that does not parse it throws. -/
theorem custom_range_not_validated :
    setCustomRange parseISODate true (some "2025-03-10") (some "2025-03-01") "Custom"
      = .ok (some { startDate := some "2025-03-10", endDate := some "2025-03-01",
                    label := some "Custom" }) ∧
    parseISODate "2025-03-10" = some 1741564800000 ∧
    parseISODate "2025-03-01" = some 1740787200000 ∧
    (1740787200000 : Int) < 1741564800000 ∧
    setCustomRange parseISODate true (some "not a date") (some "2025-03-01") "Custom"
      = .error "RangeError: Invalid time value" := by
  refine ⟨rfl, by decide, by decide, by decide, rfl⟩

/-- C25 (amended): `setCustomRange` does not validate its arguments.  For bounds that parse
as dates it emits both, each as the UTC date of its instant, in the order given and
whatever their order in time; a missing bound is emitted as `null`. -/
theorem custom_range_emitted_as_given (parseDate : String → Option Int) (s e label : String)
    (a b : Int) (hs : s ≠ "") (he : e ≠ "") (ha : parseDate s = some a)
    (hb : parseDate e = some b) :
    setCustomRange parseDate true (some s) (some e) label
      = .ok (some { startDate := some (isoDateString a), endDate := some (isoDateString b),
                    label := some label }) ∧
    setCustomRange parseDate true none (some e) label
      = .ok (some { startDate := none, endDate := some (isoDateString b),
                    label := some label }) ∧
    setCustomRange parseDate true (some s) none label
      = .ok (some { startDate := some (isoDateString a), endDate := none,
                    label := some label }) ∧
    setCustomRange parseDate true none none label
      = .ok (some { startDate := none, endDate := none, label := some label }) := by
  have hts : truthy (some s) = some s := by simp [truthy, hs]
  have hte : truthy (some e) = some e := by simp [truthy, he]
  have hfs : formatDateText parseDate (some s) = .ok (some (isoDateString a)) := by
    unfold formatDateText
    rw [hts]
    simp only [ha]
  have hfe : formatDateText parseDate (some e) = .ok (some (isoDateString b)) := by
    unfold formatDateText
    rw [hte]
    simp only [hb]
  have hfn : formatDateText parseDate none = .ok none := rfl
  refine ⟨?_, ?_, ?_, ?_⟩ <;> unfold setCustomRange <;>
    simp only [hfs, hfe, hfn, Bool.not_true, Bool.false_eq_true, if_false]

/-- C25 (amended), at the range 2025-03-10..2025-03-01. -/
theorem custom_range_emitted_as_given_witness :
    setCustomRange parseISODate true (some "2025-03-10") (some "2025-03-01") "Custom"
      = .ok (some { startDate := some (isoDateString 1741564800000),
                    endDate := some (isoDateString 1740787200000),
                    label := some "Custom" }) ∧
    setCustomRange parseISODate true none (some "2025-03-01") "Custom"
      = .ok (some { startDate := none, endDate := some (isoDateString 1740787200000),
                    label := some "Custom" }) ∧
    setCustomRange parseISODate true (some "2025-03-10") none "Custom"
      = .ok (some { startDate := some (isoDateString 1741564800000), endDate := none,
                    label := some "Custom" }) ∧
    setCustomRange parseISODate true none none "Custom"
      = .ok (some { startDate := none, endDate := none, label := some "Custom" }) :=
  custom_range_emitted_as_given parseISODate "2025-03-10" "2025-03-01" "Custom"
    1741564800000 1740787200000 (by decide) (by decide) (by decide) (by decide)

end Presets

/-! ## The date range hook of the provider -/

section ProviderHook

open UseDateRange DashboardProvider UseSalesData

theorem comparisonEffect_hookDateRange (zone : Zone) (parseDate : String → Option Int)
    (salesData : List Sale) (currentStats : Summary) (held : ComparisonData) :
    comparisonEffect zone parseDate salesData hookDateRange currentStats held = held := by
  unfold comparisonEffect hookDateRange
  simp [truthy]

theorem emitted_without_callback (parseDate : String → Option Int) (tz today : Int)
    (call : DateRangeCall) : call.emitted parseDate false tz today = .ok none := by
  cases call <;> rfl

/-- C30: a hook built without a callback emits nothing, whatever the arguments:
`setCustomRange`, `setPresetRange` and `clearDateRange` return at once, and so does the
initialisation of the default range.  The `dateRange` of the hook of `DashboardProvider`
has neither a startDate nor an endDate, and through every sequence of calls, each followed
by a render with any raw records and any current summary, the provider state stays the
initial one: the comparison data keep the empty previous set and the changes 0. -/
theorem provider_range_never_set (parseDate : String → Option Int) (tz : Int) (zone : Zone) :
    (∀ startDate endDate label,
      setCustomRange parseDate false startDate endDate label = .ok none) ∧
    (∀ today presetKey, setPresetRange false tz today presetKey = none) ∧
    clearDateRange false = none ∧
    (∀ today startDate endDate, defaultRange false tz today startDate endDate = none) ∧
    hookDateRange.startDate = none ∧ hookDateRange.endDate = none ∧
    (∀ events : List (DateRangeCall × Int × List Sale × Summary),
      events.foldl (providerStep parseDate tz zone) initialProviderState
        = initialProviderState) ∧
    initialProviderState.comparisonData.previousPeriodSales = [] ∧
    initialProviderState.comparisonData.percentChange
      = { totalSales := some 0, totalRevenue := some 0, averageOrderValue := some 0 } := by
  refine ⟨fun _ _ _ => rfl, fun _ _ => rfl, rfl, ?_, rfl, rfl, ?_, rfl, rfl⟩
  · intro today startDate endDate
    unfold defaultRange
    simp
  · intro events
    induction events with
    | nil => rfl
    | cons event rest ih =>
      rw [List.foldl_cons]
      have hstep : providerStep parseDate tz zone initialProviderState event
          = initialProviderState := by
        obtain ⟨call, today, salesData, currentStats⟩ := event
        unfold providerStep
        simp only [emitted_without_callback, comparisonEffect_hookDateRange]
        rfl
      rw [hstep]
      exact ih

/-- Whatever was called before, the provider is in its initial state. -/
theorem foldl_providerStep (parseDate : String → Option Int) (tz : Int) (zone : Zone)
    (events : List (DateRangeCall × Int × List Sale × Summary)) :
    events.foldl (providerStep parseDate tz zone) initialProviderState
      = initialProviderState := by
  induction events with
  | nil => rfl
  | cons event rest ih =>
    rw [List.foldl_cons]
    have hstep : providerStep parseDate tz zone initialProviderState event
        = initialProviderState := by
      obtain ⟨call, today, salesData, currentStats⟩ := event
      unfold providerStep
      simp only [emitted_without_callback, comparisonEffect_hookDateRange]
      rfl
    rw [hstep]
    exact ih

/-- C9 (failing input): the provider holds the raw records {2025-02-25, 100, A},
{2025-02-26, 70, B} and {2025-03-05, 50, A}, the category filter is [A], and the window
2025-03-01..2025-03-10 is requested through `setCustomDateRange`.  The previous window is
2025-02-19..2025-02-28; the first record lies in it and passes the category filter.  Yet
the previous-period set of the provider is empty after the request: the hook was built
without a callback, the window never reaches the comparison effect, and the exposed date
range has no bound. -/
theorem previous_period_set_stays_empty :
    (providerStep parseISODate 0 (Zone.fixed 0) initialProviderState
        (.setCustomRange (some "2025-03-01") (some "2025-03-10") "Custom", 1742040000000,
          [{ date := some "2025-02-25", amount := some 100, category := some "A" },
            { date := some "2025-02-26", amount := some 70, category := some "B" },
            { date := some "2025-03-05", amount := some 50, category := some "A" }],
          calculateSummary
            [{ date := some "2025-02-25", amount := some 100, category := some "A" },
              { date := some "2025-03-05", amount := some 50, category := some "A" }])
      ).comparisonData.previousPeriodSales = [] ∧
    (providerStep parseISODate 0 (Zone.fixed 0) initialProviderState
        (.setCustomRange (some "2025-03-01") (some "2025-03-10") "Custom", 1742040000000,
          [{ date := some "2025-02-25", amount := some 100, category := some "A" },
            { date := some "2025-02-26", amount := some 70, category := some "B" },
            { date := some "2025-03-05", amount := some 50, category := some "A" }],
          calculateSummary
            [{ date := some "2025-02-25", amount := some 100, category := some "A" },
              { date := some "2025-03-05", amount := some 50, category := some "A" }])
      ).dateRange = { startDate := none, endDate := none } ∧
    DateUtils.getPreviousPeriod (Zone.fixed 0) parseISODate (some "2025-03-01")
        (some "2025-03-10") = (some 1739923200000, some 1740700800000) ∧
    isoDateString 1739923200000 = "2025-02-19" ∧
    isoDateString 1740700800000 = "2025-02-28" ∧
    previousFilter parseISODate 1739923200000 1740700800000
        { date := some "2025-02-25", amount := some 100, category := some "A" } = true ∧
    memberFilter ["A"] (fun sale => sale.category)
        { date := some "2025-02-25", amount := some 100, category := some "A" } = true ∧
    filterPipeline toLowerCaseASCII parseISODate (Zone.fixed 0)
        [{ date := some "2025-02-25", amount := some 100, category := some "A" },
          { date := some "2025-02-26", amount := some 70, category := some "B" },
          { date := some "2025-03-05", amount := some 50, category := some "A" }]
        { categories := ["A"] }
      = [{ date := some "2025-02-25", amount := some 100, category := some "A" },
          { date := some "2025-03-05", amount := some 50, category := some "A" }] := by
  refine ⟨by decide!, by decide!, by decide, by decide, by decide, by decide!, by decide!,
    by decide!⟩

/-- C10 (failing input): the provider holds the raw record stamped 2025-02-28T12:00:00Z
and the window 2025-03-01..2025-03-10 is requested through `setCustomDateRange`.  The
previous window 2025-02-19..2025-02-28 ends on the day of the record, the day before the
current start.  The record is not in the previous-period set of the provider, which stays
empty and has no previous range, and it is not in the current window either. -/
theorem previous_window_last_day_missing :
    (providerStep parseISODate 0 (Zone.fixed 0) initialProviderState
        (.setCustomRange (some "2025-03-01") (some "2025-03-10") "Custom", 1742040000000,
          [{ date := some "2025-02-28T12:00:00Z", amount := some 100 }],
          calculateSummary [{ date := some "2025-02-28T12:00:00Z", amount := some 100 }])
      ).comparisonData.previousPeriodSales = [] ∧
    (providerStep parseISODate 0 (Zone.fixed 0) initialProviderState
        (.setCustomRange (some "2025-03-01") (some "2025-03-10") "Custom", 1742040000000,
          [{ date := some "2025-02-28T12:00:00Z", amount := some 100 }],
          calculateSummary [{ date := some "2025-02-28T12:00:00Z", amount := some 100 }])
      ).comparisonData.previousPeriodRange = none ∧
    (DateUtils.getPreviousPeriod (Zone.fixed 0) parseISODate (some "2025-03-01")
        (some "2025-03-10")).2 = some 1740700800000 ∧
    isoDateString 1740700800000 = "2025-02-28" ∧
    parseISODate "2025-02-28T12:00:00Z" = some 1740744000000 ∧
    isoDateString 1740744000000 = "2025-02-28" ∧
    parseISODate "2025-03-01" = some 1740787200000 ∧
    (1740744000000 : Int) < 1740787200000 := by
  refine ⟨by decide!, by decide!, by decide, by decide, by decide, by decide, by decide,
    by decide⟩

/-- C11 (failing input): the provider holds the raw records {2025-02-25, 100} and
{2025-03-05, 50} and the window 2025-03-01..2025-03-10 is requested through
`setCustomDateRange`.  The revenue of the window is 50 and that of the previous window
2025-02-19..2025-02-28 is 100, for which `calculatePercentChange` of the utilities gives
-50; the percent changes of the provider stay 0, because the comparison effect never gets
the window and applies no function at all.  The inline function of the effect is not the
one of the utilities either: it divides by `previous` instead of `|previous|`, so for
current 0 and previous -100 it gives -100 where the utilities give 100. -/
theorem percent_change_never_applied :
    (providerStep parseISODate 0 (Zone.fixed 0) initialProviderState
        (.setCustomRange (some "2025-03-01") (some "2025-03-10") "Custom", 1742040000000,
          [{ date := some "2025-02-25", amount := some 100 },
            { date := some "2025-03-05", amount := some 50 }],
          calculateSummary [{ date := some "2025-02-25", amount := some 100 },
            { date := some "2025-03-05", amount := some 50 }])
      ).comparisonData.percentChange
      = { totalSales := some 0, totalRevenue := some 0, averageOrderValue := some 0 } ∧
    (calculateSummary (filterPipeline toLowerCaseASCII parseISODate (Zone.fixed 0)
        [{ date := some "2025-02-25", amount := some 100 },
          { date := some "2025-03-05", amount := some 50 }]
        { startDate := some "2025-03-01", endDate := some "2025-03-10" })).totalRevenue = 50 ∧
    (calculateSummary (filterPipeline toLowerCaseASCII parseISODate (Zone.fixed 0)
        [{ date := some "2025-02-25", amount := some 100 },
          { date := some "2025-03-05", amount := some 50 }]
        { startDate := some "2025-02-19", endDate := some "2025-02-28" })).totalRevenue = 100 ∧
    Calculators.calculatePercentChange 50 100 = -50 ∧
    DashboardProvider.calculatePercentChange 0 (-100) = -100 ∧
    Calculators.calculatePercentChange 0 (-100) = 100 := by
  refine ⟨by decide!, by decide!, by decide!, ?_, ?_, ?_⟩
  · norm_num [Calculators.calculatePercentChange]
  · norm_num [DashboardProvider.calculatePercentChange]
  · norm_num [Calculators.calculatePercentChange, abs_of_neg]

/-- C13: whatever was called before and whatever window is requested through
`setCustomDateRange`, in particular a window whose start is later than its end or one with
a bound that does not parse, the call raises nothing and the comparison data of the
provider are the neutral result afterwards: an empty previous-period set and the changes 0
for totalSales, totalRevenue and averageOrderValue.  The comparison data held before are
the neutral result as well, since no call ever changes them.  So it is for the inverted
window 2025-03-10..2025-03-01 and for the start "not a date". -/
theorem invalid_window_request_neutral (parseDate : String → Option Int) (tz : Int)
    (zone : Zone) (events : List (DateRangeCall × Int × List Sale × Summary))
    (startDate endDate : Option String) (label : String) (today : Int)
    (salesData : List Sale) (currentStats : Summary) :
    (DateRangeCall.setCustomRange startDate endDate label).emitted parseDate false tz today
      = .ok none ∧
    (providerStep parseDate tz zone
        (events.foldl (providerStep parseDate tz zone) initialProviderState)
        (.setCustomRange startDate endDate label, today, salesData, currentStats)
      ).comparisonData
      = { previousPeriodSales := [], previousPeriodRange := none,
          percentChange :=
            { totalSales := some 0, totalRevenue := some 0, averageOrderValue := some 0 } } ∧
    (providerStep parseISODate 0 (Zone.fixed 0) initialProviderState
        (.setCustomRange (some "2025-03-10") (some "2025-03-01") "Custom", 1742040000000,
          [{ date := some "2025-02-25", amount := some 100 },
            { date := some "2025-03-05", amount := some 50 }],
          calculateSummary [{ date := some "2025-02-25", amount := some 100 },
            { date := some "2025-03-05", amount := some 50 }])
      ).comparisonData = initialComparisonData ∧
    (providerStep parseISODate 0 (Zone.fixed 0) initialProviderState
        (.setCustomRange (some "not a date") (some "2025-03-10") "Custom", 1742040000000,
          [{ date := some "2025-02-25", amount := some 100 },
            { date := some "2025-03-05", amount := some 50 }],
          calculateSummary [{ date := some "2025-02-25", amount := some 100 },
            { date := some "2025-03-05", amount := some 50 }])
      ).comparisonData = initialComparisonData := by
  refine ⟨rfl, ?_, by decide!, by decide!⟩
  rw [foldl_providerStep]
  unfold providerStep
  simp only [emitted_without_callback, comparisonEffect_hookDateRange]
  rfl

end ProviderHook

/-! ## The insights -/

section Insights

open DashboardProvider UseSalesData

theorem titles_sublist_singleton (rule : List Insight) (title : String)
    (hlen : rule.length ≤ 1) (htitle : ∀ insight ∈ rule, insight.title = title) :
    (rule.map (fun insight => insight.title)).Sublist [title] := by
  match rule, hlen, htitle with
  | [], _, _ => simp
  | [insight], _, htitle =>
    rw [List.map_singleton, htitle insight (List.mem_singleton_self insight)]
  | _ :: _ :: _, hlen, _ => simp at hlen

theorem topCategoryInsight_shape (summary : Summary) :
    (topCategoryInsight summary).length ≤ 1 ∧
    ∀ insight ∈ topCategoryInsight summary, insight.title = "Top Performing Category" := by
  unfold topCategoryInsight
  split
  · split
    · simp
    · simp
  · simp

theorem revenueTrendInsight_shape (series : List Bucket) :
    (revenueTrendInsight series).length ≤ 1 ∧
    ∀ insight ∈ revenueTrendInsight series, insight.title = "Recent Revenue Trend" := by
  unfold revenueTrendInsight
  split
  · simp only
    split
    · simp
    · simp
  · simp

theorem topRepInsight_shape (ranking : List Bucket) :
    (topRepInsight ranking).length ≤ 1 ∧
    ∀ insight ∈ topRepInsight ranking, insight.title = "Top Sales Rep" := by
  unfold topRepInsight
  split
  · simp
  · simp

theorem periodComparisonInsight_shape (percentChange : PercentChange) :
    (periodComparisonInsight percentChange).length ≤ 1 ∧
    ∀ insight ∈ periodComparisonInsight percentChange, insight.title = "Period Comparison" := by
  unfold periodComparisonInsight
  split
  · simp
  · simp

/-- C26: for a non-empty subset the insight list is the outputs of the four rules, top
category, recent revenue trend, top sales rep and period comparison, one after the other
in this order.  Each rule gives no insight or one, with the title of the rule; so the list
has at most four entries and its titles are a sublist of the four titles in their fixed
order. -/
theorem insights_in_rule_order (filteredData : List Sale) (percentChange : PercentChange)
    (hne : filteredData ≠ []) :
    (dashboardMetrics filteredData percentChange).insights
      = topCategoryInsight (calculateSummary filteredData)
        ++ revenueTrendInsight (dailySales filteredData)
        ++ topRepInsight (salesRepPerformance filteredData)
        ++ periodComparisonInsight percentChange ∧
    (topCategoryInsight (calculateSummary filteredData)).length ≤ 1 ∧
    (revenueTrendInsight (dailySales filteredData)).length ≤ 1 ∧
    (topRepInsight (salesRepPerformance filteredData)).length ≤ 1 ∧
    (periodComparisonInsight percentChange).length ≤ 1 ∧
    (dashboardMetrics filteredData percentChange).insights.length ≤ 4 ∧
    ((dashboardMetrics filteredData percentChange).insights.map
        (fun insight => insight.title)).Sublist
      ["Top Performing Category", "Recent Revenue Trend", "Top Sales Rep",
        "Period Comparison"] := by
  have hlen : filteredData.length ≠ 0 := fun h0 => hne (List.length_eq_zero.mp h0)
  have heq : (dashboardMetrics filteredData percentChange).insights
      = topCategoryInsight (calculateSummary filteredData)
        ++ revenueTrendInsight (dailySales filteredData)
        ++ topRepInsight (salesRepPerformance filteredData)
        ++ periodComparisonInsight percentChange := by
    unfold dashboardMetrics
    simp only [hlen, if_false, List.nil_append]
  obtain ⟨a1, a2⟩ := topCategoryInsight_shape (calculateSummary filteredData)
  obtain ⟨b1, b2⟩ := revenueTrendInsight_shape (dailySales filteredData)
  obtain ⟨c1, c2⟩ := topRepInsight_shape (salesRepPerformance filteredData)
  obtain ⟨d1, d2⟩ := periodComparisonInsight_shape percentChange
  refine ⟨heq, a1, b1, c1, d1, ?_, ?_⟩
  · rw [heq]
    simp only [List.length_append]
    omega
  · rw [heq]
    simp only [List.map_append]
    have s1 := titles_sublist_singleton _ _ a1 a2
    have s2 := titles_sublist_singleton _ _ b1 b2
    have s3 := titles_sublist_singleton _ _ c1 c2
    have s4 := titles_sublist_singleton _ _ d1 d2
    exact ((s1.append s2).append s3).append s4

/-- C26, at the subset of one record dated 2025-03-01 of category A. -/
theorem insights_in_rule_order_witness :
    (dashboardMetrics [{ date := some "2025-03-01", amount := some 100, category := some "A" }]
        initialComparisonData.percentChange).insights
      = topCategoryInsight (calculateSummary
          [{ date := some "2025-03-01", amount := some 100, category := some "A" }])
        ++ revenueTrendInsight (dailySales
          [{ date := some "2025-03-01", amount := some 100, category := some "A" }])
        ++ topRepInsight (salesRepPerformance
          [{ date := some "2025-03-01", amount := some 100, category := some "A" }])
        ++ periodComparisonInsight initialComparisonData.percentChange ∧
    (dashboardMetrics [{ date := some "2025-03-01", amount := some 100, category := some "A" }]
        initialComparisonData.percentChange).insights.length ≤ 4 ∧
    ((dashboardMetrics [{ date := some "2025-03-01", amount := some 100, category := some "A" }]
        initialComparisonData.percentChange).insights.map
        (fun insight => insight.title)).Sublist
      ["Top Performing Category", "Recent Revenue Trend", "Top Sales Rep",
        "Period Comparison"] :=
  ⟨(insights_in_rule_order
      [{ date := some "2025-03-01", amount := some 100, category := some "A" }]
      initialComparisonData.percentChange (by decide)).1,
    (insights_in_rule_order
      [{ date := some "2025-03-01", amount := some 100, category := some "A" }]
      initialComparisonData.percentChange (by decide)).2.2.2.2.2.1,
    (insights_in_rule_order
      [{ date := some "2025-03-01", amount := some 100, category := some "A" }]
      initialComparisonData.percentChange (by decide)).2.2.2.2.2.2⟩

theorem sum_accumulate (acc : List (String × ℚ)) (key : String) (x : ℚ) (k : String) :
    (((accumulate acc key x).filter (fun entry => decide (entry.1 = k))).map Prod.snd).sum
      = ((acc.filter (fun entry => decide (entry.1 = k))).map Prod.snd).sum
        + (if key = k then x else 0) := by
  induction acc with
  | nil =>
    by_cases h : key = k
    · simp [accumulate, h]
    · simp [accumulate, h]
  | cons p rest ih =>
    obtain ⟨k1, v⟩ := p
    by_cases h1 : k1 = key
    · subst h1
      by_cases h : k1 = k
      · simp [accumulate, h, List.filter_cons]
        ring
      · simp [accumulate, h, List.filter_cons]
    · by_cases h : k1 = k
      · subst h
        have h2 : ¬ key = k1 := fun hk => h1 hk.symm
        simp only [accumulate, h1, if_false, List.filter_cons, decide_True, if_true,
          List.map_cons, List.sum_cons, ih, h2]
        ring
      · simp only [accumulate, h1, if_false, List.filter_cons, h, decide_False,
          Bool.false_eq_true, ih]

/-- The totals of a grouped revenue that stand under the key `k` add up to the amounts of
the records whose field is `k`. -/
theorem groupRevenue_sum (field : Sale → Option String) (data : List Sale) (k : String) :
    (((groupRevenue field data).filter (fun entry => decide (entry.1 = k))).map Prod.snd).sum
      = ((data.filter (fun sale => decide (truthy (field sale) = some k))).map
          amountOrZero).sum := by
  have gen : ∀ acc : List (String × ℚ),
      (((data.foldl
        (fun acc sale =>
          match truthy (field sale) with
          | none => acc
          | some key => accumulate acc key (amountOrZero sale)) acc).filter
          (fun entry => decide (entry.1 = k))).map Prod.snd).sum
      = ((acc.filter (fun entry => decide (entry.1 = k))).map Prod.snd).sum
        + ((data.filter (fun sale => decide (truthy (field sale) = some k))).map
            amountOrZero).sum := by
    induction data with
    | nil => intro acc; simp
    | cons sale rest ih =>
      intro acc
      rw [List.foldl_cons, ih]
      cases hkey : truthy (field sale) with
      | none => simp [List.filter_cons, hkey]
      | some key =>
        simp only [sum_accumulate, List.filter_cons, hkey, Option.some.injEq]
        by_cases h : key = k
        · simp [h]
          ring
        · simp [h]
  unfold groupRevenue
  rw [gen []]
  simp

theorem filter_key_of_nodup (l : List (String × ℚ)) (k : String) (v : ℚ)
    (hnodup : (l.map Prod.fst).Nodup) (hmem : (k, v) ∈ l) :
    l.filter (fun entry => decide (entry.1 = k)) = [(k, v)] := by
  induction l with
  | nil => exact absurd hmem (List.not_mem_nil _)
  | cons p rest ih =>
    obtain ⟨k1, v1⟩ := p
    rw [List.map_cons, List.nodup_cons] at hnodup
    rcases List.mem_cons.mp hmem with h | h
    · cases h
      have hrest : rest.filter (fun entry => decide (entry.1 = k)) = [] := by
        rw [List.filter_eq_nil_iff]
        intro entry hentry hk
        simp only [decide_eq_true_eq] at hk
        have hfst : entry.1 ∈ rest.map Prod.fst := List.mem_map_of_mem Prod.fst hentry
        rw [hk] at hfst
        exact hnodup.1 hfst
      simp [List.filter_cons, hrest]
    · have hne : k1 ≠ k := by
        intro hk
        have hk1 : k1 ∈ rest.map Prod.fst := by
          rw [hk]
          exact List.mem_map_of_mem Prod.fst h
        exact hnodup.1 hk1
      simp only [List.filter_cons, hne, decide_False, Bool.false_eq_true, if_false]
      exact ih hnodup.2 h

/-- An entry of a grouped revenue holds the amounts of the records whose field is its
key. -/
theorem groupRevenue_entry (field : Sale → Option String) (data : List Sale) (k : String)
    (v : ℚ) (hmem : (k, v) ∈ groupRevenue field data) :
    v = ((data.filter (fun sale => decide (truthy (field sale) = some k))).map
          amountOrZero).sum := by
  have hnodup : ((groupRevenue field data).map Prod.fst).Nodup := by
    rw [keys_groupRevenue]
    exact nodup_firstOccurrences _
  have h := groupRevenue_sum field data k
  rw [filter_key_of_nodup _ k v hnodup hmem] at h
  simpa using h

theorem salesByCategory_eq (filteredData : List Sale) :
    (calculateSummary filteredData).salesByCategory
      = groupRevenue (fun sale => sale.category) filteredData := by
  unfold calculateSummary
  split
  · next h =>
    have hl : filteredData = [] := List.length_eq_zero.mp h
    simp [hl, emptySummary, groupRevenue]
  · rfl

/-- The head of the entries sorted by descending amount: an entry of the largest amount,
and the first of the entries with that amount. -/
theorem head_insertionSort_amount (entries : List (String × ℚ)) (hne : entries ≠ []) :
    ∃ top, (entries.insertionSort amountOrder).head? = some top ∧ top ∈ entries ∧
      (∀ entry ∈ entries, entry.2 ≤ top.2) ∧
      (entries.filter (fun entry => decide (entry.2 = top.2))).head? = some top := by
  have hr : ∀ a b : String × ℚ, amountOrder a b ↔ b.2 ≤ a.2 := by
    intro a b
    unfold amountOrder
    exact sub_nonpos
  obtain ⟨_, _, hperm, _, hmax, hstable⟩ :=
    take_insertionSort_ranking (fun entry : String × ℚ => entry.2) amountOrder hr entries 1
  cases hsorted : entries.insertionSort amountOrder with
  | nil =>
    have hlen := List.length_insertionSort amountOrder entries
    rw [hsorted] at hlen
    exact absurd (List.length_eq_zero.mp hlen.symm) hne
  | cons top rest =>
    rw [hsorted] at hperm hmax hstable
    simp only [List.take_succ_cons, List.take_zero, List.drop_succ_cons, List.drop_zero,
      List.singleton_append] at hperm hmax hstable
    refine ⟨top, rfl, hperm.mem_iff.mp (List.mem_cons_self _ _), ?_, ?_⟩
    · intro entry hentry
      rcases List.mem_cons.mp (hperm.mem_iff.mpr hentry) with h | h
      · rw [h]
      · exact hmax top (List.mem_singleton_self top) entry h
    · have hp := hstable top.2
      simp only [List.filter_cons, decide_True, if_true, List.filter_nil] at hp
      obtain ⟨tail, htail⟩ := hp
      rw [← htail]
      rfl

/-- C27 (counterexample): two categories named "10" and "9", met in this order, each with
the revenue 5.  The insight names "9": the entries of `salesByCategory` reach the sort in
the order in which the runtime lists the properties of the object, array indices first
and ascending, so of the two categories tied for the maximum the one met first, "10", is
not the one named. -/
theorem top_category_index_names :
    topCategoryInsight (calculateSummary [{ category := some "10", amount := some 5 },
        { category := some "9", amount := some 5 }])
      = [{ type := .positive, title := "Top Performing Category", subject := some "9",
           value := some 5 }] ∧
    (calculateSummary [{ category := some "10", amount := some 5 },
        { category := some "9", amount := some 5 }]).salesByCategory
      = [("10", 5), ("9", 5)] ∧
    ([{ category := some "10", amount := some 5 },
        { category := some "9", amount := some 5 }].filterMap
          (fun sale : Sale => truthy sale.category)).head? = some "10" := by
  refine ⟨by decide!, by decide!, by decide⟩

/-- C27 (amended): for a subset with a categorised record, no category name being a name
that every object inherits, the first insight is "Top Performing Category".  The category
it names has an entry in `salesByCategory` and the amount it quotes is that entry; no
category has a larger entry; and among the categories whose entry equals it the named one
stands first in the order in which the runtime lists the properties of `salesByCategory`:
the names that are array indices in ascending numeric order, then the other names in the
order of their first occurrence in the data. -/
theorem top_category_insight (filteredData : List Sale) (percentChange : PercentChange)
    (hcat : ∃ sale ∈ filteredData, truthy sale.category ≠ none)
    (_hown : OwnNames (filteredData.filterMap (fun sale => truthy sale.category))) :
    ∃ name amount,
      topCategoryInsight (calculateSummary filteredData)
        = [{ type := .positive, title := "Top Performing Category", subject := some name,
             value := some amount }] ∧
      (dashboardMetrics filteredData percentChange).insights.head?
        = some { type := .positive, title := "Top Performing Category",
                 subject := some name, value := some amount } ∧
      (name, amount) ∈ (calculateSummary filteredData).salesByCategory ∧
      (∀ entry ∈ (calculateSummary filteredData).salesByCategory, entry.2 ≤ amount) ∧
      ((ownProperties Prod.fst (calculateSummary filteredData).salesByCategory).filter
          (fun entry => decide (entry.2 = amount))).head? = some (name, amount) ∧
      (ownProperties Prod.fst (calculateSummary filteredData).salesByCategory).map Prod.fst
        = enumerationOrder (filteredData.filterMap (fun sale => truthy sale.category)) ∧
      (∀ names : List String, (∀ n ∈ names, isArrayIndex n = false) →
        enumerationOrder names = firstOccurrences names) := by
  obtain ⟨sale, hsale, hsome⟩ := hcat
  have hkeys := keys_groupRevenue (fun sale => sale.category) filteredData
  have hne0 : groupRevenue (fun sale => sale.category) filteredData ≠ [] := by
    intro hnil
    rw [hnil, List.map_nil] at hkeys
    cases hc : truthy sale.category with
    | none => exact hsome hc
    | some c =>
      have hmem : c ∈ firstOccurrences
          (filteredData.filterMap (fun sale => truthy sale.category)) := by
        rw [mem_firstOccurrences, List.mem_filterMap]
        exact ⟨sale, hsale, hc⟩
      rw [← hkeys] at hmem
      exact absurd hmem (List.not_mem_nil c)
  have hperm := perm_ownProperties Prod.fst
    (groupRevenue (fun sale => sale.category) filteredData)
  have hne : ownProperties Prod.fst (groupRevenue (fun sale => sale.category) filteredData)
      ≠ [] := by
    intro hnil
    rw [hnil] at hperm
    exact hne0 hperm.symm.eq_nil
  have hdata : filteredData.length ≠ 0 := by
    intro h0
    rw [List.length_eq_zero.mp h0] at hsale
    exact absurd hsale (List.not_mem_nil sale)
  obtain ⟨top, hhead, hmem, hmax, hfirst⟩ := head_insertionSort_amount _ hne
  have hlen : (ownProperties Prod.fst
      (groupRevenue (fun sale => sale.category) filteredData)).length ≠ 0 :=
    fun h0 => hne (List.length_eq_zero.mp h0)
  have hrule : topCategoryInsight (calculateSummary filteredData)
      = [{ type := .positive, title := "Top Performing Category", subject := some top.1,
           value := some top.2 }] := by
    unfold topCategoryInsight
    rw [salesByCategory_eq]
    simp only [hlen, ne_eq, not_false_eq_true, if_true, hhead]
  have hmem0 : top ∈ groupRevenue (fun sale => sale.category) filteredData :=
    hperm.mem_iff.mp hmem
  refine ⟨top.1, top.2, hrule, ?_, ?_, ?_, ?_, ?_, enumerationOrder_of_no_index⟩
  · unfold dashboardMetrics
    simp only [hdata, if_false, List.nil_append, hrule, List.singleton_append, List.cons_append,
      List.head?_cons]
  · rw [salesByCategory_eq]
    exact hmem0
  · rw [salesByCategory_eq]
    intro entry hentry
    exact hmax entry (hperm.mem_iff.mpr hentry)
  · rw [salesByCategory_eq]
    exact hfirst
  · rw [salesByCategory_eq]
    exact keys_ownProperties_groupRevenue _ _

/-- C27 (amended), at the subset [{A, 100}, {B, 300}, {7, 300}, {A, 200}, {C, 300}]: the
categories A, B, 7 and C all total 300; the runtime lists 7 first, and 7 is named. -/
theorem top_category_insight_witness :
    (∃ name amount,
      topCategoryInsight (calculateSummary
          [{ amount := some 100, category := some "A" },
            { amount := some 300, category := some "B" },
            { amount := some 300, category := some "7" },
            { amount := some 200, category := some "A" },
            { amount := some 300, category := some "C" }])
        = [{ type := .positive, title := "Top Performing Category", subject := some name,
             value := some amount }] ∧
      (∀ entry ∈ (calculateSummary
          [{ amount := some 100, category := some "A" },
            { amount := some 300, category := some "B" },
            { amount := some 300, category := some "7" },
            { amount := some 200, category := some "A" },
            { amount := some 300, category := some "C" }]).salesByCategory,
        entry.2 ≤ amount) ∧
      ((ownProperties Prod.fst (calculateSummary
          [{ amount := some 100, category := some "A" },
            { amount := some 300, category := some "B" },
            { amount := some 300, category := some "7" },
            { amount := some 200, category := some "A" },
            { amount := some 300, category := some "C" }]).salesByCategory).filter
          (fun entry => decide (entry.2 = amount))).head? = some (name, amount)) ∧
    topCategoryInsight (calculateSummary
        [{ amount := some 100, category := some "A" },
          { amount := some 300, category := some "B" },
          { amount := some 300, category := some "7" },
          { amount := some 200, category := some "A" },
          { amount := some 300, category := some "C" }])
      = [{ type := .positive, title := "Top Performing Category", subject := some "7",
           value := some 300 }] ∧
    ownProperties Prod.fst (calculateSummary
        [{ amount := some 100, category := some "A" },
          { amount := some 300, category := some "B" },
          { amount := some 300, category := some "7" },
          { amount := some 200, category := some "A" },
          { amount := some 300, category := some "C" }]).salesByCategory
      = [("7", 300), ("A", 300), ("B", 300), ("C", 300)] ∧
    topCategoryInsight (calculateSummary
        [{ amount := some 100, category := some "A" },
          { amount := some 300, category := some "B" },
          { amount := some 200, category := some "A" },
          { amount := some 400, category := some "C" }])
      = [{ type := .positive, title := "Top Performing Category", subject := some "C",
           value := some 400 }] :=
  ⟨(top_category_insight
      [{ amount := some 100, category := some "A" },
        { amount := some 300, category := some "B" },
        { amount := some 300, category := some "7" },
        { amount := some 200, category := some "A" },
        { amount := some 300, category := some "C" }]
      initialComparisonData.percentChange
      ⟨{ amount := some 100, category := some "A" }, by decide, by decide⟩
      (by decide)).elim
      (fun name h => h.elim (fun amount h2 =>
        ⟨name, amount, h2.1, h2.2.2.2.1, h2.2.2.2.2.1⟩)),
    by decide!, by decide!, by decide!⟩

end Insights

/-! ## The series and the totals -/

section SeriesTotals

open DashboardProvider UseSalesData

theorem sum_bumpOwn (acc : List Bucket) (key : String) (x : ℚ) :
    ((bumpOwn acc key x).map (fun b => b.count)).sum = (acc.map (fun b => b.count)).sum + 1 ∧
    ((bumpOwn acc key x).map (fun b => b.revenue)).sum
      = (acc.map (fun b => b.revenue)).sum + x := by
  induction acc with
  | nil => simp [bumpOwn]
  | cons b rest ih =>
    by_cases h : b.key = key
    · simp only [bumpOwn, h, if_true, List.map_cons, List.sum_cons]
      constructor
      · omega
      · ring
    · simp only [bumpOwn, h, if_false, List.map_cons, List.sum_cons, ih.1, ih.2]
      constructor
      · omega
      · ring

/-- The buckets built by the loop count the records that enter the dictionary and hold
their amounts. -/
theorem buckets_fold_sums (keyOf : String → String) (data : List Sale) :
    ((data.foldl
        (fun acc sale =>
          match truthy sale.date with
          | none => acc
          | some date => bump acc (keyOf date) (amountOrZero sale)) []).map
        (fun b => b.count)).sum
      = (data.filter (fun sale => decide (bucketKey keyOf sale ≠ none))).length ∧
    ((data.foldl
        (fun acc sale =>
          match truthy sale.date with
          | none => acc
          | some date => bump acc (keyOf date) (amountOrZero sale)) []).map
        (fun b => b.revenue)).sum
      = ((data.filter (fun sale => decide (bucketKey keyOf sale ≠ none))).map
          amountOrZero).sum := by
  have gen : ∀ acc : List Bucket,
      ((data.foldl
        (fun acc sale =>
          match truthy sale.date with
          | none => acc
          | some date => bump acc (keyOf date) (amountOrZero sale)) acc).map
        (fun b => b.count)).sum
      = (acc.map (fun b => b.count)).sum
        + (data.filter (fun sale => decide (bucketKey keyOf sale ≠ none))).length ∧
      ((data.foldl
        (fun acc sale =>
          match truthy sale.date with
          | none => acc
          | some date => bump acc (keyOf date) (amountOrZero sale)) acc).map
        (fun b => b.revenue)).sum
      = (acc.map (fun b => b.revenue)).sum
        + ((data.filter (fun sale => decide (bucketKey keyOf sale ≠ none))).map
            amountOrZero).sum := by
    induction data with
    | nil => intro acc; simp
    | cons sale rest ih =>
      intro acc
      rw [List.foldl_cons, bucket_step]
      cases hkey : bucketKey keyOf sale with
      | none =>
        have hd : decide (bucketKey keyOf sale ≠ none) = false := by simp [hkey]
        rw [List.filter_cons]
        simp only [hd, Bool.false_eq_true, if_false]
        exact ih acc
      | some key =>
        obtain ⟨h1, h2⟩ := ih (bumpOwn acc key (amountOrZero sale))
        obtain ⟨b1, b2⟩ := sum_bumpOwn acc key (amountOrZero sale)
        have hd : decide (bucketKey keyOf sale ≠ none) = true := by simp [hkey]
        rw [List.filter_cons]
        simp only [hd, if_true, List.length_cons, List.map_cons, List.sum_cons]
        constructor
        · rw [h1, b1]
          omega
        · rw [h2, b2]
          ring
  obtain ⟨h1, h2⟩ := gen []
  constructor
  · rw [h1]
    simp
  · rw [h2]
    simp

theorem foldl_skip {β : Type} (step : β → Sale → β) (init : β) (before after : List Sale)
    (r : Sale) (hskip : ∀ acc, step acc r = acc) :
    (before ++ r :: after).foldl step init = (before ++ after).foldl step init := by
  rw [List.foldl_append, List.foldl_cons, hskip, ← List.foldl_append]

/-- C29 (counterexample): three records, 19.99 on 2025-03-01, 29.99 on 2025-03-02 and 49.95
on 2025-03-01, every one with a date.  In the floating-point arithmetic of the runtime
totalRevenue is (19.99 + 29.99) + 49.95 = 99.93, while the daily entries hold
19.99 + 49.95 = 69.94 and 29.99, which add up to 99.92999999999999: one unit in the last
place less when added as the runtime adds, and not 99.93 when added exactly either.  The
two monthly entries 2025-03 and 2025-04 of the records 19.99 on 2025-03-01, 29.99 on
2025-04-02 and 49.95 on 2025-03-01 differ from totalRevenue in the same way.  The counts
of these records do add up to 3; the counts fail for a record whose date is the name of a
property that every object inherits: the one record dated "valueOf" is counted by the
summary, with its amount 5, and makes no daily and no monthly entry. -/
theorem daily_revenue_rounding :
    Binary64.totalRevenue [{ date := some "2025-03-01", amount := some (1999 / 100) },
        { date := some "2025-03-02", amount := some (2999 / 100) },
        { date := some "2025-03-01", amount := some (4995 / 100) }]
      = Binary64.round (9993 / 100) ∧
    Binary64.dailySales [{ date := some "2025-03-01", amount := some (1999 / 100) },
        { date := some "2025-03-02", amount := some (2999 / 100) },
        { date := some "2025-03-01", amount := some (4995 / 100) }]
      = [{ key := "2025-03-01", count := 2, revenue := Binary64.round (6994 / 100) },
          { key := "2025-03-02", count := 1, revenue := Binary64.round (2999 / 100) }] ∧
    Binary64.add (Binary64.add 0 (Binary64.round (6994 / 100))) (Binary64.round (2999 / 100))
      = Binary64.round (9992999999999999 / 100000000000000) ∧
    Binary64.round (9993 / 100) - Binary64.round (9992999999999999 / 100000000000000)
      = 1 / 2 ^ 46 ∧
    Binary64.round (9993 / 100)
      - (Binary64.round (6994 / 100) + Binary64.round (2999 / 100)) = 3 / 2 ^ 48 ∧
    ((Binary64.dailySales [{ date := some "2025-03-01", amount := some (1999 / 100) },
        { date := some "2025-03-02", amount := some (2999 / 100) },
        { date := some "2025-03-01", amount := some (4995 / 100) }]).map
          (fun b => b.revenue)).foldl Binary64.add 0
      ≠ Binary64.totalRevenue [{ date := some "2025-03-01", amount := some (1999 / 100) },
        { date := some "2025-03-02", amount := some (2999 / 100) },
        { date := some "2025-03-01", amount := some (4995 / 100) }] ∧
    ((Binary64.dailySales [{ date := some "2025-03-01", amount := some (1999 / 100) },
        { date := some "2025-03-02", amount := some (2999 / 100) },
        { date := some "2025-03-01", amount := some (4995 / 100) }]).map
          (fun b => b.revenue)).sum
      ≠ Binary64.totalRevenue [{ date := some "2025-03-01", amount := some (1999 / 100) },
        { date := some "2025-03-02", amount := some (2999 / 100) },
        { date := some "2025-03-01", amount := some (4995 / 100) }] ∧
    ((Binary64.monthlySales [{ date := some "2025-03-01", amount := some (1999 / 100) },
        { date := some "2025-04-02", amount := some (2999 / 100) },
        { date := some "2025-03-01", amount := some (4995 / 100) }]).map
          (fun b => b.revenue)).foldl Binary64.add 0
      ≠ Binary64.totalRevenue [{ date := some "2025-03-01", amount := some (1999 / 100) },
        { date := some "2025-04-02", amount := some (2999 / 100) },
        { date := some "2025-03-01", amount := some (4995 / 100) }] ∧
    ((dailySales [{ date := some "2025-03-01", amount := some (1999 / 100) },
        { date := some "2025-03-02", amount := some (2999 / 100) },
        { date := some "2025-03-01", amount := some (4995 / 100) }]).map
          (fun b => b.count)).sum = 3 ∧
    truthy ({ date := some "valueOf", amount := some 5 } : Sale).date = some "valueOf" ∧
    (calculateSummary [{ date := some "valueOf", amount := some 5 }]).totalSales = 1 ∧
    (calculateSummary [{ date := some "valueOf", amount := some 5 }]).totalRevenue = 5 ∧
    ((dailySales [{ date := some "valueOf", amount := some 5 }]).map
        (fun b => b.count)).sum = 0 ∧
    ((monthlySales [{ date := some "valueOf", amount := some 5 }]).map
        (fun b => b.count)).sum = 0 := by
  refine ⟨by decide!, by decide!, by decide!, by decide!, by decide!, by decide!, by decide!,
    by decide!, by decide!, by decide, by decide!, by decide!, by decide!, by decide!⟩

/-- C29 (amended): when every record of the subset has a date whose day key and month key
are not names that every object inherits, the counts of `dailySales` add up to totalSales,
and so do those of `monthlySales`; the revenues of the entries and totalRevenue are sums of
the same amounts, each record counted in one daily and one monthly entry, so they are equal
when the sums are taken exactly, as they are here.  A record without a date changes no
daily, monthly or sales-rep entry, yet the summary counts it and, in exact arithmetic, adds
its amount. -/
theorem series_sum_to_totals (filteredData : List Sale)
    (hkeys : ∀ sale ∈ filteredData,
      bucketKey dayKey sale ≠ none ∧
        bucketKey (fun date => monthKey (dayKey date)) sale ≠ none) :
    ((dailySales filteredData).map (fun b => b.revenue)).sum
      = (calculateSummary filteredData).totalRevenue ∧
    (((dailySales filteredData).map (fun b => b.count)).sum : Nat)
      = (calculateSummary filteredData).totalSales ∧
    ((monthlySales filteredData).map (fun b => b.revenue)).sum
      = (calculateSummary filteredData).totalRevenue ∧
    (((monthlySales filteredData).map (fun b => b.count)).sum : Nat)
      = (calculateSummary filteredData).totalSales ∧
    (∀ (before after : List Sale) (r : Sale), truthy r.date = none →
      dailySales (before ++ r :: after) = dailySales (before ++ after) ∧
      monthlySales (before ++ r :: after) = monthlySales (before ++ after) ∧
      salesRepPerformance (before ++ r :: after) = salesRepPerformance (before ++ after) ∧
      (calculateSummary (before ++ r :: after)).totalSales
        = (calculateSummary (before ++ after)).totalSales + 1 ∧
      (calculateSummary (before ++ r :: after)).totalRevenue
        = (calculateSummary (before ++ after)).totalRevenue + amountOrZero r) := by
  have hday : filteredData.filter (fun sale => decide (bucketKey dayKey sale ≠ none))
      = filteredData := by
    rw [List.filter_eq_self]
    intro sale hsale
    exact decide_eq_true (hkeys sale hsale).1
  have hmonth : filteredData.filter
      (fun sale => decide (bucketKey (fun date => monthKey (dayKey date)) sale ≠ none))
      = filteredData := by
    rw [List.filter_eq_self]
    intro sale hsale
    exact decide_eq_true (hkeys sale hsale).2
  obtain ⟨d1, d2⟩ := buckets_fold_sums dayKey filteredData
  obtain ⟨m1, m2⟩ := buckets_fold_sums (fun date => monthKey (dayKey date)) filteredData
  rw [hday] at d1 d2
  rw [hmonth] at m1 m2
  have pd := (List.perm_insertionSort keyOrder
    (ownProperties Bucket.key (salesByDay filteredData))).trans (perm_ownProperties _ _)
  have pm := (List.perm_insertionSort keyOrder
    (ownProperties Bucket.key (salesByMonth filteredData))).trans (perm_ownProperties _ _)
  refine ⟨?_, ?_, ?_, ?_, ?_⟩
  · rw [calculateSummary_totalRevenue]
    unfold dailySales
    rw [(pd.map (fun b => b.revenue)).sum_eq]
    exact d2
  · rw [calculateSummary_totalSales]
    unfold dailySales
    rw [(pd.map (fun b => b.count)).sum_eq]
    exact d1
  · rw [calculateSummary_totalRevenue]
    unfold monthlySales
    rw [(pm.map (fun b => b.revenue)).sum_eq]
    exact m2
  · rw [calculateSummary_totalSales]
    unfold monthlySales
    rw [(pm.map (fun b => b.count)).sum_eq]
    exact m1
  · intro before after r hr
    refine ⟨?_, ?_, ?_, ?_, ?_⟩
    · unfold dailySales salesByDay
      rw [foldl_skip _ _ before after r (fun acc => by simp only [hr])]
    · unfold monthlySales salesByMonth
      rw [foldl_skip _ _ before after r (fun acc => by simp only [hr])]
    · unfold salesRepPerformance salesByRep
      rw [foldl_skip _ _ before after r (fun acc => by simp only [hr])]
    · simp only [calculateSummary_totalSales, List.length_append, List.length_cons]
      omega
    · simp only [calculateSummary_totalRevenue, List.map_append, List.map_cons,
        List.sum_append, List.sum_cons]
      ring

/-- C29 (amended), at three dated records on two days of two months. -/
theorem series_sum_to_totals_witness :
    ((dailySales [{ date := some "2025-03-01", amount := some 100 },
        { date := some "2025-03-01T10:00:00Z", amount := some 50 },
        { date := some "2025-04-02", amount := some 25 }]).map (fun b => b.revenue)).sum
      = (calculateSummary [{ date := some "2025-03-01", amount := some 100 },
        { date := some "2025-03-01T10:00:00Z", amount := some 50 },
        { date := some "2025-04-02", amount := some 25 }]).totalRevenue ∧
    (((dailySales [{ date := some "2025-03-01", amount := some 100 },
        { date := some "2025-03-01T10:00:00Z", amount := some 50 },
        { date := some "2025-04-02", amount := some 25 }]).map (fun b => b.count)).sum : Nat)
      = (calculateSummary [{ date := some "2025-03-01", amount := some 100 },
        { date := some "2025-03-01T10:00:00Z", amount := some 50 },
        { date := some "2025-04-02", amount := some 25 }]).totalSales ∧
    dailySales [{ date := some "2025-03-01", amount := some 100 },
        { date := some "2025-03-01T10:00:00Z", amount := some 50 },
        { date := some "2025-04-02", amount := some 25 }]
      = [{ key := "2025-03-01", count := 2, revenue := 150 },
          { key := "2025-04-02", count := 1, revenue := 25 }] ∧
    monthlySales [{ date := some "2025-03-01", amount := some 100 },
        { date := some "2025-03-01T10:00:00Z", amount := some 50 },
        { date := some "2025-04-02", amount := some 25 }]
      = [{ key := "2025-03", count := 2, revenue := 150 },
          { key := "2025-04", count := 1, revenue := 25 }] :=
  ⟨(series_sum_to_totals [{ date := some "2025-03-01", amount := some 100 },
        { date := some "2025-03-01T10:00:00Z", amount := some 50 },
        { date := some "2025-04-02", amount := some 25 }] (by decide)).1,
    (series_sum_to_totals [{ date := some "2025-03-01", amount := some 100 },
        { date := some "2025-03-01T10:00:00Z", amount := some 50 },
        { date := some "2025-04-02", amount := some 25 }] (by decide)).2.1,
    by decide!, by decide!⟩

end SeriesTotals

end SalesDashboard
